import Mathlib

/-!
# Chat front-end: message reconciliation and the STOMP connection manager

A shallow embedding of

* `src/components/ChatRoom.js` (`toNumber`, `getMessageId`, `normalizeServerMessage`,
  `sortByTimestamp`, `handleIncomingMessage`, `handleSendMessage`),
* `src/utils/validators.js` (`validText`),
* `src/hooks/useChat.js` (`publish`),
* `src/api/stompClient.js` (`StompClientManager`),

followed by the properties proved about them.

Modelling conventions.

* JavaScript numbers are modelled by `JsNum`: an integer or `NaN`.  Fractions, infinities and
  integers that a double cannot hold are outside the model.
* JavaScript objects other than the payload record itself are outside the value domain `JsVal`.
* The clock (`Date.now()`), `uuidv4()`, `Number` on strings and `JSON.stringify` are inputs of
  the functions that read them.
* `Array.prototype.sort` is stable (ECMAScript 2019) and is driven only by the results of its
  comparator; it is modelled by a stable insertion sort that consults the comparator.
* React state updaters are applied once, in the order in which they were queued.
-/

namespace Chat

/-! ## JavaScript values -/

/-- A JavaScript number of the model: an integer or `NaN`. -/
inductive JsNum where
  | fin (n : Int)
  | nan
deriving DecidableEq, Repr

/-- A primitive JavaScript value. -/
inductive JsVal where
  | undefined
  | null
  | bool (b : Bool)
  | num (x : JsNum)
  | str (s : String)
deriving DecidableEq, Repr

namespace JsNum

/-- Strict equality `a === b` on numbers: `NaN` equals nothing. -/
def strictEq : JsNum → JsNum → Bool
  | fin a, fin b => decide (a = b)
  | _, _ => false

/-- The comparison `a < b` on numbers: false when either side is `NaN`. -/
def lt : JsNum → JsNum → Bool
  | fin a, fin b => decide (a < b)
  | _, _ => false

/-- The comparison `a <= b` on numbers: false when either side is `NaN`. -/
def le : JsNum → JsNum → Bool
  | fin a, fin b => decide (a ≤ b)
  | _, _ => false

/-- Subtraction `a - b`. -/
def sub : JsNum → JsNum → JsNum
  | fin a, fin b => fin (a - b)
  | _, _ => nan

/-- The function `Math.abs`. -/
def abs : JsNum → JsNum
  | fin a => fin (Int.ofNat a.natAbs)
  | nan => nan

/-- The number of binary digits of `x`. -/
def binaryDigits (x : Nat) : Nat :=
  if x = 0 then 0 else (Nat.toDigits 2 x).length

/-- The double nearest to the natural number `x`, a tie going to the even significand; a
number of at most 53 binary digits is a double itself. -/
def roundToDouble (x : Nat) : Nat :=
  let bits := binaryDigits x
  if bits ≤ 53 then x
  else
    let q := bits - 53
    let m := x / 2 ^ q
    let r := x % 2 ^ q
    let half := 2 ^ (q - 1)
    if r < half then m * 2 ^ q
    else if r = half ∧ m % 2 = 0 then m * 2 ^ q
    else (m + 1) * 2 ^ q

/-- For a double `x` with an integer value: the integer with the fewest significant decimal
digits whose nearest double is `x`; of several, the one closest to `x`, and of two equally
close the one whose last significant digit is even.  Below `2 ^ 53` it is `x` itself.  The
doubles next to `x` are `2 ^ q` above and, unless `x` is a power of two, `2 ^ q` below; the
bounds `lo4` and `hi4` are four times the midpoints, which round to `x` when its significand
`m` is even. -/
def shortestDecimal (x : Nat) : Nat :=
  let bits := binaryDigits x
  if bits ≤ 53 then x
  else
    let q := bits - 53
    let m := x / 2 ^ q
    let hi4 := 4 * x + 2 * 2 ^ q
    let lo4 := 4 * x - (if m = 2 ^ 52 then 2 ^ q else 2 * 2 ^ q)
    let inside := fun v : Nat =>
      if m % 2 = 0 then decide (lo4 ≤ 4 * v ∧ 4 * v ≤ hi4)
      else decide (lo4 < 4 * v ∧ 4 * v < hi4)
    let digits := (Nat.toDigits 10 x).length
    ((List.range digits).findSome? (fun i =>
      let p := 10 ^ (digits - (i + 1))
      let low := x / p * p
      let high := low + p
      match inside low, inside high with
      | true, true =>
        if x - low < high - x then some low
        else if high - x < x - low then some high
        else if (x / p) % 2 = 0 then some low
        else some high
      | true, false => some low
      | false, true => some high
      | false, false => none)).getD x

/-- The text of `Number::toString` for the decimal `v`: all digits when there are at most
21, and the exponent form (`d.ddde+n`) when there are more. -/
def formatDecimal (v : Nat) : String :=
  let ds := Nat.toDigits 10 v
  if ds.length ≤ 21 then toString v
  else
    match (ds.reverse.dropWhile (fun c => c = '0')).reverse with
    | [] => "0"
    | d :: rest =>
      String.mk (d :: (if rest = [] then [] else '.' :: rest)) ++ "e+" ++
        toString (ds.length - 1)

/-- Conversion of a number to a string, as in a template literal (`Number::toString`): the
shortest decimal that reads back as the same double, in full up to 21 digits and in exponent
form beyond.  An integer of magnitude below `2 ^ 53` is printed digit by digit.  An integer
that is not a double is printed as the double nearest to it, as its literal would be, and
that is `Infinity` from `2 ^ 1024` on. -/
def toJsString : JsNum → String
  | fin a =>
    let x := roundToDouble a.natAbs
    if 1024 < binaryDigits x then (if a < 0 then "-Infinity" else "Infinity")
    else (if a < 0 then "-" else "") ++ formatDecimal (shortestDecimal x)
  | nan => "NaN"

/-- Whether the number is an actual number, that is, not `NaN`. -/
def isFinite : JsNum → Bool
  | fin _ => true
  | nan => false

end JsNum

namespace JsVal

/-- Truthiness (`ToBoolean`): `undefined`, `null`, `false`, `0`, `NaN` and `""` are falsy. -/
def truthy : JsVal → Bool
  | undefined => false
  | null => false
  | bool b => b
  | num (JsNum.fin n) => decide (n ≠ 0)
  | num JsNum.nan => false
  | str s => decide (s ≠ "")

/-- Strict equality `a === b` on primitive values. -/
def strictEq : JsVal → JsVal → Bool
  | num a, num b => JsNum.strictEq a b
  | a, b => decide (a = b)

/-- The logical or `a || b`. -/
def or (a b : JsVal) : JsVal := if a.truthy then a else b

/-- Conversion to a string (`ToString`), as in a template literal. -/
def toJsString : JsVal → String
  | undefined => "undefined"
  | null => "null"
  | bool true => "true"
  | bool false => "false"
  | num x => x.toJsString
  | str s => s

end JsVal

/-- The function `Number(value)`.  Its value on strings is the input `strNum`. -/
def jsNumber (strNum : String → JsNum) : JsVal → JsNum
  | JsVal.undefined => JsNum.nan
  | JsVal.null => JsNum.fin 0
  | JsVal.bool true => JsNum.fin 1
  | JsVal.bool false => JsNum.fin 0
  | JsVal.num x => x
  | JsVal.str s => strNum s

/-! ## `ChatRoom.js`: messages -/

/-- The constant `OPTIMISTIC_MATCH_THRESHOLD`. -/
def OPTIMISTIC_MATCH_THRESHOLD : Int := 3000

/-- A server payload that is an object: the fields the code reads.  A field that is absent
is `undefined`. -/
structure Payload where
  messageId : JsVal
  pk : JsVal
  id : JsVal
  nickname : JsVal
  message : JsVal
  timestamp : JsVal
  ttl : JsVal
deriving DecidableEq, Repr

/-- An entry of the message list.  Server messages have no `optimisticId` and optimistic
messages have no `messageId`, `pk` or `ttl`: an absent field is `undefined`. -/
structure Message where
  id : JsVal
  messageId : JsVal
  pk : JsVal
  nickname : String
  message : String
  timestamp : JsNum
  ttl : JsVal
  pending : Bool
  error : Bool
  optimisticId : JsVal
deriving DecidableEq, Repr

/-- The function `toNumber`; `now` is the value `Date.now()` would return. -/
def toNumber (strNum : String → JsNum) (now : Int) (value : JsVal) : JsNum :=
  match value with
  | JsVal.num x => x
  | v =>
    match jsNumber strNum v with
    | JsNum.nan => JsNum.fin now
    | parsed => parsed

/-- The function `getMessageId`; `none` is a falsy payload. -/
def getMessageId (strNum : String → JsNum) (now : Int) : Option Payload → JsVal
  | none => JsVal.str ""
  | some payload =>
    if payload.messageId.truthy then payload.messageId
    else if payload.pk.truthy then payload.pk
    else if payload.id.truthy then payload.id
    else
      let timestamp := toNumber strNum now payload.timestamp
      let nickname := payload.nickname.or (JsVal.str "guest")
      let message := payload.message.or (JsVal.str "")
      JsVal.str (nickname.toJsString ++ "-" ++ timestamp.toJsString ++ "-" ++ message.toJsString)

/-- The function `normalizeServerMessage`.  It reads the clock twice: `now₁` in its own call
of `toNumber`, `now₂` in the call made by `getMessageId`. -/
def normalizeServerMessage (strNum : String → JsNum) (now₁ now₂ : Int) :
    Option Payload → Option Message
  | none => none
  | some payload =>
    let timestamp := toNumber strNum now₁ payload.timestamp
    let text := match payload.message with
      | JsVal.str s => s
      | _ => ""
    let nickname := match payload.nickname with
      | JsVal.str s => s
      | _ => "Guest"
    let id := getMessageId strNum now₂ (some payload)
    some {
      id := id
      messageId := payload.messageId.or JsVal.null
      pk := payload.pk.or JsVal.null
      nickname := nickname
      message := text
      timestamp := timestamp
      ttl := payload.ttl
      pending := false
      error := false
      optimisticId := JsVal.undefined }

/-- The comparator handed to `sort` by `sortByTimestamp` (and by `sortMessages`). -/
def compareTimestamp (a b : Message) : Int :=
  if JsNum.strictEq a.timestamp b.timestamp then 0
  else if JsNum.lt a.timestamp b.timestamp then -1 else 1

/-- Insertion of `a`, the element that came first in the input, into a sorted list: it goes
before the first element it does not have to follow. -/
def jsSortInsert {α : Type} (cmp : α → α → Int) (a : α) : List α → List α
  | [] => [a]
  | b :: l => if cmp a b ≤ 0 then a :: b :: l else b :: jsSortInsert cmp a l

/-- The stable sort `[...list].sort(cmp)`. -/
def jsSort {α : Type} (cmp : α → α → Int) : List α → List α
  | [] => []
  | a :: l => jsSortInsert cmp a (jsSort cmp l)

/-- The function `sortByTimestamp`. -/
def sortByTimestamp (list : List Message) : List Message :=
  jsSort compareTimestamp list

/-- The method `Array.prototype.findIndex`; `none` is the result `-1`. -/
def findIndex {α : Type} (p : α → Bool) : List α → Option Nat
  | [] => none
  | a :: l => if p a then some 0 else (findIndex p l).map Nat.succ

/-- The state the reconciliation works on: the `messages` state of the component and the
set held by `seenMessageIdsRef`. -/
structure ChatState where
  messages : List Message
  seen : List JsVal
deriving DecidableEq, Repr

/-- The method `Set.prototype.add`. -/
def seenAdd (seen : List JsVal) (k : JsVal) : List JsVal :=
  if k ∈ seen then seen else seen ++ [k]

/-- The first predicate of `handleIncomingMessage`: the entry matches the server identity. -/
def matchesServerId (serverId : JsVal) (msg : Message) : Bool :=
  msg.id.strictEq serverId || msg.messageId.strictEq serverId || msg.pk.strictEq serverId

/-- The second predicate of `handleIncomingMessage`: a pending entry with the nickname and
text of the normalized message, whose timestamp is within the threshold. -/
def matchesOptimistic (normalized : Message) (msg : Message) : Bool :=
  if !msg.pending then false
  else
    let diff := JsNum.abs (JsNum.sub normalized.timestamp msg.timestamp)
    decide (msg.nickname = normalized.nickname) && decide (msg.message = normalized.message) &&
      JsNum.le diff (JsNum.fin OPTIMISTIC_MATCH_THRESHOLD)

/-- The function `handleIncomingMessage`, with the state updater applied. -/
def handleIncomingMessage (strNum : String → JsNum) (now₁ now₂ : Int)
    (payload : Option Payload) (st : ChatState) : ChatState :=
  match normalizeServerMessage strNum now₁ now₂ payload with
  | none => st
  | some normalized =>
    let serverId := normalized.id
    let prevMessages := st.messages
    match (if serverId.truthy then findIndex (matchesServerId serverId) prevMessages
           else none) with
    | some existingIndex =>
      { messages := sortByTimestamp (prevMessages.set existingIndex normalized)
        seen := if normalized.id.truthy then seenAdd st.seen normalized.id else st.seen }
    | none =>
      match findIndex (matchesOptimistic normalized) prevMessages with
      | some optimisticIndex =>
        { messages := sortByTimestamp (prevMessages.set optimisticIndex normalized)
          seen := if normalized.id.truthy then seenAdd st.seen normalized.id else st.seen }
      | none =>
        if serverId.truthy && decide (serverId ∈ st.seen) then st
        else
          { messages := sortByTimestamp (prevMessages ++ [normalized])
            seen := if serverId.truthy then seenAdd st.seen serverId else st.seen }

/-- Every timestamp of the list is an actual number (not `NaN`). -/
def AllNumeric (l : List Message) : Prop := ∀ m ∈ l, m.timestamp.isFinite = true

/-- The list is ascending by timestamp. -/
def Ascending (l : List Message) : Prop :=
  l.Pairwise (fun a b => JsNum.le a.timestamp b.timestamp = true)

/-! ### Inputs used in examples -/

/-- An instance of `Number` on strings for the examples, in which no string is numeric. -/
def nonNumeric : String → JsNum := fun _ => JsNum.nan

/-- The payload `{ messageId, pk, nickname, message, timestamp }` with a numeric timestamp. -/
def examplePayload (messageId pk : JsVal) (nickname text : String) (timestamp : Int) :
    Payload :=
  { messageId := messageId
    pk := pk
    id := JsVal.undefined
    nickname := JsVal.str nickname
    message := JsVal.str text
    timestamp := JsVal.num (JsNum.fin timestamp)
    ttl := JsVal.undefined }

/-- The optimistic message `handleSendMessage` creates for the id `uuid`. -/
def examplePending (uuid nickname text : String) (timestamp : Int) : Message :=
  { id := JsVal.str uuid
    messageId := JsVal.undefined
    pk := JsVal.undefined
    nickname := nickname
    message := text
    timestamp := JsNum.fin timestamp
    ttl := JsVal.undefined
    pending := true
    error := false
    optimisticId := JsVal.str uuid }

/-! ## `validators.js` -/

/-- The constant `MAX_MESSAGE_LENGTH`. -/
def MAX_MESSAGE_LENGTH : Nat := 500

/-- The characters `String.prototype.trim` removes: ECMAScript white space and line
terminators. -/
def jsIsWhitespace (c : Char) : Bool :=
  let n := c.toNat
  n = 0x09 || n = 0x0A || n = 0x0B || n = 0x0C || n = 0x0D || n = 0x20 || n = 0xA0 ||
  n = 0x1680 || (0x2000 ≤ n && n ≤ 0x200A) || n = 0x2028 || n = 0x2029 || n = 0x202F ||
  n = 0x205F || n = 0x3000 || n = 0xFEFF

/-- The method `String.prototype.trim`, on the characters of the string. -/
def jsTrimChars (cs : List Char) : List Char :=
  ((cs.dropWhile jsIsWhitespace).reverse.dropWhile jsIsWhitespace).reverse

/-- The method `String.prototype.trim`. -/
def jsTrim (s : String) : String := String.mk (jsTrimChars s.data)

/-- The property `length` of a string: its number of UTF-16 code units. -/
def jsLength (s : String) : Nat :=
  (s.data.map (fun c => if c.toNat < 0x10000 then 1 else 2)).sum

/-- The function `validText`; an `undefined` argument takes the default `''`. -/
def validText : JsVal → Bool
  | JsVal.undefined => false
  | JsVal.str value =>
    let trimmed := jsTrim value
    if jsLength trimmed = 0 then false
    else decide (jsLength trimmed ≤ MAX_MESSAGE_LENGTH)
  | _ => false

end Chat

/-! ## `stompClient.js`: the connection manager -/

namespace Stomp

/-- The constant `BASE_DELAY`. -/
def BASE_DELAY : Nat := 1000

/-- The constant `MAX_DELAY`. -/
def MAX_DELAY : Nat := 16000

/-- An entry of the registry `subscriptions`.  The field `callback` names the handler of the
caller, which the wrapped callback invokes. -/
structure Subscription where
  destination : String
  callback : Nat
  headers : List (String × String)
deriving DecidableEq, Repr

/-- The object `client.subscribe` returns: a binding made on the session `session`. -/
structure Handle where
  hid : Nat
  session : Nat
  destination : String
  callback : Nat
  headers : List (String × String)
deriving DecidableEq, Repr

/-- The field `callbacks`: each entry is `null` or a function of the caller. -/
structure Callbacks where
  onConnect : Option Nat
  onDisconnect : Option Nat
  onReconnecting : Option Nat
  onError : Option Nat
deriving DecidableEq, Repr

/-- The second argument of `publish`. -/
inductive PublishBody where
  | prim (v : Chat.JsVal)
  | object (fields : List (String × Chat.JsVal))
deriving DecidableEq, Repr

/-- What the manager does to its collaborators: calls on Transport Sessions and on handles,
timer calls, invocations of the callbacks of the caller, and console output. -/
inductive Effect where
  | newClient (sid : Nat)
  | activate (sid : Nat)
  | deactivate (sid : Nat)
  | subscribe (h : Handle)
  | unsubscribe (hid : Nat)
  | send (sid : Nat) (destination : String) (body : String)
  | setTimeout (id : Nat) (delay : Nat)
  | clearTimeout (id : Nat)
  | onConnect (fn : Nat)
  | onDisconnect (fn : Nat)
  | onReconnecting (fn : Nat) (delay : Nat)
  | onError (fn : Nat) (kind : String)
  | console (message : String)
deriving DecidableEq, Repr

/-- The manager object together with the part of its environment it acts on.

* `client` to `subscriptionIndex` are the fields of `StompClientManager`; a session is named
  by its number, a timer by the handle `setTimeout` returned (a positive integer, hence truthy).
* `sessions` holds the property `connected` of every `Client` created so far.
* `timers` holds the outstanding timers with their delays.
* `log` records the effects in the order in which they happened. -/
structure State where
  client : Option Nat
  subscriptions : List (String × Subscription)
  activeSubscriptions : List (String × Handle)
  callbacks : Callbacks
  reconnectTimeout : Option Nat
  currentDelay : Nat
  shouldReconnect : Bool
  subscriptionIndex : Nat
  sessions : List Bool
  timers : List (Nat × Nat)
  nextTimer : Nat
  nextHandle : Nat
  log : List Effect
deriving DecidableEq, Repr

/-- The fields of the manager object alone. -/
structure Manager where
  client : Option Nat
  subscriptions : List (String × Subscription)
  activeSubscriptions : List (String × Handle)
  callbacks : Callbacks
  reconnectTimeout : Option Nat
  currentDelay : Nat
  shouldReconnect : Bool
  subscriptionIndex : Nat
deriving DecidableEq, Repr

/-- The manager object inside a state. -/
def State.manager (s : State) : Manager :=
  { client := s.client
    subscriptions := s.subscriptions
    activeSubscriptions := s.activeSubscriptions
    callbacks := s.callbacks
    reconnectTimeout := s.reconnectTimeout
    currentDelay := s.currentDelay
    shouldReconnect := s.shouldReconnect
    subscriptionIndex := s.subscriptionIndex }

/-- The constructor of `StompClientManager`, in an environment without sessions or timers. -/
def init : State :=
  { client := none
    subscriptions := []
    activeSubscriptions := []
    callbacks := { onConnect := none, onDisconnect := none, onReconnecting := none,
                   onError := none }
    reconnectTimeout := none
    currentDelay := BASE_DELAY
    shouldReconnect := false
    subscriptionIndex := 0
    sessions := []
    timers := []
    nextTimer := 1
    nextHandle := 0
    log := [] }

/-- The configuration read from the environment of the process, and `JSON.stringify`. -/
structure Config where
  wsUrl : Option String
  subDestination : Option String
  pubDestination : Option String
  jsonStringify : PublishBody → String

/-- Which calls on collaborators throw during one step. -/
structure Throws where
  unsubscribe : Nat → Bool
  deactivate : Nat → Bool

/-- An exception that leaves a method: its message and the state at the point of the throw. -/
structure Thrown where
  message : String
  state : State

/-- Whether an optional string of the environment is truthy. -/
def envTruthy : Option String → Bool
  | none => false
  | some s => decide (s ≠ "")

/-- The method `Map.prototype.get`. -/
def mapGet {β : Type} (m : List (String × β)) (k : String) : Option β :=
  match m with
  | [] => none
  | (k₁, v) :: rest => if k₁ = k then some v else mapGet rest k

/-- The method `Map.prototype.set`: an existing key keeps its place, a new key goes last. -/
def mapSet {β : Type} (m : List (String × β)) (k : String) (v : β) : List (String × β) :=
  match m with
  | [] => [(k, v)]
  | (k₁, v₁) :: rest => if k₁ = k then (k, v) :: rest else (k₁, v₁) :: mapSet rest k v

/-- The method `Map.prototype.delete`. -/
def mapDelete {β : Type} (m : List (String × β)) (k : String) : List (String × β) :=
  m.filter (fun p => decide (p.1 ≠ k))

/-- Appends an effect to the log. -/
def State.emit (s : State) (e : Effect) : State := { s with log := s.log ++ [e] }

/-- The property `client.connected` of the session `sid`. -/
def State.connected (s : State) (sid : Nat) : Bool := s.sessions.getD sid false

/-- The call `handle.unsubscribe()`, which may throw. -/
def callUnsubscribe (th : Throws) (h : Handle) (s : State) : Except Thrown State :=
  let s₁ := s.emit (Effect.unsubscribe h.hid)
  if th.unsubscribe h.hid then Except.error { message := "unsubscribe failed", state := s₁ }
  else Except.ok s₁

/-- The call `client.deactivate()`, which may throw. -/
def callDeactivate (th : Throws) (sid : Nat) (s : State) : Except Thrown State :=
  let s₁ := s.emit (Effect.deactivate sid)
  if th.deactivate sid then Except.error { message := "deactivate failed", state := s₁ }
  else Except.ok s₁

/-- A statement `try { body } catch (error) { console.debug(message, error) }`. -/
def tryDebug (body : Except Thrown State) (message : String) : State :=
  match body with
  | Except.ok s => s
  | Except.error t => t.state.emit (Effect.console message)

/-- The method `clearReconnectTimeout`. -/
def clearReconnectTimeout (s : State) : State :=
  match s.reconnectTimeout with
  | some id =>
    { (s.emit (Effect.clearTimeout id)) with
      timers := s.timers.filter (fun t => decide (t.1 ≠ id))
      reconnectTimeout := none }
  | none => s

/-- The loop `activeSubscriptions.forEach` of `disconnect` and of `_resubscribeAll`. -/
def unsubscribeEach (th : Throws) (message : String) :
    List (String × Handle) → State → State
  | [], s => s
  | (_, sub) :: rest, s =>
    unsubscribeEach th message rest (tryDebug (callUnsubscribe th sub s) message)

/-- The method `disconnect`. -/
def disconnect (th : Throws) (s : State) : Except Thrown State :=
  let s₁ := { s with shouldReconnect := false }
  let s₂ := clearReconnectTimeout s₁
  let s₃ := unsubscribeEach th "Error unsubscribing on disconnect" s₂.activeSubscriptions s₂
  let s₄ := { s₃ with activeSubscriptions := [] }
  match s₄.client with
  | some toDeactivate =>
    let s₅ := { s₄ with client := none }
    Except.ok (tryDebug (callDeactivate th toDeactivate s₅)
      "Error while deactivating STOMP client")
  | none => Except.ok s₄

/-- The method `_activateClient`.  The new `Client` is the session numbered
`sessions.length`; it starts out not connected. -/
def activateClient (th : Throws) (s : State) : State :=
  let s₁ := match s.client with
    | some old =>
      { (tryDebug (callDeactivate th old s)
          "Error while deactivating existing client before re-activate") with client := none }
    | none => s
  let sid := s₁.sessions.length
  let s₂ := { (s₁.emit (Effect.newClient sid)) with sessions := s₁.sessions ++ [false] }
  let s₃ := { s₂ with client := some sid }
  s₃.emit (Effect.activate sid)

/-- The method `connect`. -/
def connect (cfg : Config) (th : Throws) (callbacks : Callbacks) (s : State) : State :=
  let s₁ := { s with callbacks := callbacks }
  if !envTruthy cfg.wsUrl then s₁.emit (Effect.console "WebSocket URL is not defined")
  else
    let s₂ := { s₁ with shouldReconnect := true }
    let s₃ := clearReconnectTimeout s₂
    let s₄ := { s₃ with currentDelay := BASE_DELAY }
    activateClient th s₄

/-- The call `client.subscribe(destination, callback, headers)` on the session `sid`,
followed by `activeSubscriptions.set(id, stompSubscription)`. -/
def bindSubscription (sid : Nat) (id : String) (subscription : Subscription) (s : State) :
    State :=
  let stompSubscription : Handle :=
    { hid := s.nextHandle
      session := sid
      destination := subscription.destination
      callback := subscription.callback
      headers := subscription.headers }
  { (s.emit (Effect.subscribe stompSubscription)) with
    nextHandle := s.nextHandle + 1
    activeSubscriptions := mapSet s.activeSubscriptions id stompSubscription }

/-- The loop `subscriptions.forEach` of `_resubscribeAll`. -/
def bindEach (sid : Nat) : List (String × Subscription) → State → State
  | [], s => s
  | (id, subscription) :: rest, s => bindEach sid rest (bindSubscription sid id subscription s)

/-- The method `_resubscribeAll`. -/
def resubscribeAll (th : Throws) (client : Nat) (s : State) : State :=
  let s₁ := unsubscribeEach th "Failed to clean up active subscription during resubscribe"
    s.activeSubscriptions s
  let s₂ := { s₁ with activeSubscriptions := [] }
  bindEach client s₂.subscriptions s₂

/-- The method `_ensureSubscribed`. -/
def ensureSubscribed (id : String) (s : State) : State :=
  match s.client with
  | none => s
  | some client =>
    if !s.connected client then s
    else
      match mapGet s.subscriptions id with
      | none => s
      | some subscription => bindSubscription client id subscription s

/-- The method `subscribe`.  A callback that is not a function is `none`; `now` is the value
of `Date.now()`.  The result carries the id the returned function unsubscribes, or `none`
for the function that does nothing. -/
def subscribe (destination : String) (callback : Option Nat)
    (headers : List (String × String)) (now : Nat) (s : State) : Option String × State :=
  match callback with
  | none => (none, s.emit (Effect.console "subscribe requires a destination and a callback"))
  | some cb =>
    if destination = "" then
      (none, s.emit (Effect.console "subscribe requires a destination and a callback"))
    else
      let s₁ := { s with subscriptionIndex := s.subscriptionIndex + 1 }
      let id := "sub-" ++ toString now ++ "-" ++ toString s₁.subscriptionIndex
      let s₂ := { s₁ with
        subscriptions := mapSet s₁.subscriptions id
          { destination := destination, callback := cb, headers := headers } }
      (some id, ensureSubscribed id s₂)

/-- The method `unsubscribe`. -/
def unsubscribe (th : Throws) (id : String) (s : State) : State :=
  let s₁ := match mapGet s.activeSubscriptions id with
    | some active =>
      { (tryDebug (callUnsubscribe th active s) "Error while unsubscribing") with
        activeSubscriptions := mapDelete s.activeSubscriptions id }
    | none => s
  { s₁ with subscriptions := mapDelete s₁.subscriptions id }

/-- The method `publish`; an `undefined` body takes the default `{}`. -/
def publish (cfg : Config) (destination : String) (body : PublishBody) (s : State) :
    Except Thrown State :=
  match s.client with
  | none => Except.error { message := "STOMP client is not connected.", state := s }
  | some client =>
    if !s.connected client then
      Except.error { message := "STOMP client is not connected.", state := s }
    else
      let body₁ := match body with
        | PublishBody.prim Chat.JsVal.undefined => PublishBody.object []
        | b => b
      let payload := match body₁ with
        | PublishBody.prim (Chat.JsVal.str text) => text
        | b => cfg.jsonStringify b
      Except.ok (s.emit (Effect.send client destination payload))

/-- The method `_handleDisconnect`. -/
def handleDisconnect (s : State) : State :=
  if !s.shouldReconnect then s
  else
    let s₁ := match s.callbacks.onReconnecting with
      | some fn => s.emit (Effect.onReconnecting fn s.currentDelay)
      | none => s
    match s₁.reconnectTimeout with
    | some _ => s₁
    | none =>
      let delay := s₁.currentDelay
      let id := s₁.nextTimer
      { (s₁.emit (Effect.setTimeout id delay)) with
        timers := s₁.timers ++ [(id, delay)]
        nextTimer := s₁.nextTimer + 1
        reconnectTimeout := some id }

/-- The function given to `setTimeout` by `_handleDisconnect`. -/
def reconnectTimerBody (th : Throws) (s : State) : State :=
  let s₁ := { s with reconnectTimeout := none }
  if !s₁.shouldReconnect then s₁
  else
    let s₂ := { s₁ with currentDelay := min (s₁.currentDelay * 2) MAX_DELAY }
    activateClient th s₂

/-- The handler `client.onConnect` of the session `client`. -/
def onConnect (th : Throws) (client : Nat) (s : State) : State :=
  let s₁ := clearReconnectTimeout s
  let s₂ := { s₁ with currentDelay := BASE_DELAY }
  let s₃ := resubscribeAll th client s₂
  match s₃.callbacks.onConnect with
  | some fn => s₃.emit (Effect.onConnect fn)
  | none => s₃

/-- The handler `client.onStompError`. -/
def onStompError (s : State) : State :=
  let s₁ := match s.callbacks.onError with
    | some fn => s.emit (Effect.onError fn "stomp")
    | none => s
  handleDisconnect s₁

/-- The handler `client.onWebSocketError`. -/
def onWebSocketError (s : State) : State :=
  match s.callbacks.onError with
  | some fn => s.emit (Effect.onError fn "websocket")
  | none => s

/-- The handler `client.onWebSocketClose`. -/
def onWebSocketClose (s : State) : State :=
  let s₁ := match s.callbacks.onDisconnect with
    | some fn => s.emit (Effect.onDisconnect fn)
    | none => s
  handleDisconnect s₁

/-- What can happen to the manager: a call of one of its methods, a callback raised by a
Transport Session (the current one or an earlier one), or a timer that fires. -/
inductive Event where
  | connect (callbacks : Callbacks)
  | disconnect
  | subscribe (destination : String) (callback : Option Nat)
      (headers : List (String × String)) (now : Nat)
  | unsubscribe (id : String)
  | publish (destination : String) (body : PublishBody)
  | sessionConnected (sid : Nat)
  | stompError (sid : Nat)
  | webSocketError (sid : Nat)
  | webSocketClose (sid : Nat)
  | timerFired (id : Nat)

/-- One step of the manager.  A session raises callbacks only once it exists, and sets its
property `connected` before `onConnect` and clears it before `onWebSocketClose`; a timer
fires only while it is outstanding.  An exception that leaves `publish` goes to the caller
and leaves the state as it was at the throw. -/
def step (cfg : Config) (th : Throws) (e : Event) (s : State) : State :=
  match e with
  | Event.connect callbacks => connect cfg th callbacks s
  | Event.disconnect =>
    match disconnect th s with
    | Except.ok s₁ => s₁
    | Except.error t => t.state
  | Event.subscribe destination callback headers now =>
    (subscribe destination callback headers now s).2
  | Event.unsubscribe id => unsubscribe th id s
  | Event.publish destination body =>
    match publish cfg destination body s with
    | Except.ok s₁ => s₁
    | Except.error t => t.state
  | Event.sessionConnected sid =>
    if sid < s.sessions.length then
      onConnect th sid { s with sessions := s.sessions.set sid true }
    else s
  | Event.stompError sid =>
    if sid < s.sessions.length then onStompError s else s
  | Event.webSocketError sid =>
    if sid < s.sessions.length then onWebSocketError s else s
  | Event.webSocketClose sid =>
    if sid < s.sessions.length then
      onWebSocketClose { s with sessions := s.sessions.set sid false }
    else s
  | Event.timerFired id =>
    if s.timers.any (fun t => decide (t.1 = id)) then
      reconnectTimerBody th { s with timers := s.timers.filter (fun t => decide (t.1 ≠ id)) }
    else s

/-- The manager after a sequence of steps. -/
def run (cfg : Config) : List (Throws × Event) → State → State
  | [], s => s
  | (th, e) :: rest, s => run cfg rest (step cfg th e s)

/-! ### Observations on states and logs -/

/-- The reconnect timer invariant: the outstanding timers are exactly the one the field
`reconnectTimeout` holds, if any. -/
def TimerInv (s : State) : Prop :=
  s.timers.map Prod.fst = s.reconnectTimeout.toList

/-- The delays of the `setTimeout` calls of a log, in order. -/
def scheduledDelays (log : List Effect) : List Nat :=
  log.filterMap (fun e =>
    match e with
    | Effect.setTimeout _ delay => some delay
    | _ => none)

/-- The handles made by the `client.subscribe` calls of a log, in order. -/
def subscribeCalls (log : List Effect) : List Handle :=
  log.filterMap (fun e =>
    match e with
    | Effect.subscribe h => some h
    | _ => none)

/-- The handles on which a log calls `unsubscribe`, in order. -/
def unsubscribeCalls (log : List Effect) : List Nat :=
  log.filterMap (fun e =>
    match e with
    | Effect.unsubscribe hid => some hid
    | _ => none)

/-- The state `s₁` agrees with `s` on everything that drives reconnection: the session, the
timer, the delay, the reconnection flag, the callbacks, the outstanding timers and the
sessions that exist; and no timer was scheduled in between. -/
def SameControl (s s₁ : State) : Prop :=
  s₁.client = s.client ∧ s₁.reconnectTimeout = s.reconnectTimeout ∧
  s₁.currentDelay = s.currentDelay ∧ s₁.shouldReconnect = s.shouldReconnect ∧
  s₁.callbacks = s.callbacks ∧ s₁.timers = s.timers ∧ s₁.nextTimer = s.nextTimer ∧
  s₁.sessions.length = s.sessions.length ∧
  scheduledDelays s₁.log = scheduledDelays s.log

/-- The invariant of a run of failed attempts that has scheduled `n` reconnects since the
delay was last reset: the delays scheduled after those in `base` are `BASE_DELAY` doubled
`0, 1, ..., n - 1` times and capped at `MAX_DELAY`; and while reconnection is enabled the
delay stored for the next reconnect is the `n`-th of that sequence if no timer is pending,
and still the one of the pending timer, the last scheduled, otherwise. -/
def BackoffInv (base : List Nat) (n : Nat) (s : State) : Prop :=
  scheduledDelays s.log =
    base ++ (List.range n).map (fun k => min (BASE_DELAY * 2 ^ k) MAX_DELAY) ∧
  TimerInv s ∧
  (s.shouldReconnect = true →
    (s.reconnectTimeout = none → s.currentDelay = min (BASE_DELAY * 2 ^ n) MAX_DELAY) ∧
    (∀ id, s.reconnectTimeout = some id →
      ∃ k, n = k + 1 ∧ s.currentDelay = min (BASE_DELAY * 2 ^ k) MAX_DELAY))

/-- The bindings `_resubscribeAll` makes on the session `sid` for a registry, when the next
handle the session hands out is numbered `next`: one per entry, in order, each with the
destination, callback and headers of its entry. -/
def boundHandles (sid : Nat) (next : Nat) : List (String × Subscription) →
    List (String × Handle)
  | [] => []
  | (id, subscription) :: rest =>
    (id, { hid := next
           session := sid
           destination := subscription.destination
           callback := subscription.callback
           headers := subscription.headers }) :: boundHandles sid (next + 1) rest

/-- The event is a call of `connect`. -/
def Event.isConnect : Event → Bool
  | Event.connect _ => true
  | _ => false

/-- The event is a Transport Session reporting success. -/
def Event.isSessionConnected : Event → Bool
  | Event.sessionConnected _ => true
  | _ => false

/-- The ids `subscribe` has returned along a sequence of steps, in order. -/
def issuedIds (cfg : Config) : List (Throws × Event) → State → List String
  | [], _ => []
  | (th, e) :: rest, s =>
    (match e with
      | Event.subscribe destination callback headers now =>
        (subscribe destination callback headers now s).1.toList
      | _ => []) ++ issuedIds cfg rest (step cfg th e s)

/-- The id has the form `subscribe` gives it, with an index of at most `n`. -/
def IssuedBelow (n : Nat) (id : String) : Prop :=
  ∃ now index : Nat, id = "sub-" ++ toString now ++ "-" ++ toString index ∧ index ≤ n

/-- The registry invariant: the ids of the registry are distinct, and every id of the
registry and of `activeSubscriptions` was issued while the counter `subscriptionIndex` was
at most its present value. -/
def RegistryInv (s : State) : Prop :=
  (s.subscriptions.map Prod.fst).Nodup ∧
  (∀ id ∈ s.subscriptions.map Prod.fst, IssuedBelow s.subscriptionIndex id) ∧
  (∀ id ∈ s.activeSubscriptions.map Prod.fst, IssuedBelow s.subscriptionIndex id)

/-! ### Inputs used in examples -/

/-- A configuration in which every destination is set; its `JSON.stringify` is a stand-in
that renders every body as the empty object. -/
def exampleConfig : Config :=
  { wsUrl := some "ws://chat.example/ws"
    subDestination := some "/topic/chat"
    pubDestination := some "/app/chat"
    jsonStringify := fun _ => "\x7b\x7d" }

/-- A trace for the examples: `connect`, `disconnect`, `connect` again.  Session 0 is torn
down by `disconnect` and session 1 is the current one. -/
def reconnectedTrace : List (Throws × Event) :=
  [({ unsubscribe := fun _ => false, deactivate := fun _ => false },
      Event.connect { onConnect := some 1, onDisconnect := some 2, onReconnecting := some 3,
                      onError := some 4 }),
   ({ unsubscribe := fun _ => false, deactivate := fun _ => false }, Event.disconnect),
   ({ unsubscribe := fun _ => false, deactivate := fun _ => false },
      Event.connect { onConnect := some 1, onDisconnect := some 2, onReconnecting := some 3,
                      onError := some 4 })]

/-- The text `JSON.stringify` gives for a primitive value of the examples; `none` where it
returns `undefined`.  Strings are taken to hold no character that needs an escape. -/
def exampleJsonText : Chat.JsVal → Option String
  | Chat.JsVal.undefined => none
  | Chat.JsVal.null => some "null"
  | Chat.JsVal.bool true => some "true"
  | Chat.JsVal.bool false => some "false"
  | Chat.JsVal.num (Chat.JsNum.fin n) => some (toString n)
  | Chat.JsVal.num Chat.JsNum.nan => some "null"
  | Chat.JsVal.str s => some ("\"" ++ s ++ "\"")

/-- An instance of `JSON.stringify` for the examples.  A field whose value is `undefined` is
left out of an object; for the value `undefined` itself `JSON.stringify` returns `undefined`,
which is written here as the text `undefined`. -/
def exampleStringify : PublishBody → String
  | PublishBody.prim v => (exampleJsonText v).getD "undefined"
  | PublishBody.object fields =>
    "\x7b" ++ ",".intercalate (fields.filterMap (fun f =>
      (exampleJsonText f.2).map (fun text => "\"" ++ f.1 ++ "\":" ++ text))) ++ "\x7d"

/-- The configuration of the examples with `exampleStringify` for `JSON.stringify`. -/
def jsonConfig : Config :=
  { wsUrl := some "ws://chat.example/ws"
    subDestination := some "/topic/chat"
    pubDestination := some "/app/chat"
    jsonStringify := exampleStringify }

/-- No call on a collaborator throws. -/
def noThrows : Throws :=
  { unsubscribe := fun _ => false, deactivate := fun _ => false }

/-- Every call on a collaborator throws. -/
def allThrow : Throws :=
  { unsubscribe := fun _ => true, deactivate := fun _ => true }

/-- The callbacks `useChat` passes to `connect`, named 1 to 4. -/
def exampleCallbacks : Callbacks :=
  { onConnect := some 1, onDisconnect := some 2, onReconnecting := some 3, onError := some 4 }

end Stomp

/-! ## `useChat.js` and the send path of `ChatRoom.js` -/

namespace Chat

/-- The function `publish` of `useChat`, on the manager state `m`.  The error callback it
invokes only drives toasts and is not part of the state. -/
def usePublish (cfg : Stomp.Config) (nickname : String) (text : JsVal) (m : Stomp.State) :
    Bool × Stomp.State :=
  if nickname = "" then (false, m)
  else if !validText text then (false, m)
  else
    match cfg.pubDestination with
    | none => (false, m)
    | some destination =>
      if destination = "" then (false, m)
      else
        match text with
        | JsVal.str t =>
          let trimmed := jsTrim t
          match Stomp.publish cfg destination
              (Stomp.PublishBody.object
                [("nickname", JsVal.str nickname), ("message", JsVal.str trimmed)]) m with
          | Except.ok m₁ => (true, m₁)
          | Except.error thrown => (false, thrown.state)
        | _ => (false, m)

/-- The function `handleSendMessage`, with both state updaters applied; `optimisticId` is
the value of `uuidv4()` and `now` the value of `Date.now()`. -/
def handleSendMessage (cfg : Stomp.Config) (nickname : String) (text : JsVal)
    (optimisticId : String) (now : Int) (st : ChatState) (m : Stomp.State) :
    Bool × ChatState × Stomp.State :=
  if nickname = "" then (false, st, m)
  else if !validText text then (false, st, m)
  else
    match text with
    | JsVal.str t =>
      let trimmed := jsTrim t
      let optimisticMessage : Message :=
        { id := JsVal.str optimisticId
          messageId := JsVal.undefined
          pk := JsVal.undefined
          nickname := nickname
          message := trimmed
          timestamp := JsNum.fin now
          ttl := JsVal.undefined
          pending := true
          error := false
          optimisticId := JsVal.str optimisticId }
      let st₁ := { st with messages := sortByTimestamp (st.messages ++ [optimisticMessage]) }
      let (success, m₁) := usePublish cfg nickname (JsVal.str trimmed) m
      if !success then
        (false,
         { st₁ with messages := st₁.messages.map (fun msg =>
             if msg.id.strictEq (JsVal.str optimisticId) then
               { msg with pending := false, error := true }
             else msg) },
         m₁)
      else (true, st₁, m₁)
    | _ => (false, st, m)

/-- The effect of `ChatRoom` on `initialMessages`: the history is normalized, sorted and it
replaces the message set, and the seen set is rebuilt from the ids.  `none` is a value that
is not an array; every payload comes with the two clock readings of its normalization. -/
def initialMessagesEffect (strNum : String → JsNum)
    (initialMessages : Option (List (Int × Int × Option Payload))) : ChatState :=
  let normalized := match initialMessages with
    | some list => list.filterMap (fun x => normalizeServerMessage strNum x.1 x.2.1 x.2.2)
    | none => []
  let sorted := sortByTimestamp normalized
  { messages := sorted
    seen := sorted.foldl (fun nextSeen msg =>
      if msg.id.truthy then seenAdd nextSeen msg.id else nextSeen) [] }

/-- What changes the message set of `ChatRoom`: new `initialMessages`, a payload delivered to
`handleIncomingMessage`, and a call of `handleSendMessage` (made while the manager is in
the state `m`). -/
inductive ChatEvent where
  | initialMessages (payloads : Option (List (Int × Int × Option Payload)))
  | incoming (now₁ now₂ : Int) (payload : Option Payload)
  | send (nickname : String) (text : JsVal) (optimisticId : String) (now : Int)
      (m : Stomp.State)

/-- One change of the message set. -/
def chatStep (strNum : String → JsNum) (cfg : Stomp.Config) (e : ChatEvent)
    (st : ChatState) : ChatState :=
  match e with
  | ChatEvent.initialMessages payloads => initialMessagesEffect strNum payloads
  | ChatEvent.incoming now₁ now₂ payload => handleIncomingMessage strNum now₁ now₂ payload st
  | ChatEvent.send nickname text optimisticId now m =>
    (handleSendMessage cfg nickname text optimisticId now st m).2.1

/-- The message set after a sequence of changes. -/
def chatRun (strNum : String → JsNum) (cfg : Stomp.Config) :
    List ChatEvent → ChatState → ChatState
  | [], st => st
  | e :: rest, st => chatRun strNum cfg rest (chatStep strNum cfg e st)

end Chat

/-! # Properties -/

namespace Chat

/-! ## Lemmas on sorting and searching -/

theorem jsSortInsert_perm {α : Type} (cmp : α → α → Int) (a : α) (l : List α) :
    (jsSortInsert cmp a l).Perm (a :: l) := by
  induction l with
  | nil => exact List.Perm.refl _
  | cons b l ih =>
    unfold jsSortInsert
    split
    · exact List.Perm.refl _
    · exact ((List.Perm.cons b ih).trans (List.Perm.swap a b l))

theorem jsSort_perm {α : Type} (cmp : α → α → Int) (l : List α) :
    (jsSort cmp l).Perm l := by
  induction l with
  | nil => exact List.Perm.refl _
  | cons a l ih =>
    exact (jsSortInsert_perm cmp a (jsSort cmp l)).trans (List.Perm.cons a ih)

theorem sortByTimestamp_perm (l : List Message) : (sortByTimestamp l).Perm l :=
  jsSort_perm compareTimestamp l

theorem sortByTimestamp_length (l : List Message) : (sortByTimestamp l).length = l.length :=
  (sortByTimestamp_perm l).length_eq

theorem mem_sortByTimestamp (l : List Message) (m : Message) :
    m ∈ sortByTimestamp l ↔ m ∈ l :=
  (sortByTimestamp_perm l).mem_iff

theorem compareTimestamp_le_iff (a b : Message) (ha : a.timestamp.isFinite = true)
    (hb : b.timestamp.isFinite = true) :
    compareTimestamp a b ≤ 0 ↔ JsNum.le a.timestamp b.timestamp = true := by
  unfold compareTimestamp
  cases hta : a.timestamp with
  | nan => rw [hta] at ha; simp [JsNum.isFinite] at ha
  | fin x =>
    cases htb : b.timestamp with
    | nan => rw [htb] at hb; simp [JsNum.isFinite] at hb
    | fin y =>
      simp only [JsNum.strictEq, JsNum.lt, JsNum.le, decide_eq_true_eq]
      by_cases h1 : x = y
      · simp [h1]
      · by_cases h2 : x < y
        · simp [h1, h2]; omega
        · simp [h1, h2]; omega

theorem jsSortInsert_ascending (a : Message) (l : List Message)
    (ha : a.timestamp.isFinite = true) (hl : AllNumeric l) (hs : Ascending l) :
    Ascending (jsSortInsert compareTimestamp a l) := by
  induction l with
  | nil => simp [jsSortInsert, Ascending]
  | cons b l ih =>
    have hb : b.timestamp.isFinite = true := hl b (List.mem_cons_self _ _)
    have hl1 : AllNumeric l := fun m hm => hl m (List.mem_cons_of_mem _ hm)
    have hs1 := List.pairwise_cons.mp hs
    unfold jsSortInsert
    split
    next hc =>
      have hab := (compareTimestamp_le_iff a b ha hb).mp hc
      refine List.pairwise_cons.mpr ⟨?_, hs⟩
      intro x hx
      rcases List.mem_cons.mp hx with rfl | hx
      · exact hab
      · have hbx := hs1.1 x hx
        cases hta : a.timestamp <;> cases htb : b.timestamp <;> cases htx : x.timestamp <;>
          simp_all [JsNum.le]
        omega
    next hc =>
      have hab : ¬ JsNum.le a.timestamp b.timestamp = true :=
        fun h => hc ((compareTimestamp_le_iff a b ha hb).mpr h)
      refine List.pairwise_cons.mpr ⟨?_, ih hl1 hs1.2⟩
      intro x hx
      rcases List.mem_cons.mp ((jsSortInsert_perm compareTimestamp a l).mem_iff.mp hx) with rfl | hx
      · cases hta : x.timestamp <;> cases htb : b.timestamp <;>
          simp_all [JsNum.le, JsNum.isFinite]
        omega
      · exact hs1.1 x hx

theorem sortByTimestamp_ascending (l : List Message) (hl : AllNumeric l) :
    Ascending (sortByTimestamp l) := by
  induction l with
  | nil => simp [sortByTimestamp, jsSort, Ascending]
  | cons a l ih =>
    have hl1 : AllNumeric l := fun m hm => hl m (List.mem_cons_of_mem _ hm)
    have h := jsSortInsert_ascending a (jsSort compareTimestamp l)
      (hl a (List.mem_cons_self _ _))
      (fun m hm => hl1 m ((jsSort_perm compareTimestamp l).mem_iff.mp hm)) (ih hl1)
    exact h

theorem jsSortInsert_filter {α : Type} (cmp : α → α → Int) (p : α → Bool) (a : α)
    (l : List α) (hp : ∀ b, p a = true → p b = true → cmp a b ≤ 0) :
    (jsSortInsert cmp a l).filter p = (a :: l).filter p := by
  induction l with
  | nil => rfl
  | cons b l ih =>
    unfold jsSortInsert
    split
    · rfl
    next hc =>
      have hnot : ¬ (p a = true ∧ p b = true) := fun h => hc (hp b h.1 h.2)
      rw [List.filter_cons, ih]
      by_cases hb : p b = true
      · have hna : p a = false := by
          cases hpa : p a
          · rfl
          · exact absurd ⟨hpa, hb⟩ hnot
        simp [List.filter_cons, hb, hna]
      · simp [List.filter_cons, hb]

theorem sortByTimestamp_stable (l : List Message) (hl : AllNumeric l) (t : JsNum) :
    (sortByTimestamp l).filter (fun m => decide (m.timestamp = t)) =
      l.filter (fun m => decide (m.timestamp = t)) := by
  induction l with
  | nil => rfl
  | cons a l ih =>
    have hl1 : AllNumeric l := fun m hm => hl m (List.mem_cons_of_mem _ hm)
    have ha := hl a (List.mem_cons_self _ _)
    show (jsSortInsert compareTimestamp a (jsSort compareTimestamp l)).filter _ = _
    rw [jsSortInsert_filter]
    · rw [List.filter_cons, List.filter_cons]
      have := ih hl1
      unfold sortByTimestamp at this
      rw [this]
    · intro b h1 h2
      have h1 := of_decide_eq_true h1
      have h2 := of_decide_eq_true h2
      unfold compareTimestamp
      cases hta : a.timestamp with
      | nan => rw [hta] at ha; simp [JsNum.isFinite] at ha
      | fin x =>
        have : b.timestamp = JsNum.fin x := by rw [h2, ← h1, hta]
        simp [this, JsNum.strictEq]

theorem findIndex_eq_none {α : Type} (p : α → Bool) (l : List α) :
    findIndex p l = none ↔ ∀ x ∈ l, p x = false := by
  induction l with
  | nil => simp [findIndex]
  | cons a l ih =>
    unfold findIndex
    by_cases h : p a = true
    · simp [h]
    · simp [h, ih]

theorem findIndex_eq_some {α : Type} (p : α → Bool) (l : List α) (i : Nat)
    (h : findIndex p l = some i) : ∃ h₁ : i < l.length, p (l.get ⟨i, h₁⟩) = true := by
  induction l generalizing i with
  | nil => simp [findIndex] at h
  | cons a l ih =>
    unfold findIndex at h
    by_cases hp : p a = true
    · simp [hp] at h
      subst h
      exact ⟨Nat.succ_pos _, hp⟩
    · simp [hp] at h
      obtain ⟨j, hj, rfl⟩ := h
      obtain ⟨h₁, h₂⟩ := ih j hj
      exact ⟨Nat.succ_lt_succ h₁, h₂⟩

theorem findIndex_isSome_of_mem {α : Type} (p : α → Bool) (l : List α) (x : α)
    (hx : x ∈ l) (hp : p x = true) : ∃ i, findIndex p l = some i := by
  cases h : findIndex p l with
  | some i => exact ⟨i, rfl⟩
  | none =>
    have := (findIndex_eq_none p l).mp h x hx
    rw [hp] at this
    cases this

theorem string_append_dash_ne_empty (a b : String) : a ++ "-" ++ b ≠ "" := by
  intro h
  have h₁ := congrArg String.length h
  simp only [String.length_append] at h₁
  have h₂ : "-".length = 1 := rfl
  have h₃ : "".length = 0 := rfl
  omega

theorem getMessageId_truthy (strNum : String → JsNum) (now : Int) (p : Payload) :
    (getMessageId strNum now (some p)).truthy = true := by
  simp only [getMessageId]
  by_cases h₁ : p.messageId.truthy = true
  · simp [h₁]
  · by_cases h₂ : p.pk.truthy = true
    · simp [h₁, h₂]
    · by_cases h₃ : p.id.truthy = true
      · simp [h₁, h₂, h₃]
      · rw [if_neg h₁, if_neg h₂, if_neg h₃]
        simp only [JsVal.truthy, decide_eq_true_eq]
        exact string_append_dash_ne_empty _ _

theorem strictEq_of_truthy (x k : JsVal) (hk : k.truthy = true) :
    x.strictEq k = true ↔ x = k := by
  cases k with
  | num b =>
    cases b with
    | nan => simp [JsVal.truthy] at hk
    | fin n =>
      cases x with
      | num a => cases a <;> simp [JsVal.strictEq, JsNum.strictEq]
      | _ => simp [JsVal.strictEq]
  | _ => cases x <;> simp [JsVal.strictEq]

/-! ## Lemmas on `handleIncomingMessage` -/

theorem normalizeServerMessage_some (strNum : String → JsNum) (now₁ now₂ : Int) (p : Payload) :
    ∃ n, normalizeServerMessage strNum now₁ now₂ (some p) = some n ∧
      n.id = getMessageId strNum now₂ (some p) ∧ n.pending = false ∧ n.error = false ∧
      n.timestamp = toNumber strNum now₁ p.timestamp :=
  ⟨_, rfl, rfl, rfl, rfl, rfl⟩

theorem normalized_id_truthy (strNum : String → JsNum) (now₁ now₂ : Int) (p : Payload)
    (n : Message) (hn : normalizeServerMessage strNum now₁ now₂ (some p) = some n) :
    n.id.truthy = true := by
  simp only [normalizeServerMessage, Option.some.injEq] at hn
  subst hn
  exact getMessageId_truthy strNum now₂ p

theorem handleIncomingMessage_existing (strNum : String → JsNum) (now₁ now₂ : Int)
    (p : Payload) (st : ChatState) (n : Message) (i : Nat)
    (hn : normalizeServerMessage strNum now₁ now₂ (some p) = some n)
    (hi : findIndex (matchesServerId n.id) st.messages = some i) :
    handleIncomingMessage strNum now₁ now₂ (some p) st =
      { messages := sortByTimestamp (st.messages.set i n), seen := seenAdd st.seen n.id } := by
  have ht := normalized_id_truthy strNum now₁ now₂ p n hn
  simp [handleIncomingMessage, hn, ht, hi]

theorem handleIncomingMessage_optimistic (strNum : String → JsNum) (now₁ now₂ : Int)
    (p : Payload) (st : ChatState) (n : Message) (j : Nat)
    (hn : normalizeServerMessage strNum now₁ now₂ (some p) = some n)
    (hi : findIndex (matchesServerId n.id) st.messages = none)
    (hj : findIndex (matchesOptimistic n) st.messages = some j) :
    handleIncomingMessage strNum now₁ now₂ (some p) st =
      { messages := sortByTimestamp (st.messages.set j n), seen := seenAdd st.seen n.id } := by
  have ht := normalized_id_truthy strNum now₁ now₂ p n hn
  simp [handleIncomingMessage, hn, ht, hi, hj]

theorem handleIncomingMessage_seen (strNum : String → JsNum) (now₁ now₂ : Int)
    (p : Payload) (st : ChatState) (n : Message)
    (hn : normalizeServerMessage strNum now₁ now₂ (some p) = some n)
    (hi : findIndex (matchesServerId n.id) st.messages = none)
    (hj : findIndex (matchesOptimistic n) st.messages = none)
    (hs : n.id ∈ st.seen) :
    handleIncomingMessage strNum now₁ now₂ (some p) st = st := by
  have ht := normalized_id_truthy strNum now₁ now₂ p n hn
  simp [handleIncomingMessage, hn, ht, hi, hj, hs]

theorem handleIncomingMessage_insert (strNum : String → JsNum) (now₁ now₂ : Int)
    (p : Payload) (st : ChatState) (n : Message)
    (hn : normalizeServerMessage strNum now₁ now₂ (some p) = some n)
    (hi : findIndex (matchesServerId n.id) st.messages = none)
    (hj : findIndex (matchesOptimistic n) st.messages = none)
    (hs : n.id ∉ st.seen) :
    handleIncomingMessage strNum now₁ now₂ (some p) st =
      { messages := sortByTimestamp (st.messages ++ [n]), seen := seenAdd st.seen n.id } := by
  have ht := normalized_id_truthy strNum now₁ now₂ p n hn
  simp [handleIncomingMessage, hn, ht, hi, hj, hs]

theorem matchesServerId_of_id (k : JsVal) (m : Message) (hk : k.truthy = true)
    (h : m.id = k) : matchesServerId k m = true := by
  simp [matchesServerId, (strictEq_of_truthy m.id k hk).mpr h]

theorem countP_set_fresh {α : Type} (p : α → Bool) (l : List α) (i : Nat) (a : α)
    (hi : i < l.length) (hl : ∀ x ∈ l, p x = false) (ha : p a = true) :
    (l.set i a).countP p = 1 := by
  have h₀ : l.countP p = 0 := by
    rw [List.countP_eq_zero]
    intro x hx
    simp [hl x hx]
  rw [List.countP_set p l i a hi, h₀]
  simp [ha]

theorem countP_append_fresh {α : Type} (p : α → Bool) (l : List α) (a : α)
    (hl : ∀ x ∈ l, p x = false) (ha : p a = true) :
    (l ++ [a]).countP p = 1 := by
  have h₀ : l.countP p = 0 := by
    rw [List.countP_eq_zero]
    intro x hx
    simp [hl x hx]
  simp [List.countP_append, h₀, ha]

theorem matchesOptimistic_pending (n m : Message) (h : matchesOptimistic n m = true) :
    m.pending = true := by
  unfold matchesOptimistic at h
  cases hp : m.pending
  · simp [hp] at h
  · rfl

theorem matchesOptimistic_iff (n m : Message) :
    matchesOptimistic n m = true ↔
      m.pending = true ∧ m.nickname = n.nickname ∧ m.message = n.message ∧
        ∃ a b : Int, n.timestamp = JsNum.fin a ∧ m.timestamp = JsNum.fin b ∧ |a - b| ≤ 3000 := by
  unfold matchesOptimistic
  cases hp : m.pending
  · simp
  · cases hn : n.timestamp with
    | nan => simp [JsNum.sub, JsNum.abs, JsNum.le]
    | fin a =>
      cases hm : m.timestamp with
      | nan => simp [JsNum.sub, JsNum.abs, JsNum.le]
      | fin b =>
        simp only [JsNum.sub, JsNum.abs, JsNum.le, OPTIMISTIC_MATCH_THRESHOLD, Bool.not_true,
          Bool.false_eq_true, if_false, Bool.and_eq_true, decide_eq_true_eq, true_and,
          JsNum.fin.injEq, exists_and_left, exists_eq_left']
        constructor
        · rintro ⟨⟨h₁, h₂⟩, h₃⟩
          refine ⟨h₁, h₂, ?_⟩
          rw [Int.abs_eq_natAbs]
          exact h₃
        · rintro ⟨h₁, h₂, h₃⟩
          rw [Int.abs_eq_natAbs] at h₃
          exact ⟨⟨h₁, h₂⟩, h₃⟩

theorem mem_set_cases {α : Type} (l : List α) (i : Nat) (a x : α) (hx : x ∈ l.set i a) :
    x = a ∨ x ∈ l := by
  induction l generalizing i with
  | nil => simp at hx
  | cons b l ih =>
    cases i with
    | zero =>
      simp only [List.set_cons_zero, List.mem_cons] at hx
      rcases hx with h | h
      · exact Or.inl h
      · exact Or.inr (List.mem_cons_of_mem _ h)
    | succ i =>
      simp only [List.set_cons_succ, List.mem_cons] at hx
      rcases hx with h | h
      · exact Or.inr (h ▸ List.mem_cons_self _ _)
      · rcases ih i h with h | h
        · exact Or.inl h
        · exact Or.inr (List.mem_cons_of_mem _ h)

/-- The second delivery of a payload whose identity `k` is carried by exactly one entry
replaces that entry. -/
theorem handleIncomingMessage_redelivery (strNum : String → JsNum) (now₁ now₂ : Int)
    (p : Payload) (st : ChatState) (k : JsVal)
    (hk : getMessageId strNum now₂ (some p) = k)
    (hone : st.messages.countP (matchesServerId k) = 1)
    (hid : ∀ x ∈ st.messages, matchesServerId k x = true → x.id = k) :
    (handleIncomingMessage strNum now₁ now₂ (some p) st).messages.countP
        (fun m => decide (m.id = k)) = 1 ∧
      (handleIncomingMessage strNum now₁ now₂ (some p) st).messages.length =
        st.messages.length := by
  obtain ⟨n, hn, hnid, -, -, -⟩ := normalizeServerMessage_some strNum now₁ now₂ p
  rw [hk] at hnid
  have hkt : k.truthy = true := hk ▸ getMessageId_truthy strNum now₂ p
  have hcongr : st.messages.countP (fun m => decide (m.id = k)) = 1 := by
    rw [← hone]
    apply List.countP_congr
    intro x hx
    constructor
    · intro h
      exact matchesServerId_of_id k x hkt (of_decide_eq_true h)
    · intro h
      exact decide_eq_true (hid x hx h)
  have hex : ∃ x ∈ st.messages, matchesServerId k x = true := by
    have : 0 < st.messages.countP (matchesServerId k) := by omega
    exact List.countP_pos_iff.mp this
  obtain ⟨x, hx, hpx⟩ := hex
  obtain ⟨i, hi⟩ := findIndex_isSome_of_mem _ _ x hx hpx
  obtain ⟨hlt, hpi⟩ := findIndex_eq_some _ _ i hi
  rw [← hnid] at hi
  rw [handleIncomingMessage_existing strNum now₁ now₂ p st n i hn hi]
  simp only
  constructor
  · rw [(sortByTimestamp_perm _).countP_eq, List.countP_set _ _ _ _ hlt, hcongr]
    have h₁ : (st.messages.get ⟨i, hlt⟩).id = k := hid _ (List.get_mem _ _ _) hpi
    have h₂ : st.messages[i].id = k := h₁
    simp [h₂, hnid]
  · rw [sortByTimestamp_length, List.length_set]

/-! ## Merge idempotence -/

/-- C1, the claim as stated fails.  The payload `{messageId: "m1", pk: "p1"}` is inserted, then
replaced through its `pk` by the payload `{pk: "p1"}`.  No entry of the resulting set matches
the identity `"m1"`, which is still in the seen set: delivering the first payload twice more
is discarded both times, and the set holds no entry with identity `"m1"`. -/
theorem merge_twice_seen_counterexample :
    (handleIncomingMessage nonNumeric 0 0
        (some (examplePayload JsVal.undefined (JsVal.str "p1") "bob" "yo" 10))
        (handleIncomingMessage nonNumeric 0 0
          (some (examplePayload (JsVal.str "m1") (JsVal.str "p1") "bob" "yo" 10))
          { messages := [], seen := [] })) =
      { messages :=
          [{ id := JsVal.str "p1", messageId := JsVal.null, pk := JsVal.str "p1",
             nickname := "bob", message := "yo", timestamp := JsNum.fin 10,
             ttl := JsVal.undefined, pending := false, error := false,
             optimisticId := JsVal.undefined }],
        seen := [JsVal.str "m1", JsVal.str "p1"] } ∧
    getMessageId nonNumeric 0
        (some (examplePayload (JsVal.str "m1") (JsVal.str "p1") "bob" "yo" 10)) =
      JsVal.str "m1" ∧
    (∀ m ∈ (handleIncomingMessage nonNumeric 0 0
        (some (examplePayload JsVal.undefined (JsVal.str "p1") "bob" "yo" 10))
        (handleIncomingMessage nonNumeric 0 0
          (some (examplePayload (JsVal.str "m1") (JsVal.str "p1") "bob" "yo" 10))
          { messages := [], seen := [] })).messages,
      matchesServerId (JsVal.str "m1") m = false ∧ m.id ≠ JsVal.str "m1") ∧
    (handleIncomingMessage nonNumeric 0 0
      (some (examplePayload (JsVal.str "m1") (JsVal.str "p1") "bob" "yo" 10))
      (handleIncomingMessage nonNumeric 0 0
        (some (examplePayload (JsVal.str "m1") (JsVal.str "p1") "bob" "yo" 10))
        (handleIncomingMessage nonNumeric 0 0
          (some (examplePayload JsVal.undefined (JsVal.str "p1") "bob" "yo" 10))
          (handleIncomingMessage nonNumeric 0 0
            (some (examplePayload (JsVal.str "m1") (JsVal.str "p1") "bob" "yo" 10))
            { messages := [], seen := [] })))).messages.countP
        (fun m => decide (m.id = JsVal.str "m1")) = 0 := by
  decide

/-- A payload without id fields and without a valid timestamp takes its identity from the
clock: delivered at clock readings 1000 and 2000 it derives two identities, and two entries
result. -/
theorem merge_twice_clock_example :
    getMessageId nonNumeric 1000
        (some { messageId := JsVal.undefined, pk := JsVal.undefined, id := JsVal.undefined,
                nickname := JsVal.str "alice", message := JsVal.str "hi",
                timestamp := JsVal.undefined, ttl := JsVal.undefined }) =
      JsVal.str "alice-1000-hi" ∧
    getMessageId nonNumeric 2000
        (some { messageId := JsVal.undefined, pk := JsVal.undefined, id := JsVal.undefined,
                nickname := JsVal.str "alice", message := JsVal.str "hi",
                timestamp := JsVal.undefined, ttl := JsVal.undefined }) =
      JsVal.str "alice-2000-hi" ∧
    (handleIncomingMessage nonNumeric 2000 2000
      (some { messageId := JsVal.undefined, pk := JsVal.undefined, id := JsVal.undefined,
              nickname := JsVal.str "alice", message := JsVal.str "hi",
              timestamp := JsVal.undefined, ttl := JsVal.undefined })
      (handleIncomingMessage nonNumeric 1000 1000
        (some { messageId := JsVal.undefined, pk := JsVal.undefined, id := JsVal.undefined,
                nickname := JsVal.str "alice", message := JsVal.str "hi",
                timestamp := JsVal.undefined, ttl := JsVal.undefined })
        { messages := [], seen := [] })).messages.length = 2 := by
  decide

/-- C1, amended.  Let `k` be the identity both deliveries of the payload `p` derive, let no
entry of the set match `k`, and let `k` be unseen or a pending entry match `p` within the
window.  Then after the first merge, and after the second, exactly one entry has identity
`k`, and the second merge adds no entry. -/
theorem merge_twice_single_entry (strNum : String → JsNum) (now₁ now₂ now₃ now₄ : Int)
    (p : Payload) (st : ChatState) (k : JsVal) (n : Message)
    (hk₁ : getMessageId strNum now₂ (some p) = k)
    (hk₂ : getMessageId strNum now₄ (some p) = k)
    (hn : normalizeServerMessage strNum now₁ now₂ (some p) = some n)
    (hno : ∀ m ∈ st.messages, matchesServerId k m = false)
    (hfirst : k ∉ st.seen ∨ ∃ m ∈ st.messages, matchesOptimistic n m = true) :
    (handleIncomingMessage strNum now₁ now₂ (some p) st).messages.countP
        (fun m => decide (m.id = k)) = 1 ∧
    (handleIncomingMessage strNum now₃ now₄ (some p)
        (handleIncomingMessage strNum now₁ now₂ (some p) st)).messages.countP
        (fun m => decide (m.id = k)) = 1 ∧
    (handleIncomingMessage strNum now₃ now₄ (some p)
        (handleIncomingMessage strNum now₁ now₂ (some p) st)).messages.length =
      (handleIncomingMessage strNum now₁ now₂ (some p) st).messages.length := by
  have hkt : k.truthy = true := hk₁ ▸ getMessageId_truthy strNum now₂ p
  have hnid : n.id = k := by
    obtain ⟨n₁, hn₁, hid, -⟩ := normalizeServerMessage_some strNum now₁ now₂ p
    rw [hn] at hn₁
    cases hn₁
    rw [hid, hk₁]
  have hmn : matchesServerId k n = true := matchesServerId_of_id k n hkt hnid
  have hi : findIndex (matchesServerId n.id) st.messages = none := by
    rw [hnid]
    exact (findIndex_eq_none _ _).mpr hno
  -- the list the first merge sorts
  have key : ∃ l, (handleIncomingMessage strNum now₁ now₂ (some p) st).messages =
      sortByTimestamp l ∧ l.countP (matchesServerId k) = 1 ∧
      ∀ x ∈ l, x = n ∨ x ∈ st.messages := by
    cases hj : findIndex (matchesOptimistic n) st.messages with
    | some j =>
      obtain ⟨hlt, -⟩ := findIndex_eq_some _ _ j hj
      refine ⟨st.messages.set j n, ?_, countP_set_fresh _ _ j n hlt hno hmn,
        fun x hx => mem_set_cases _ j n x hx⟩
      rw [handleIncomingMessage_optimistic strNum now₁ now₂ p st n j hn hi hj]
    | none =>
      have hs : n.id ∉ st.seen := by
        rw [hnid]
        rcases hfirst with h | ⟨m, hm, hpm⟩
        · exact h
        · have := (findIndex_eq_none _ _).mp hj m hm
          rw [hpm] at this
          cases this
      refine ⟨st.messages ++ [n], ?_, countP_append_fresh _ _ n hno hmn, ?_⟩
      · rw [handleIncomingMessage_insert strNum now₁ now₂ p st n hn hi hj hs]
      · intro x hx
        rcases List.mem_append.mp hx with h | h
        · exact Or.inr h
        · exact Or.inl (List.mem_singleton.mp h)
  obtain ⟨l, hl, hcount, hmem⟩ := key
  have hone : (handleIncomingMessage strNum now₁ now₂ (some p) st).messages.countP
      (matchesServerId k) = 1 := by
    rw [hl, (sortByTimestamp_perm l).countP_eq, hcount]
  have hid : ∀ x ∈ (handleIncomingMessage strNum now₁ now₂ (some p) st).messages,
      matchesServerId k x = true → x.id = k := by
    intro x hx hpx
    rw [hl, mem_sortByTimestamp] at hx
    rcases hmem x hx with h | h
    · rw [h, hnid]
    · rw [hno x h] at hpx
      cases hpx
  have hfirstCount : (handleIncomingMessage strNum now₁ now₂ (some p) st).messages.countP
      (fun m => decide (m.id = k)) = 1 := by
    rw [← hone]
    apply List.countP_congr
    intro x hx
    constructor
    · intro h
      exact matchesServerId_of_id k x hkt (of_decide_eq_true h)
    · intro h
      exact decide_eq_true (hid x hx h)
  exact ⟨hfirstCount, handleIncomingMessage_redelivery strNum now₃ now₄ p _ k hk₂ hone hid⟩

/-- C1, a witness of the amended claim in both orders: the payload `{messageId: "m1"}` merged
twice into the empty set, and merged twice into a set holding its pending counterpart. -/
theorem merge_twice_single_entry_witness :
    ((handleIncomingMessage nonNumeric 0 0
        (some (examplePayload (JsVal.str "m1") JsVal.undefined "alice" "hi" 1500))
        (handleIncomingMessage nonNumeric 0 0
          (some (examplePayload (JsVal.str "m1") JsVal.undefined "alice" "hi" 1500))
          { messages := [], seen := [] })).messages.countP
        (fun m => decide (m.id = JsVal.str "m1")) = 1) ∧
    ((handleIncomingMessage nonNumeric 0 0
        (some (examplePayload (JsVal.str "m1") JsVal.undefined "alice" "hi" 1500))
        (handleIncomingMessage nonNumeric 0 0
          (some (examplePayload (JsVal.str "m1") JsVal.undefined "alice" "hi" 1500))
          { messages := [examplePending "u1" "alice" "hi" 1000],
            seen := [JsVal.str "m1"] })).messages.countP
        (fun m => decide (m.id = JsVal.str "m1")) = 1) :=
  ⟨(merge_twice_single_entry nonNumeric 0 0 0 0
      (examplePayload (JsVal.str "m1") JsVal.undefined "alice" "hi" 1500)
      { messages := [], seen := [] } (JsVal.str "m1") _ rfl rfl rfl (by decide)
      (Or.inl (by decide))).2.1,
   (merge_twice_single_entry nonNumeric 0 0 0 0
      (examplePayload (JsVal.str "m1") JsVal.undefined "alice" "hi" 1500)
      { messages := [examplePending "u1" "alice" "hi" 1000], seen := [JsVal.str "m1"] }
      (JsVal.str "m1") _ rfl rfl rfl (by decide)
      (Or.inr ⟨examplePending "u1" "alice" "hi" 1000, by decide, by decide⟩)).2.1⟩

/-! ## Optimistic resolution -/

/-- C2.  Let `n` be the normalized form of the payload `p` and let no entry of the set match
its identity.  If some pending entry has the nickname and text of `n` and a timestamp within
3000 ms (inclusive) of it, a pending entry is replaced by `n`, which is neither pending nor
failed: the length is unchanged and one pending entry fewer remains.  If no such pending entry
is within 3000 ms and the identity is unseen, `n` is appended: the result is a permutation of
the old set with `n` added, so its length grows by one and every old entry, pending ones
included, is still present. -/
theorem optimistic_resolution (strNum : String → JsNum) (now₁ now₂ : Int) (p : Payload)
    (st : ChatState) (n : Message)
    (hn : normalizeServerMessage strNum now₁ now₂ (some p) = some n)
    (hno : ∀ m ∈ st.messages, matchesServerId n.id m = false) :
    ((∃ m ∈ st.messages, m.pending = true ∧ m.nickname = n.nickname ∧
        m.message = n.message ∧
        ∃ a b : Int, n.timestamp = JsNum.fin a ∧ m.timestamp = JsNum.fin b ∧
          |a - b| ≤ 3000) →
      (handleIncomingMessage strNum now₁ now₂ (some p) st).messages.length =
          st.messages.length ∧
        (handleIncomingMessage strNum now₁ now₂ (some p) st).messages.countP
            (fun m => m.pending) + 1 = st.messages.countP (fun m => m.pending) ∧
        n ∈ (handleIncomingMessage strNum now₁ now₂ (some p) st).messages ∧
        n.pending = false ∧ n.error = false) ∧
    ((∀ m ∈ st.messages, m.pending = true → m.nickname = n.nickname →
        m.message = n.message →
        ∀ a b : Int, n.timestamp = JsNum.fin a → m.timestamp = JsNum.fin b →
          3000 < |a - b|) →
      n.id ∉ st.seen →
      (handleIncomingMessage strNum now₁ now₂ (some p) st).messages.Perm
          (st.messages ++ [n]) ∧
        (handleIncomingMessage strNum now₁ now₂ (some p) st).messages.length =
          st.messages.length + 1 ∧
        ∀ m ∈ st.messages, m ∈ (handleIncomingMessage strNum now₁ now₂ (some p) st).messages) := by
  have hi : findIndex (matchesServerId n.id) st.messages = none :=
    (findIndex_eq_none _ _).mpr hno
  obtain ⟨n₁, hn₁, -, hpend, herr, -⟩ := normalizeServerMessage_some strNum now₁ now₂ p
  rw [hn] at hn₁
  cases hn₁
  constructor
  · rintro ⟨m, hm, hmatch⟩
    obtain ⟨j, hj⟩ := findIndex_isSome_of_mem (matchesOptimistic n) _ m hm
      ((matchesOptimistic_iff n m).mpr hmatch)
    obtain ⟨hlt, hpj⟩ := findIndex_eq_some _ _ j hj
    have hpj₁ : st.messages[j].pending = true := matchesOptimistic_pending n _ hpj
    rw [handleIncomingMessage_optimistic strNum now₁ now₂ p st n j hn hi hj]
    simp only
    refine ⟨?_, ?_, ?_, hpend, herr⟩
    · rw [sortByTimestamp_length, List.length_set]
    · rw [(sortByTimestamp_perm _).countP_eq, List.countP_set _ _ _ _ hlt]
      have hpos : 0 < st.messages.countP (fun m => m.pending) :=
        List.countP_pos_iff.mpr ⟨_, List.getElem_mem hlt, hpj₁⟩
      simp only [hpj₁, hpend, if_true]
      simp
      omega
    · rw [mem_sortByTimestamp]
      exact List.mem_iff_getElem.mpr ⟨j, by simpa using hlt, by simp⟩
  · intro hfar hs
    have hj : findIndex (matchesOptimistic n) st.messages = none := by
      rw [findIndex_eq_none]
      intro m hm
      cases hmo : matchesOptimistic n m with
      | false => rfl
      | true =>
        obtain ⟨h₁, h₂, h₃, a, b, ha, hb, hab⟩ := (matchesOptimistic_iff n m).mp hmo
        have := hfar m hm h₁ h₂ h₃ a b ha hb
        omega
    rw [handleIncomingMessage_insert strNum now₁ now₂ p st n hn hi hj hs]
    simp only
    refine ⟨sortByTimestamp_perm _, ?_, ?_⟩
    · rw [sortByTimestamp_length, List.length_append, List.length_singleton]
    · intro m hm
      rw [mem_sortByTimestamp]
      exact List.mem_append_left _ hm

/-- C2, the witness of the claim: the pending message of alice with text "hi" and timestamp
1000 is replaced by the payload with timestamp 1500, and stays next to the appended payload
with timestamp 5000. -/
theorem optimistic_resolution_witness :
    ((handleIncomingMessage nonNumeric 0 0
        (some (examplePayload JsVal.undefined JsVal.undefined "alice" "hi" 1500))
        { messages := [examplePending "u1" "alice" "hi" 1000], seen := [] }).messages.length
        = 1 ∧
      (handleIncomingMessage nonNumeric 0 0
        (some (examplePayload JsVal.undefined JsVal.undefined "alice" "hi" 1500))
        { messages := [examplePending "u1" "alice" "hi" 1000], seen := [] }).messages.countP
          (fun m => m.pending) + 1 = 1) ∧
    ((handleIncomingMessage nonNumeric 0 0
        (some (examplePayload JsVal.undefined JsVal.undefined "alice" "hi" 5000))
        { messages := [examplePending "u1" "alice" "hi" 1000], seen := [] }).messages.length
        = 2 ∧
      examplePending "u1" "alice" "hi" 1000 ∈
        (handleIncomingMessage nonNumeric 0 0
          (some (examplePayload JsVal.undefined JsVal.undefined "alice" "hi" 5000))
          { messages := [examplePending "u1" "alice" "hi" 1000], seen := [] }).messages) :=
  by
  have h₁ := (optimistic_resolution nonNumeric 0 0
      (examplePayload JsVal.undefined JsVal.undefined "alice" "hi" 1500)
      { messages := [examplePending "u1" "alice" "hi" 1000], seen := [] } _ rfl
      (by decide)).1 ⟨examplePending "u1" "alice" "hi" 1000, by decide, rfl, rfl, rfl,
        1500, 1000, rfl, rfl, by decide⟩
  have h₂ := (optimistic_resolution nonNumeric 0 0
      (examplePayload JsVal.undefined JsVal.undefined "alice" "hi" 5000)
      { messages := [examplePending "u1" "alice" "hi" 1000], seen := [] } _ rfl
      (by decide)).2
      (by
        intro m hm _ _ _ a b ha hb
        have hm₁ : m = examplePending "u1" "alice" "hi" 1000 := List.mem_singleton.mp hm
        subst hm₁
        cases ha
        cases hb
        decide)
      (by decide)
  exact ⟨⟨h₁.1, h₁.2.1⟩, ⟨h₂.2.1, h₂.2.2 _ (List.mem_singleton.mpr rfl)⟩⟩

/-! ## Ordering -/

theorem toNumber_isFinite (strNum : String → JsNum) (now : Int) (v : JsVal)
    (hv : v ≠ JsVal.num JsNum.nan) : (toNumber strNum now v).isFinite = true := by
  cases v with
  | num x =>
    cases x with
    | nan => exact absurd rfl hv
    | fin a => rfl
  | undefined => rfl
  | null => rfl
  | bool b => cases b <;> rfl
  | str s =>
    simp only [toNumber, jsNumber]
    cases strNum s <;> rfl

theorem allNumeric_set (l : List Message) (i : Nat) (n : Message) (hl : AllNumeric l)
    (hn : n.timestamp.isFinite = true) : AllNumeric (l.set i n) := by
  intro m hm
  rcases mem_set_cases l i n m hm with h | h
  · rw [h]; exact hn
  · exact hl m h

theorem allNumeric_append (l : List Message) (n : Message) (hl : AllNumeric l)
    (hn : n.timestamp.isFinite = true) : AllNumeric (l ++ [n]) := by
  intro m hm
  rcases List.mem_append.mp hm with h | h
  · exact hl m h
  · rw [List.mem_singleton.mp h]; exact hn

theorem ascending_map_flip (l : List Message) (f : Message → Message)
    (hf : ∀ m, (f m).timestamp = m.timestamp) (hl : Ascending l) : Ascending (l.map f) := by
  unfold Ascending at *
  rw [List.pairwise_map]
  exact hl.imp (fun {a b} h => by rw [hf a, hf b]; exact h)

/-- C3.  On a list whose timestamps are numbers, `sortByTimestamp` returns a permutation of
its input that is ascending by timestamp and in which, for every timestamp, the entries with
that timestamp appear in their input order.  Consequently the set `handleIncomingMessage`
returns from a replace or insert branch is ascending, and so is the set `handleSendMessage`
leaves after its optimistic insert. -/
theorem sortByTimestamp_ordering (l : List Message) (hl : AllNumeric l) :
    (sortByTimestamp l).Perm l ∧
    Ascending (sortByTimestamp l) ∧
    (∀ t : JsNum, (sortByTimestamp l).filter (fun m => decide (m.timestamp = t)) =
      l.filter (fun m => decide (m.timestamp = t))) ∧
    (∀ (strNum : String → JsNum) (now₁ now₂ : Int) (p : Payload) (seen : List JsVal)
        (n : Message),
      normalizeServerMessage strNum now₁ now₂ (some p) = some n →
      p.timestamp ≠ JsVal.num JsNum.nan →
      ((∃ i, findIndex (matchesServerId n.id) l = some i) ∨
        (∃ j, findIndex (matchesOptimistic n) l = some j) ∨ n.id ∉ seen) →
      Ascending (handleIncomingMessage strNum now₁ now₂ (some p)
        { messages := l, seen := seen }).messages) ∧
    (∀ (cfg : Stomp.Config) (nickname : String) (text : JsVal) (optimisticId : String)
        (now : Int) (seen : List JsVal) (m : Stomp.State),
      nickname ≠ "" → validText text = true →
      Ascending (handleSendMessage cfg nickname text optimisticId now
        { messages := l, seen := seen } m).2.1.messages) := by
  refine ⟨sortByTimestamp_perm l, sortByTimestamp_ascending l hl,
    sortByTimestamp_stable l hl, ?_, ?_⟩
  · intro strNum now₁ now₂ p seen n hn hp hbranch
    have hfin : n.timestamp.isFinite = true := by
      obtain ⟨n₁, hn₁, -, -, -, hts⟩ := normalizeServerMessage_some strNum now₁ now₂ p
      rw [hn] at hn₁
      cases hn₁
      rw [hts]
      exact toNumber_isFinite strNum now₁ _ hp
    cases hi : findIndex (matchesServerId n.id) l with
    | some i =>
      rw [handleIncomingMessage_existing strNum now₁ now₂ p _ n i hn hi]
      exact sortByTimestamp_ascending _ (allNumeric_set l i n hl hfin)
    | none =>
      cases hj : findIndex (matchesOptimistic n) l with
      | some j =>
        rw [handleIncomingMessage_optimistic strNum now₁ now₂ p _ n j hn hi hj]
        exact sortByTimestamp_ascending _ (allNumeric_set l j n hl hfin)
      | none =>
        have hs : n.id ∉ seen := by
          rcases hbranch with ⟨i, h⟩ | ⟨j, h⟩ | h
          · rw [hi] at h; cases h
          · rw [hj] at h; cases h
          · exact h
        rw [handleIncomingMessage_insert strNum now₁ now₂ p _ n hn hi hj hs]
        exact sortByTimestamp_ascending _ (allNumeric_append l n hl hfin)
  · intro cfg nickname text optimisticId now seen m hnick hvalid
    cases text with
    | str t =>
      simp only [handleSendMessage, hnick, hvalid, if_false, Bool.not_true,
        Bool.false_eq_true]
      have hsorted : ∀ o : Message, o.timestamp = JsNum.fin now →
          Ascending (sortByTimestamp (l ++ [o])) := fun o ho =>
        sortByTimestamp_ascending _ (allNumeric_append l o hl (by rw [ho]; rfl))
      cases hsucc : (usePublish cfg nickname (JsVal.str (jsTrim t)) m).1 with
      | true =>
        simp only [Bool.not_true, Bool.false_eq_true, if_false]
        exact hsorted _ rfl
      | false =>
        simp only [Bool.not_false, if_true]
        refine ascending_map_flip _ _ ?_ (hsorted _ rfl)
        intro x
        split <;> rfl
    | undefined => simp [validText] at hvalid
    | null => simp [validText] at hvalid
    | bool b => simp [validText] at hvalid
    | num x => simp [validText] at hvalid

/-- C3, the witness of the claim: timestamps 5, 3, 3, 1 become 1, 3, 3, 5, with the two
entries of timestamp 3 in their input order. -/
theorem sortByTimestamp_ordering_witness :
    sortByTimestamp [examplePending "a" "alice" "five" 5, examplePending "b" "alice" "first" 3,
        examplePending "c" "alice" "second" 3, examplePending "d" "alice" "one" 1] =
      [examplePending "d" "alice" "one" 1, examplePending "b" "alice" "first" 3,
        examplePending "c" "alice" "second" 3, examplePending "a" "alice" "five" 5] ∧
    Ascending (sortByTimestamp [examplePending "a" "alice" "five" 5,
        examplePending "b" "alice" "first" 3, examplePending "c" "alice" "second" 3,
        examplePending "d" "alice" "one" 1]) :=
  ⟨by decide,
   (sortByTimestamp_ordering _ (by
      intro m hm
      simp only [List.mem_cons, List.mem_singleton, List.not_mem_nil, or_false] at hm
      rcases hm with h | h | h | h <;> rw [h] <;> rfl)).2.1⟩

/-! ## Failed publish -/

theorem publish_not_connected (cfg : Stomp.Config) (destination : String)
    (body : Stomp.PublishBody) (m : Stomp.State)
    (hdown : m.client = none ∨ ∃ c, m.client = some c ∧ m.connected c = false) :
    Stomp.publish cfg destination body m =
      Except.error { message := "STOMP client is not connected.", state := m } := by
  unfold Stomp.publish
  rcases hdown with h | ⟨c, h, hc⟩
  · rw [h]
  · rw [h]
    simp [hc]

theorem usePublish_not_connected (cfg : Stomp.Config) (nickname : String) (text : JsVal)
    (m : Stomp.State)
    (hdown : m.client = none ∨ ∃ c, m.client = some c ∧ m.connected c = false) :
    usePublish cfg nickname text m = (false, m) := by
  unfold usePublish
  split
  · rfl
  · split
    · rfl
    · split
      · rfl
      · split
        · rfl
        · split
          · simp only [publish_not_connected cfg _ _ m hdown]
          · rfl

/-- C4.  With a known nickname and a valid text (necessarily a string `t`), and the manager
without a connected Transport Session, `publish` of the manager throws, `publish` of `useChat`
returns false, and `handleSendMessage` returns false and leaves a permutation of the old set
with one entry added: the optimistic entry with `pending = false` and `error = true`.  So the
set has one entry more, every old entry is present unchanged, and nothing is removed.  The id
`uuidv4()` returned is taken to differ from the ids in the set. -/
theorem failed_publish_keeps_failed_entry (cfg : Stomp.Config) (nickname t : String)
    (optimisticId : String) (now : Int) (st : ChatState) (m : Stomp.State)
    (hnick : nickname ≠ "") (hvalid : validText (JsVal.str t) = true)
    (hdown : m.client = none ∨ ∃ c, m.client = some c ∧ m.connected c = false)
    (hfresh : ∀ x ∈ st.messages, x.id ≠ JsVal.str optimisticId) :
    (∀ destination body, ∃ thrown, Stomp.publish cfg destination body m = Except.error thrown) ∧
    (usePublish cfg nickname (JsVal.str (jsTrim t)) m).1 = false ∧
    (handleSendMessage cfg nickname (JsVal.str t) optimisticId now st m).1 = false ∧
    (handleSendMessage cfg nickname (JsVal.str t) optimisticId now st m).2.1.messages.Perm
      (st.messages ++
        [{ id := JsVal.str optimisticId, messageId := JsVal.undefined, pk := JsVal.undefined,
           nickname := nickname, message := jsTrim t, timestamp := JsNum.fin now,
           ttl := JsVal.undefined, pending := false, error := true,
           optimisticId := JsVal.str optimisticId }]) ∧
    (handleSendMessage cfg nickname (JsVal.str t) optimisticId now st m).2.1.messages.length =
      st.messages.length + 1 ∧
    (∀ x ∈ st.messages,
      x ∈ (handleSendMessage cfg nickname (JsVal.str t) optimisticId now st m).2.1.messages) := by
  have hpub := usePublish_not_connected cfg nickname (JsVal.str (jsTrim t)) m hdown
  have hperm : (handleSendMessage cfg nickname (JsVal.str t) optimisticId now st m).2.1.messages.Perm
      (st.messages ++
        [{ id := JsVal.str optimisticId, messageId := JsVal.undefined, pk := JsVal.undefined,
           nickname := nickname, message := jsTrim t, timestamp := JsNum.fin now,
           ttl := JsVal.undefined, pending := false, error := true,
           optimisticId := JsVal.str optimisticId }]) := by
    simp only [handleSendMessage, hnick, hvalid, if_false, Bool.not_true, Bool.false_eq_true,
      hpub, Bool.not_false, if_true]
    refine ((sortByTimestamp_perm _).map _).trans ?_
    rw [List.map_append, List.map_singleton]
    have hmap : st.messages.map (fun msg =>
        if msg.id.strictEq (JsVal.str optimisticId) = true then
          { msg with pending := false, error := true }
        else msg) = st.messages := by
      conv => rhs; rw [← List.map_id st.messages]
      apply List.map_congr_left
      intro x hx
      have hne : x.id.strictEq (JsVal.str optimisticId) = false := by
        cases hq : x.id.strictEq (JsVal.str optimisticId) with
        | false => rfl
        | true => exact absurd ((strictEq_of_truthy _ _ (by
            cases hid : x.id <;> simp [JsVal.strictEq, hid] at hq
            subst hq
            have := hfresh x hx
            simp [hid] at this)).mp hq) (hfresh x hx)
      simp [hne]
    rw [hmap]
    simp [JsVal.strictEq]
  refine ⟨fun destination body => ⟨_, publish_not_connected cfg destination body m hdown⟩,
    by rw [hpub], ?_, hperm, ?_, ?_⟩
  · simp only [handleSendMessage, hnick, hvalid, if_false, Bool.not_true, Bool.false_eq_true,
      hpub, Bool.not_false, if_true]
  · rw [hperm.length_eq, List.length_append, List.length_singleton]
  · intro x hx
    exact hperm.mem_iff.mpr (List.mem_append_left _ hx)

/-- C4, a witness: alice sends " hi " while the manager has never been connected.  The set
keeps its old entry and gains the failed entry with the trimmed text. -/
theorem failed_publish_keeps_failed_entry_witness :
    validText (JsVal.str " hi ") = true ∧
    Stomp.init.client = none ∧
    (handleSendMessage Stomp.exampleConfig "alice" (JsVal.str " hi ") "u1" 7
        { messages := [examplePending "u0" "alice" "old" 5], seen := [] }
        Stomp.init).2.1.messages.Perm
      ([examplePending "u0" "alice" "old" 5] ++
        [{ id := JsVal.str "u1", messageId := JsVal.undefined, pk := JsVal.undefined,
           nickname := "alice", message := jsTrim " hi ", timestamp := JsNum.fin 7,
           ttl := JsVal.undefined, pending := false, error := true,
           optimisticId := JsVal.str "u1" }]) :=
  ⟨by decide, rfl,
   (failed_publish_keeps_failed_entry Stomp.exampleConfig "alice" " hi " "u1" 7
      { messages := [examplePending "u0" "alice" "old" 5], seen := [] } Stomp.init
      (by decide) (by decide) (Or.inl rfl) (by decide)).2.2.2.1⟩

end Chat

namespace Chat

/-! ## The seen-identity set -/

/-- C14.  Let `n` be the normalized form of the payload `p`, with identity `n.id`, let no
entry of the set match that identity, and let no pending entry have the nickname and text of
`n` and a timestamp within 3000 ms of it.  If the identity is in the seen set, the state,
message set and seen set, is returned unchanged.  If it is not, `n` is inserted (the result
is the old set with `n` appended, sorted) and the identity is added to the seen set, which
keeps its other members. -/
theorem seen_identity_discard (strNum : String → JsNum) (now₁ now₂ : Int) (p : Payload)
    (st : ChatState) (n : Message)
    (hn : normalizeServerMessage strNum now₁ now₂ (some p) = some n)
    (hno : ∀ m ∈ st.messages, matchesServerId n.id m = false)
    (hfar : ∀ m ∈ st.messages, ¬ (m.pending = true ∧ m.nickname = n.nickname ∧
      m.message = n.message ∧
      ∃ a b : Int, n.timestamp = JsNum.fin a ∧ m.timestamp = JsNum.fin b ∧ |a - b| ≤ 3000)) :
    n.id = getMessageId strNum now₂ (some p) ∧
    (n.id ∈ st.seen → handleIncomingMessage strNum now₁ now₂ (some p) st = st) ∧
    (n.id ∉ st.seen →
      (handleIncomingMessage strNum now₁ now₂ (some p) st).messages =
          sortByTimestamp (st.messages ++ [n]) ∧
        (handleIncomingMessage strNum now₁ now₂ (some p) st).messages.Perm
          (st.messages ++ [n]) ∧
        (handleIncomingMessage strNum now₁ now₂ (some p) st).seen = st.seen ++ [n.id] ∧
        n.id ∈ (handleIncomingMessage strNum now₁ now₂ (some p) st).seen) := by
  have hi : findIndex (matchesServerId n.id) st.messages = none :=
    (findIndex_eq_none _ _).mpr hno
  have hj : findIndex (matchesOptimistic n) st.messages = none := by
    rw [findIndex_eq_none]
    intro m hm
    cases hmo : matchesOptimistic n m with
    | false => rfl
    | true => exact absurd ((matchesOptimistic_iff n m).mp hmo) (hfar m hm)
  have hid : n.id = getMessageId strNum now₂ (some p) := by
    obtain ⟨n₁, hn₁, h, -⟩ := normalizeServerMessage_some strNum now₁ now₂ p
    rw [hn] at hn₁
    cases hn₁
    exact h
  refine ⟨hid, ?_, ?_⟩
  · intro hs
    exact handleIncomingMessage_seen strNum now₁ now₂ p st n hn hi hj hs
  · intro hs
    rw [handleIncomingMessage_insert strNum now₁ now₂ p st n hn hi hj hs]
    refine ⟨rfl, sortByTimestamp_perm _, ?_, ?_⟩
    · simp [seenAdd, hs]
    · simp [seenAdd, hs]

/-- C14, a witness: the identity "m1" was seen and its entry was replaced through its `pk`
(the state of the example for merge idempotence); the payload is discarded.  Into the empty
state with an empty seen set it is inserted. -/
theorem seen_identity_discard_witness :
    handleIncomingMessage nonNumeric 0 0
        (some (examplePayload (JsVal.str "m1") (JsVal.str "p1") "bob" "yo" 10))
        { messages :=
            [{ id := JsVal.str "p1", messageId := JsVal.null, pk := JsVal.str "p1",
               nickname := "bob", message := "yo", timestamp := JsNum.fin 10,
               ttl := JsVal.undefined, pending := false, error := false,
               optimisticId := JsVal.undefined }],
          seen := [JsVal.str "m1", JsVal.str "p1"] } =
      { messages :=
          [{ id := JsVal.str "p1", messageId := JsVal.null, pk := JsVal.str "p1",
             nickname := "bob", message := "yo", timestamp := JsNum.fin 10,
             ttl := JsVal.undefined, pending := false, error := false,
             optimisticId := JsVal.undefined }],
        seen := [JsVal.str "m1", JsVal.str "p1"] } ∧
    (handleIncomingMessage nonNumeric 0 0
        (some (examplePayload (JsVal.str "m1") (JsVal.str "p1") "bob" "yo" 10))
        { messages := [], seen := [] }).seen = [] ++ [JsVal.str "m1"] :=
  ⟨(seen_identity_discard nonNumeric 0 0
      (examplePayload (JsVal.str "m1") (JsVal.str "p1") "bob" "yo" 10)
      { messages :=
          [{ id := JsVal.str "p1", messageId := JsVal.null, pk := JsVal.str "p1",
             nickname := "bob", message := "yo", timestamp := JsNum.fin 10,
             ttl := JsVal.undefined, pending := false, error := false,
             optimisticId := JsVal.undefined }],
        seen := [JsVal.str "m1", JsVal.str "p1"] } _ rfl (by decide)
      (by
        intro m hm hmatch
        have hm₁ := List.mem_singleton.mp hm
        subst hm₁
        exact absurd hmatch.1 (by decide))).2.1 (by decide),
   ((seen_identity_discard nonNumeric 0 0
      (examplePayload (JsVal.str "m1") (JsVal.str "p1") "bob" "yo" 10)
      { messages := [], seen := [] } _ rfl (by decide)
      (by intro m hm; cases hm)).2.2 (by decide)).2.2.1⟩

end Chat

namespace Chat

/-! ## Number to string -/

theorem binaryDigits_le (x : Nat) (h : x < 2 ^ 53) : JsNum.binaryDigits x ≤ 53 := by
  unfold JsNum.binaryDigits
  split
  · exact Nat.zero_le _
  · exact Nat.toDigitsCore_length 2 (by decide) (x + 1) x 53 h (by decide)

theorem roundToDouble_small (x : Nat) (h : x < 2 ^ 53) : JsNum.roundToDouble x = x := by
  show (if JsNum.binaryDigits x ≤ 53 then x else _) = x
  exact if_pos (binaryDigits_le x h)

theorem shortestDecimal_small (x : Nat) (h : x < 2 ^ 53) : JsNum.shortestDecimal x = x := by
  show (if JsNum.binaryDigits x ≤ 53 then x else _) = x
  exact if_pos (binaryDigits_le x h)

theorem formatDecimal_small (x : Nat) (h : x < 2 ^ 53) :
    JsNum.formatDecimal x = toString x := by
  have hlen : (Nat.toDigits 10 x).length ≤ 21 :=
    Nat.toDigitsCore_length 10 (by decide) (x + 1) x 21
      (lt_of_lt_of_le h (by norm_num)) (by decide)
  show (if (Nat.toDigits 10 x).length ≤ 21 then toString x else _) = toString x
  exact if_pos hlen

theorem toJsString_small (k : Int) (h : k.natAbs < 2 ^ 53) :
    (JsNum.fin k).toJsString = toString k := by
  have hb : ¬ 1024 < JsNum.binaryDigits k.natAbs := by
    have := binaryDigits_le k.natAbs h
    omega
  simp only [JsNum.toJsString, roundToDouble_small _ h, shortestDecimal_small _ h,
    formatDecimal_small _ h, hb, if_false]
  cases k with
  | ofNat m =>
    have hpos : ¬ Int.ofNat m < 0 := not_lt.mpr (Int.ofNat_nonneg m)
    simp only [hpos, if_false]
    exact String.empty_append _
  | negSucc m =>
    have hneg : Int.negSucc m < 0 := Int.negSucc_lt_zero m
    simp only [hneg, if_true]
    rfl

/-! ## Identity derivation -/

/-- C15, the claim as stated fails.  A payload whose `messageId` is present with the value 0
and whose `pk` is "p1" gets the identity "p1", not its `messageId`.  A payload without id
fields and without nickname gets the identity built from the nickname "guest", although its
normalized message has the nickname "Guest".  A payload of alice without id fields and
without timestamp, normalized while `toNumber` reads the clock at 100 and `getMessageId`
reads it at 200, gets the identity "alice-200-hi" and the timestamp 100. -/
theorem getMessageId_counterexample :
    getMessageId nonNumeric 0
        (some { messageId := JsVal.num (JsNum.fin 0), pk := JsVal.str "p1",
                id := JsVal.undefined, nickname := JsVal.str "alice",
                message := JsVal.str "hi", timestamp := JsVal.num (JsNum.fin 10),
                ttl := JsVal.undefined }) = JsVal.str "p1" ∧
    getMessageId nonNumeric 0
        (some { messageId := JsVal.undefined, pk := JsVal.undefined,
                id := JsVal.undefined, nickname := JsVal.undefined,
                message := JsVal.str "hi", timestamp := JsVal.num (JsNum.fin 10),
                ttl := JsVal.undefined }) = JsVal.str "guest-10-hi" ∧
    (normalizeServerMessage nonNumeric 0 0
        (some { messageId := JsVal.undefined, pk := JsVal.undefined,
                id := JsVal.undefined, nickname := JsVal.undefined,
                message := JsVal.str "hi", timestamp := JsVal.num (JsNum.fin 10),
                ttl := JsVal.undefined })).map (fun n => n.nickname) = some "Guest" ∧
    (normalizeServerMessage nonNumeric 100 200
        (some { messageId := JsVal.undefined, pk := JsVal.undefined,
                id := JsVal.undefined, nickname := JsVal.str "alice",
                message := JsVal.str "hi", timestamp := JsVal.undefined,
                ttl := JsVal.undefined })).map (fun n => (n.id, n.timestamp)) =
      some (JsVal.str "alice-200-hi", JsNum.fin 100) := by
  decide

/-- C15, amended.  `getMessageId` returns the field `messageId` if it is truthy, otherwise
`pk` if it is truthy, otherwise `id` if it is truthy.  If none is truthy it returns the
string `N-T-M`: `N` is the field `nickname` as a string if it is truthy and `guest`
otherwise, `M` is the field `message` as a string if it is truthy and empty otherwise, and
`T` is the text of the number `toNumber(payload.timestamp)` that `getMessageId` computes
with its own reading `now₂` of the clock.  That text is the decimal digits for an integer of
magnitude below `2 ^ 53`, and `1e+21` for the number `1e21`.  When the nickname is a
non-empty string and the message a string, `N` and `M` are the nickname and the text of the
message `normalizeServerMessage` makes, whose `id` is this identity and whose timestamp is
`toNumber(payload.timestamp)` with the reading `now₁`.  `T` is the text of that timestamp
when the two calls of `toNumber` agree, as they do when the timestamp is a number or
`Number` of it is not `NaN`; otherwise `T` is the text of `now₂` and the timestamp of the
message is `now₁`. -/
theorem getMessageId_derivation (strNum : String → JsNum) (now₁ now₂ : Int) (p : Payload) :
    (p.messageId.truthy = true → getMessageId strNum now₂ (some p) = p.messageId) ∧
    (p.messageId.truthy = false → p.pk.truthy = true →
      getMessageId strNum now₂ (some p) = p.pk) ∧
    (p.messageId.truthy = false → p.pk.truthy = false → p.id.truthy = true →
      getMessageId strNum now₂ (some p) = p.id) ∧
    (p.messageId.truthy = false → p.pk.truthy = false → p.id.truthy = false →
      getMessageId strNum now₂ (some p) =
        JsVal.str
          ((if p.nickname.truthy then p.nickname.toJsString else "guest") ++ "-" ++
            (toNumber strNum now₂ p.timestamp).toJsString ++ "-" ++
            (if p.message.truthy then p.message.toJsString else "")) ∧
      (∀ (nickname text : String) (n : Message), nickname ≠ "" →
        p.nickname = JsVal.str nickname → p.message = JsVal.str text →
        normalizeServerMessage strNum now₁ now₂ (some p) = some n →
        n.nickname = nickname ∧ n.message = text ∧
        n.timestamp = toNumber strNum now₁ p.timestamp ∧
        n.id = getMessageId strNum now₂ (some p) ∧
        n.id = JsVal.str (n.nickname ++ "-" ++
          (toNumber strNum now₂ p.timestamp).toJsString ++ "-" ++ n.message) ∧
        (toNumber strNum now₂ p.timestamp = toNumber strNum now₁ p.timestamp →
          n.id = JsVal.str
            (n.nickname ++ "-" ++ n.timestamp.toJsString ++ "-" ++ n.message)))) ∧
    (((∃ x, p.timestamp = JsVal.num x) ∨ jsNumber strNum p.timestamp ≠ JsNum.nan) →
      toNumber strNum now₂ p.timestamp = toNumber strNum now₁ p.timestamp) ∧
    ((∀ x, p.timestamp ≠ JsVal.num x) → jsNumber strNum p.timestamp = JsNum.nan →
      toNumber strNum now₂ p.timestamp = JsNum.fin now₂ ∧
      toNumber strNum now₁ p.timestamp = JsNum.fin now₁) ∧
    (∀ k : Int, k.natAbs < 2 ^ 53 → (JsNum.fin k).toJsString = toString k) ∧
    (JsNum.fin 1000000000000000000000).toJsString = "1e+21" := by
  refine ⟨?_, ?_, ?_, ?_, ?_, ?_, toJsString_small, by decide⟩
  · intro h₁
    simp [getMessageId, h₁]
  · intro h₁ h₂
    simp [getMessageId, h₁, h₂]
  · intro h₁ h₂ h₃
    simp [getMessageId, h₁, h₂, h₃]
  · intro h₁ h₂ h₃
    have hform : getMessageId strNum now₂ (some p) =
        JsVal.str
          ((if p.nickname.truthy then p.nickname.toJsString else "guest") ++ "-" ++
            (toNumber strNum now₂ p.timestamp).toJsString ++ "-" ++
            (if p.message.truthy then p.message.toJsString else "")) := by
      simp only [getMessageId, h₁, h₂, h₃, Bool.false_eq_true, if_false, JsVal.or]
      cases hn : p.nickname.truthy <;> cases hm : p.message.truthy <;>
        simp [JsVal.toJsString]
    refine ⟨hform, ?_⟩
    intro nickname text n hnick hpn hpm hn
    obtain ⟨n₁, hn₁, hid, -, -, hnt⟩ := normalizeServerMessage_some strNum now₁ now₂ p
    rw [hn] at hn₁
    cases hn₁
    have hnn : n.nickname = nickname := by
      simp only [normalizeServerMessage, Option.some.injEq] at hn
      subst hn
      simp [hpn]
    have hnm : n.message = text := by
      simp only [normalizeServerMessage, Option.some.injEq] at hn
      subst hn
      simp [hpm]
    have hidform : n.id = JsVal.str (n.nickname ++ "-" ++
        (toNumber strNum now₂ p.timestamp).toJsString ++ "-" ++ n.message) := by
      rw [hid, hform, hnn, hnm, hpn, hpm]
      by_cases ht : text = ""
      · simp [JsVal.truthy, JsVal.toJsString, hnick, ht]
      · simp [JsVal.truthy, JsVal.toJsString, hnick, ht]
    refine ⟨hnn, hnm, hnt, hid, hidform, ?_⟩
    intro hagree
    rw [hidform, hnt, hagree]
  · rintro (⟨x, hx⟩ | hnum)
    · rw [hx]
      rfl
    · cases hv : p.timestamp with
      | num x => rfl
      | undefined => rw [hv] at hnum; exact absurd rfl hnum
      | null => rfl
      | bool b => cases b <;> rfl
      | str s =>
        rw [hv] at hnum
        have hs : strNum s ≠ JsNum.nan := hnum
        cases hk : strNum s with
        | nan => exact absurd hk hs
        | fin k => simp [toNumber, jsNumber, hk]
  · intro hnot hnan
    cases hv : p.timestamp with
    | num x => exact absurd hv (hnot x)
    | undefined => exact ⟨rfl, rfl⟩
    | null => rw [hv] at hnan; cases hnan
    | bool b => rw [hv] at hnan; cases b <;> cases hnan
    | str s =>
      rw [hv] at hnan
      have hs : strNum s = JsNum.nan := hnan
      simp [toNumber, jsNumber, hs]

/-- C15, a witness: the three id fields in their order of preference, the fallback for the
payload of alice with text "hi" and timestamp 1500, and the fallback for the timestamp
`1e21`. -/
theorem getMessageId_derivation_witness :
    getMessageId nonNumeric 0
        (some (examplePayload (JsVal.str "m1") (JsVal.str "p1") "alice" "hi" 1500)) =
      JsVal.str "m1" ∧
    getMessageId nonNumeric 0
        (some (examplePayload JsVal.undefined (JsVal.str "p1") "alice" "hi" 1500)) =
      JsVal.str "p1" ∧
    getMessageId nonNumeric 0
        (some (examplePayload JsVal.undefined JsVal.undefined "alice" "hi" 1500)) =
      JsVal.str "alice-1500-hi" ∧
    getMessageId nonNumeric 0
        (some (examplePayload JsVal.undefined JsVal.undefined "alice" "hi"
          1000000000000000000000)) =
      JsVal.str "alice-1e+21-hi" :=
  ⟨(getMessageId_derivation nonNumeric 0 0
      (examplePayload (JsVal.str "m1") (JsVal.str "p1") "alice" "hi" 1500)).1 (by decide),
   (getMessageId_derivation nonNumeric 0 0
      (examplePayload JsVal.undefined (JsVal.str "p1") "alice" "hi" 1500)).2.1 (by decide)
      (by decide),
   ((getMessageId_derivation nonNumeric 0 0
      (examplePayload JsVal.undefined JsVal.undefined "alice" "hi" 1500)).2.2.2.1 (by decide)
      (by decide) (by decide)).1.trans (by decide),
   ((getMessageId_derivation nonNumeric 0 0
      (examplePayload JsVal.undefined JsVal.undefined "alice" "hi"
        1000000000000000000000)).2.2.2.1 (by decide) (by decide) (by decide)).1.trans
      (by decide)⟩

end Chat

namespace Chat

/-! ## Pending and failed exclude each other -/

theorem handleIncomingMessage_mem (strNum : String → JsNum) (now₁ now₂ : Int)
    (payload : Option Payload) (st : ChatState) (x : Message)
    (hx : x ∈ (handleIncomingMessage strNum now₁ now₂ payload st).messages) :
    x ∈ st.messages ∨ normalizeServerMessage strNum now₁ now₂ payload = some x := by
  cases payload with
  | none =>
    simp only [handleIncomingMessage, normalizeServerMessage] at hx
    exact Or.inl hx
  | some p =>
    obtain ⟨n, hn, -⟩ := normalizeServerMessage_some strNum now₁ now₂ p
    rw [hn]
    cases hi : findIndex (matchesServerId n.id) st.messages with
    | some i =>
      rw [handleIncomingMessage_existing strNum now₁ now₂ p st n i hn hi] at hx
      rcases mem_set_cases _ i n x ((mem_sortByTimestamp _ x).mp hx) with h | h
      · exact Or.inr (by rw [h])
      · exact Or.inl h
    | none =>
      cases hj : findIndex (matchesOptimistic n) st.messages with
      | some j =>
        rw [handleIncomingMessage_optimistic strNum now₁ now₂ p st n j hn hi hj] at hx
        rcases mem_set_cases _ j n x ((mem_sortByTimestamp _ x).mp hx) with h | h
        · exact Or.inr (by rw [h])
        · exact Or.inl h
      | none =>
        by_cases hs : n.id ∈ st.seen
        · rw [handleIncomingMessage_seen strNum now₁ now₂ p st n hn hi hj hs] at hx
          exact Or.inl hx
        · rw [handleIncomingMessage_insert strNum now₁ now₂ p st n hn hi hj hs] at hx
          rcases List.mem_append.mp ((mem_sortByTimestamp _ x).mp hx) with h | h
          · exact Or.inl h
          · exact Or.inr (by rw [List.mem_singleton.mp h])

theorem normalizeServerMessage_flags (strNum : String → JsNum) (now₁ now₂ : Int)
    (payload : Option Payload) (n : Message)
    (hn : normalizeServerMessage strNum now₁ now₂ payload = some n) :
    n.pending = false ∧ n.error = false := by
  cases payload with
  | none => simp [normalizeServerMessage] at hn
  | some p =>
    obtain ⟨n₁, hn₁, -, h₁, h₂, -⟩ := normalizeServerMessage_some strNum now₁ now₂ p
    rw [hn] at hn₁
    cases hn₁
    exact ⟨h₁, h₂⟩

theorem handleSendMessage_messages (cfg : Stomp.Config) (nickname : String) (text : JsVal)
    (optimisticId : String) (now : Int) (st : ChatState) (m : Stomp.State) :
    (handleSendMessage cfg nickname text optimisticId now st m).2.1.messages = st.messages ∨
    ∃ t, text = JsVal.str t ∧
      (((handleSendMessage cfg nickname text optimisticId now st m).1 = true ∧
        (handleSendMessage cfg nickname text optimisticId now st m).2.1.messages =
          sortByTimestamp (st.messages ++
            [{ id := JsVal.str optimisticId, messageId := JsVal.undefined,
               pk := JsVal.undefined, nickname := nickname, message := jsTrim t,
               timestamp := JsNum.fin now, ttl := JsVal.undefined, pending := true,
               error := false, optimisticId := JsVal.str optimisticId }])) ∨
       ((handleSendMessage cfg nickname text optimisticId now st m).1 = false ∧
        (handleSendMessage cfg nickname text optimisticId now st m).2.1.messages =
          (sortByTimestamp (st.messages ++
            [{ id := JsVal.str optimisticId, messageId := JsVal.undefined,
               pk := JsVal.undefined, nickname := nickname, message := jsTrim t,
               timestamp := JsNum.fin now, ttl := JsVal.undefined, pending := true,
               error := false, optimisticId := JsVal.str optimisticId }])).map
            (fun msg => if msg.id.strictEq (JsVal.str optimisticId) then
              { msg with pending := false, error := true } else msg))) := by
  by_cases hnick : nickname = ""
  · left
    simp [handleSendMessage, hnick]
  · cases hvalid : validText text with
    | false =>
      left
      simp [handleSendMessage, hnick, hvalid]
    | true =>
      cases text with
      | str t =>
        right
        refine ⟨t, rfl, ?_⟩
        simp only [handleSendMessage, hnick, hvalid, if_false, Bool.not_true,
          Bool.false_eq_true]
        cases hsucc : (usePublish cfg nickname (JsVal.str (jsTrim t)) m).1 with
        | true =>
          left
          simp only [Bool.not_true, Bool.false_eq_true, if_false]
          exact ⟨trivial, trivial⟩
        | false =>
          right
          simp only [Bool.not_false, if_true]
          exact ⟨trivial, trivial⟩
      | undefined => simp [validText] at hvalid
      | null => simp [validText] at hvalid
      | bool b => simp [validText] at hvalid
      | num x => simp [validText] at hvalid

theorem handleSendMessage_exclusion (cfg : Stomp.Config) (nickname : String) (text : JsVal)
    (optimisticId : String) (now : Int) (st : ChatState) (m : Stomp.State)
    (h : ∀ x ∈ st.messages, ¬ (x.pending = true ∧ x.error = true)) :
    ∀ x ∈ (handleSendMessage cfg nickname text optimisticId now st m).2.1.messages,
      ¬ (x.pending = true ∧ x.error = true) := by
  have hbase : ∀ t : String, ∀ x ∈ sortByTimestamp (st.messages ++
      [{ id := JsVal.str optimisticId, messageId := JsVal.undefined,
         pk := JsVal.undefined, nickname := nickname, message := jsTrim t,
         timestamp := JsNum.fin now, ttl := JsVal.undefined, pending := true,
         error := false, optimisticId := JsVal.str optimisticId }]),
      ¬ (x.pending = true ∧ x.error = true) := by
    intro t x hx
    rcases List.mem_append.mp ((mem_sortByTimestamp _ x).mp hx) with hx₁ | hx₁
    · exact h x hx₁
    · rw [List.mem_singleton.mp hx₁]
      simp
  rcases handleSendMessage_messages cfg nickname text optimisticId now st m with
    he | ⟨t, -, ⟨-, he⟩ | ⟨-, he⟩⟩
  · rw [he]; exact h
  · rw [he]; exact hbase t
  · rw [he]
    intro x hx
    obtain ⟨y, hy, rfl⟩ := List.mem_map.mp hx
    split
    · simp
    · exact hbase t y hy

theorem initialMessagesEffect_exclusion (strNum : String → JsNum)
    (payloads : Option (List (Int × Int × Option Payload))) :
    ∀ x ∈ (initialMessagesEffect strNum payloads).messages,
      x.pending = false ∧ x.error = false := by
  intro x hx
  simp only [initialMessagesEffect] at hx
  rw [mem_sortByTimestamp] at hx
  cases payloads with
  | none => simp at hx
  | some list =>
    simp only [List.mem_filterMap] at hx
    obtain ⟨a, -, ha⟩ := hx
    exact normalizeServerMessage_flags strNum _ _ _ x ha

theorem chatStep_exclusion (strNum : String → JsNum) (cfg : Stomp.Config) (e : ChatEvent)
    (st : ChatState) (h : ∀ x ∈ st.messages, ¬ (x.pending = true ∧ x.error = true)) :
    ∀ x ∈ (chatStep strNum cfg e st).messages, ¬ (x.pending = true ∧ x.error = true) := by
  cases e with
  | initialMessages payloads =>
    intro x hx
    have := initialMessagesEffect_exclusion strNum payloads x hx
    simp [this.1]
  | incoming now₁ now₂ payload =>
    intro x hx
    rcases handleIncomingMessage_mem strNum now₁ now₂ payload st x hx with h₁ | h₁
    · exact h x h₁
    · have := normalizeServerMessage_flags strNum now₁ now₂ payload x h₁
      simp [this.1]
  | send nickname text optimisticId now m =>
    exact handleSendMessage_exclusion cfg nickname text optimisticId now st m h

/-- C16.  A message made by `normalizeServerMessage` is neither pending nor failed.  A send
that is published leaves the old set with the optimistic message, pending and not failed,
added; a send whose publish fails leaves every entry carrying the optimistic id not pending
and failed.  `handleIncomingMessage` and `handleSendMessage` keep the exclusion on every set
that has it, and so no entry of a message set reached from the empty one by history loads,
incoming payloads and sends is both pending and failed. -/
theorem pending_failed_exclusion (strNum : String → JsNum) (cfg : Stomp.Config) :
    (∀ (now₁ now₂ : Int) (payload : Option Payload) (n : Message),
      normalizeServerMessage strNum now₁ now₂ payload = some n →
      n.pending = false ∧ n.error = false) ∧
    (∀ (nickname t optimisticId : String) (now : Int) (st : ChatState) (m : Stomp.State),
      nickname ≠ "" → validText (JsVal.str t) = true →
      ((handleSendMessage cfg nickname (JsVal.str t) optimisticId now st m).1 = true ∧
        (handleSendMessage cfg nickname (JsVal.str t) optimisticId now st m).2.1.messages.Perm
          (st.messages ++
            [{ id := JsVal.str optimisticId, messageId := JsVal.undefined,
               pk := JsVal.undefined, nickname := nickname, message := jsTrim t,
               timestamp := JsNum.fin now, ttl := JsVal.undefined, pending := true,
               error := false, optimisticId := JsVal.str optimisticId }])) ∨
      ((handleSendMessage cfg nickname (JsVal.str t) optimisticId now st m).1 = false ∧
        (∃ x ∈ (handleSendMessage cfg nickname (JsVal.str t) optimisticId now st
            m).2.1.messages, x.id = JsVal.str optimisticId) ∧
        ∀ x ∈ (handleSendMessage cfg nickname (JsVal.str t) optimisticId now st
            m).2.1.messages,
          x.id = JsVal.str optimisticId → x.pending = false ∧ x.error = true)) ∧
    (∀ (now₁ now₂ : Int) (payload : Option Payload) (st : ChatState),
      (∀ x ∈ st.messages, ¬ (x.pending = true ∧ x.error = true)) →
      ∀ x ∈ (handleIncomingMessage strNum now₁ now₂ payload st).messages,
        ¬ (x.pending = true ∧ x.error = true)) ∧
    (∀ (nickname : String) (text : JsVal) (optimisticId : String) (now : Int)
        (st : ChatState) (m : Stomp.State),
      (∀ x ∈ st.messages, ¬ (x.pending = true ∧ x.error = true)) →
      ∀ x ∈ (handleSendMessage cfg nickname text optimisticId now st m).2.1.messages,
        ¬ (x.pending = true ∧ x.error = true)) ∧
    (∀ (events : List ChatEvent),
      ∀ x ∈ (chatRun strNum cfg events { messages := [], seen := [] }).messages,
        ¬ (x.pending = true ∧ x.error = true)) := by
  refine ⟨fun now₁ now₂ payload n hn => normalizeServerMessage_flags strNum now₁ now₂ payload n hn,
    ?_, ?_, ?_, ?_⟩
  · intro nickname t optimisticId now st m hnick hvalid
    rcases handleSendMessage_messages cfg nickname (JsVal.str t) optimisticId now st m with
      he | ⟨t₁, ht, ⟨hs, he⟩ | ⟨hs, he⟩⟩
    · exfalso
      simp only [handleSendMessage, hnick, hvalid, if_false, Bool.not_true,
        Bool.false_eq_true] at he
      have hlen := congrArg List.length he
      cases hsucc : (usePublish cfg nickname (JsVal.str (jsTrim t)) m).1 <;>
        simp [hsucc, sortByTimestamp_length] at hlen
    · cases ht
      left
      refine ⟨hs, ?_⟩
      rw [he]
      exact sortByTimestamp_perm _
    · cases ht
      right
      refine ⟨hs, ?_, ?_⟩
      · rw [he]
        refine ⟨_, List.mem_map.mpr ⟨_, (mem_sortByTimestamp _ _).mpr
          (List.mem_append_right _ (List.mem_singleton.mpr rfl)), rfl⟩, ?_⟩
        simp [JsVal.strictEq]
      · rw [he]
        intro x hx hid
        obtain ⟨y, hy, rfl⟩ := List.mem_map.mp hx
        by_cases hy₁ : y.id.strictEq (JsVal.str optimisticId) = true
        · simp [hy₁]
        · exfalso
          rw [if_neg hy₁] at hid
          rw [hid] at hy₁
          simp [JsVal.strictEq] at hy₁
  · intro now₁ now₂ payload st h x hx
    exact chatStep_exclusion strNum cfg (ChatEvent.incoming now₁ now₂ payload) st h x hx
  · intro nickname text optimisticId now st m h
    exact handleSendMessage_exclusion cfg nickname text optimisticId now st m h
  · intro events
    have hrun : ∀ (st : ChatState),
        (∀ x ∈ st.messages, ¬ (x.pending = true ∧ x.error = true)) →
        ∀ x ∈ (chatRun strNum cfg events st).messages,
          ¬ (x.pending = true ∧ x.error = true) := by
      induction events with
      | nil => intro st h; exact h
      | cons e rest ih =>
        intro st h
        exact ih _ (chatStep_exclusion strNum cfg e st h)
    exact hrun _ (by intro x hx; cases hx)

end Chat

namespace Chat

/-! ## Text validation -/

theorem head_dropWhile_not {α : Type} (p : α → Bool) (l : List α) (c : α)
    (h : (l.dropWhile p).head? = some c) : p c = false := by
  induction l with
  | nil => simp at h
  | cons a l ih =>
    by_cases ha : p a = true
    · rw [List.dropWhile_cons_of_pos ha] at h
      exact ih h
    · rw [List.dropWhile_cons_of_neg ha] at h
      simp only [List.head?_cons, Option.some.injEq] at h
      subst h
      simpa using ha

theorem dropWhile_eq_self {α : Type} (p : α → Bool) (l : List α)
    (h : ∀ c, l.head? = some c → p c = false) : l.dropWhile p = l := by
  cases l with
  | nil => rfl
  | cons a l =>
    have ha : ¬ p a = true := by
      rw [h a rfl]
      simp
    exact List.dropWhile_cons_of_neg ha

theorem jsTrimChars_split (cs : List Char) :
    ∃ w₁ w₂, cs = w₁ ++ jsTrimChars cs ++ w₂ ∧
      (∀ c ∈ w₁, jsIsWhitespace c = true) ∧ (∀ c ∈ w₂, jsIsWhitespace c = true) := by
  refine ⟨cs.takeWhile jsIsWhitespace,
    (((cs.dropWhile jsIsWhitespace).reverse).takeWhile jsIsWhitespace).reverse, ?_, ?_, ?_⟩
  · have h₁ := List.takeWhile_append_dropWhile jsIsWhitespace cs
    have h₂ := List.takeWhile_append_dropWhile jsIsWhitespace
      (cs.dropWhile jsIsWhitespace).reverse
    have h₃ := congrArg List.reverse h₂
    rw [List.reverse_append, List.reverse_reverse] at h₃
    unfold jsTrimChars
    rw [List.append_assoc, h₃, h₁]
  · intro c hc
    exact (List.mem_takeWhile_imp hc)
  · intro c hc
    exact (List.mem_takeWhile_imp (List.mem_reverse.mp hc))

theorem jsTrimChars_head (cs : List Char) (c : Char)
    (h : (jsTrimChars cs).head? = some c) : jsIsWhitespace c = false := by
  have h₂ := List.takeWhile_append_dropWhile jsIsWhitespace
    (cs.dropWhile jsIsWhitespace).reverse
  have h₃ := congrArg List.reverse h₂
  rw [List.reverse_append, List.reverse_reverse] at h₃
  have hr : jsTrimChars cs =
      ((cs.dropWhile jsIsWhitespace).reverse.dropWhile jsIsWhitespace).reverse := rfl
  rw [← hr] at h₃
  apply head_dropWhile_not jsIsWhitespace cs c
  rw [← h₃]
  cases hj : jsTrimChars cs with
  | nil => rw [hj] at h; simp at h
  | cons a l =>
    rw [hj] at h
    simpa using h

theorem jsTrimChars_idempotent (cs : List Char) :
    jsTrimChars (jsTrimChars cs) = jsTrimChars cs := by
  have h₁ : (jsTrimChars cs).dropWhile jsIsWhitespace = jsTrimChars cs :=
    dropWhile_eq_self _ _ (fun c hc => jsTrimChars_head cs c hc)
  have hr : (jsTrimChars cs).reverse =
      (cs.dropWhile jsIsWhitespace).reverse.dropWhile jsIsWhitespace := by
    unfold jsTrimChars
    rw [List.reverse_reverse]
  have h₂ : ((jsTrimChars cs).reverse).dropWhile jsIsWhitespace = (jsTrimChars cs).reverse := by
    apply dropWhile_eq_self
    intro c hc
    rw [hr] at hc
    exact head_dropWhile_not _ _ c hc
  show (((jsTrimChars cs).dropWhile jsIsWhitespace).reverse.dropWhile jsIsWhitespace).reverse = _
  rw [h₁, h₂, List.reverse_reverse]

theorem jsTrim_idempotent (s : String) : jsTrim (jsTrim s) = jsTrim s := by
  unfold jsTrim
  rw [jsTrimChars_idempotent]

theorem jsTrimChars_of_whitespace (cs : List Char)
    (h : ∀ c ∈ cs, jsIsWhitespace c = true) : jsTrimChars cs = [] := by
  have h₁ : cs.dropWhile jsIsWhitespace = [] := by
    rw [List.dropWhile_eq_nil_iff]
    exact h
  unfold jsTrimChars
  rw [h₁]
  rfl

theorem jsLength_eq_zero (s : String) : jsLength s = 0 ↔ s = "" := by
  constructor
  · intro h
    cases hs : s.data with
    | nil =>
      cases s
      simp only at hs
      subst hs
      rfl
    | cons c l =>
      unfold jsLength at h
      rw [hs] at h
      simp only [List.map_cons, List.sum_cons] at h
      split at h <;> omega
  · intro h
    subst h
    rfl

/-- C17.  `validText` is true exactly for a string whose trimmed form has length at least 1
and at most 500, counted in UTF-16 code units.  It is false for every value that is not a
string, for every string that consists of white space only (its trimmed form is empty), and
for every string whose trimmed length exceeds 500.  The trimmed form is the string without a
leading and a trailing run of white space, trimming it again changes nothing, and so
`validText(s) = validText(trim(s))`. -/
theorem validText_spec :
    (∀ v : JsVal, validText v = true ↔
      ∃ s, v = JsVal.str s ∧ 1 ≤ jsLength (jsTrim s) ∧ jsLength (jsTrim s) ≤ 500) ∧
    (∀ v : JsVal, (∀ s, v ≠ JsVal.str s) → validText v = false) ∧
    (∀ s : String, (∀ c ∈ s.data, jsIsWhitespace c = true) →
      jsTrim s = "" ∧ validText (JsVal.str s) = false) ∧
    (∀ s : String, 500 < jsLength (jsTrim s) → validText (JsVal.str s) = false) ∧
    (∀ s : String, ∃ w₁ w₂, s.data = w₁ ++ (jsTrim s).data ++ w₂ ∧
      (∀ c ∈ w₁, jsIsWhitespace c = true) ∧ (∀ c ∈ w₂, jsIsWhitespace c = true) ∧
      (∀ c, (jsTrim s).data.head? = some c → jsIsWhitespace c = false) ∧
      (∀ c, (jsTrim s).data.getLast? = some c → jsIsWhitespace c = false)) ∧
    (∀ s : String, jsTrim (jsTrim s) = jsTrim s) ∧
    (∀ s : String, validText (JsVal.str s) = validText (JsVal.str (jsTrim s))) := by
  have hiff : ∀ v : JsVal, validText v = true ↔
      ∃ s, v = JsVal.str s ∧ 1 ≤ jsLength (jsTrim s) ∧ jsLength (jsTrim s) ≤ 500 := by
    intro v
    cases v with
    | str t =>
      simp only [validText, MAX_MESSAGE_LENGTH, JsVal.str.injEq, exists_eq_left']
      by_cases h0 : jsLength (jsTrim t) = 0
      · simp [h0]
      · simp only [h0, if_false, decide_eq_true_eq]
        omega
    | undefined => simp [validText]
    | null => simp [validText]
    | bool b => simp [validText]
    | num x => simp [validText]
  refine ⟨hiff, ?_, ?_, ?_, ?_, jsTrim_idempotent, ?_⟩
  · intro v hv
    cases h : validText v with
    | false => rfl
    | true =>
      obtain ⟨s, hs, -⟩ := (hiff v).mp h
      exact absurd hs (hv s)
  · intro s hs
    have ht : jsTrim s = "" := by
      unfold jsTrim
      rw [jsTrimChars_of_whitespace s.data hs]
    refine ⟨ht, ?_⟩
    simp [validText, ht, jsLength]
  · intro s hs
    cases h : validText (JsVal.str s) with
    | false => rfl
    | true =>
      obtain ⟨t, ht, -, hle⟩ := (hiff _).mp h
      cases ht
      omega
  · intro s
    obtain ⟨w₁, w₂, h, h₁, h₂⟩ := jsTrimChars_split s.data
    refine ⟨w₁, w₂, h, h₁, h₂, fun c hc => jsTrimChars_head s.data c hc, ?_⟩
    intro c hc
    have hrev : (jsTrimChars s.data).reverse.head? = some c := by
      rw [List.head?_reverse]
      exact hc
    have hr : (jsTrimChars s.data).reverse =
        (s.data.dropWhile jsIsWhitespace).reverse.dropWhile jsIsWhitespace := by
      unfold jsTrimChars
      rw [List.reverse_reverse]
    rw [hr] at hrev
    exact head_dropWhile_not _ _ c hrev
  · intro s
    simp only [validText, jsTrim_idempotent]

/-- C17, examples: a padded text is valid, white space alone and the empty string are not,
and a number is not. -/
theorem validText_examples :
    validText (JsVal.str " hi ") = true ∧ jsTrim " hi\n" = "hi" ∧
    validText (JsVal.str " \t\n") = false ∧ validText (JsVal.str "") = false ∧
    validText (JsVal.num (JsNum.fin 5)) = false ∧ validText JsVal.undefined = false := by
  decide

end Chat

namespace Chat

/-! ## Timestamp normalization -/

/-- C18, the code at the failing input and around it.  A `null` timestamp is not replaced by
the current time: `Number(null)` is 0, so `toNumber` yields 0 and `normalizeServerMessage`
stores 0.  Likewise `true` and `false` yield 1 and 0, and a `NaN` of type number is returned
as it is by the early return.  The other cases are as the claim says: a missing timestamp and
a string that `Number` does not read as a number yield the current time, a number other than
`NaN` is kept, and `normalizeServerMessage` stores what `toNumber` yields. -/
theorem toNumber_null_timestamp (strNum : String → JsNum) (now₁ now₂ : Int) :
    toNumber strNum now₁ JsVal.null = JsNum.fin 0 ∧
    (∀ p n, p.timestamp = JsVal.null →
      normalizeServerMessage strNum now₁ now₂ (some p) = some n → n.timestamp = JsNum.fin 0) ∧
    toNumber strNum now₁ (JsVal.bool true) = JsNum.fin 1 ∧
    toNumber strNum now₁ (JsVal.bool false) = JsNum.fin 0 ∧
    toNumber strNum now₁ (JsVal.num JsNum.nan) = JsNum.nan ∧
    toNumber strNum now₁ JsVal.undefined = JsNum.fin now₁ ∧
    (∀ s, strNum s = JsNum.nan → toNumber strNum now₁ (JsVal.str s) = JsNum.fin now₁) ∧
    (∀ k : Int, toNumber strNum now₁ (JsVal.num (JsNum.fin k)) = JsNum.fin k) ∧
    (∀ p n, normalizeServerMessage strNum now₁ now₂ (some p) = some n →
      n.timestamp = toNumber strNum now₁ p.timestamp) := by
  refine ⟨rfl, ?_, rfl, rfl, rfl, rfl, ?_, fun k => rfl, ?_⟩
  · intro p n hp hn
    obtain ⟨n₁, hn₁, -, -, -, hts⟩ := normalizeServerMessage_some strNum now₁ now₂ p
    rw [hn] at hn₁
    cases hn₁
    rw [hts, hp]
    rfl
  · intro s hs
    simp [toNumber, jsNumber, hs]
  · intro p n hn
    obtain ⟨n₁, hn₁, -, -, -, hts⟩ := normalizeServerMessage_some strNum now₁ now₂ p
    rw [hn] at hn₁
    cases hn₁
    exact hts

/-- C18, the failing input evaluated: the payload of alice with text "hi" and
`timestamp: null`, normalized at the clock reading 1700000000000, gets the timestamp 0. -/
theorem toNumber_null_timestamp_example :
    (normalizeServerMessage nonNumeric 1700000000000 1700000000000
      (some { messageId := JsVal.str "m1", pk := JsVal.undefined, id := JsVal.undefined,
              nickname := JsVal.str "alice", message := JsVal.str "hi",
              timestamp := JsVal.null, ttl := JsVal.undefined })).map
        (fun n => n.timestamp) = some (JsNum.fin 0) := by
  decide

end Chat

namespace Stomp

/-! ## Frame lemmas for the methods of the manager -/

@[simp] theorem scheduledDelays_append (l₁ l₂ : List Effect) :
    scheduledDelays (l₁ ++ l₂) = scheduledDelays l₁ ++ scheduledDelays l₂ := by
  simp [scheduledDelays]

@[simp] theorem subscribeCalls_append (l₁ l₂ : List Effect) :
    subscribeCalls (l₁ ++ l₂) = subscribeCalls l₁ ++ subscribeCalls l₂ := by
  simp [subscribeCalls]

@[simp] theorem unsubscribeCalls_append (l₁ l₂ : List Effect) :
    unsubscribeCalls (l₁ ++ l₂) = unsubscribeCalls l₁ ++ unsubscribeCalls l₂ := by
  simp [unsubscribeCalls]

theorem tryDebug_unsubscribe_eq (th : Throws) (message : String) (h : Handle) (s : State) :
    ∃ extra, tryDebug (callUnsubscribe th h s) message = { s with log := s.log ++ extra } ∧
      scheduledDelays extra = [] ∧ subscribeCalls extra = [] ∧
      unsubscribeCalls extra = [h.hid] := by
  unfold callUnsubscribe tryDebug
  by_cases ht : th.unsubscribe h.hid = true
  · exact ⟨[Effect.unsubscribe h.hid, Effect.console message],
      by simp [ht, State.emit], rfl, rfl, rfl⟩
  · exact ⟨[Effect.unsubscribe h.hid], by simp [ht, State.emit], rfl, rfl, rfl⟩

theorem tryDebug_deactivate_eq (th : Throws) (message : String) (sid : Nat) (s : State) :
    ∃ extra, tryDebug (callDeactivate th sid s) message = { s with log := s.log ++ extra } ∧
      scheduledDelays extra = [] ∧ subscribeCalls extra = [] ∧ unsubscribeCalls extra = [] := by
  unfold callDeactivate tryDebug
  by_cases ht : th.deactivate sid = true
  · exact ⟨[Effect.deactivate sid, Effect.console message],
      by simp [ht, State.emit], rfl, rfl, rfl⟩
  · exact ⟨[Effect.deactivate sid], by simp [ht, State.emit], rfl, rfl, rfl⟩

theorem unsubscribeEach_eq (th : Throws) (message : String) (l : List (String × Handle))
    (s : State) :
    ∃ extra, unsubscribeEach th message l s = { s with log := s.log ++ extra } ∧
      scheduledDelays extra = [] ∧ subscribeCalls extra = [] ∧
      unsubscribeCalls extra = l.map (fun p => p.2.hid) := by
  induction l generalizing s with
  | nil => exact ⟨[], by simp [unsubscribeEach], rfl, rfl, rfl⟩
  | cons p l ih =>
    obtain ⟨id, sub⟩ := p
    obtain ⟨e₁, h₁, a₁, b₁, c₁⟩ := tryDebug_unsubscribe_eq th message sub s
    obtain ⟨e₂, h₂, a₂, b₂, c₂⟩ := ih { s with log := s.log ++ e₁ }
    refine ⟨e₁ ++ e₂, ?_, by simp [a₁, a₂], by simp [b₁, b₂], by simp [c₁, c₂]⟩
    simp only [unsubscribeEach, h₁, h₂, List.append_assoc]

/-! ## `disconnect` -/

theorem clearReconnectTimeout_eq (s : State) :
    ∃ extra, clearReconnectTimeout s =
      { s with
        reconnectTimeout := none
        timers := s.timers.filter (fun t => decide (some t.1 ≠ s.reconnectTimeout))
        log := s.log ++ extra } ∧
      scheduledDelays extra = [] ∧ subscribeCalls extra = [] ∧ unsubscribeCalls extra = [] := by
  unfold clearReconnectTimeout
  cases h : s.reconnectTimeout with
  | none =>
    refine ⟨[], ?_, rfl, rfl, rfl⟩
    cases s
    simp at h
    simp [h]
  | some id =>
    refine ⟨[Effect.clearTimeout id], ?_, rfl, rfl, rfl⟩
    simp [State.emit]

theorem disconnect_eq (th : Throws) (s : State) :
    ∃ extra, disconnect th s = Except.ok
      { s with
        shouldReconnect := false
        reconnectTimeout := none
        timers := s.timers.filter (fun t => decide (some t.1 ≠ s.reconnectTimeout))
        activeSubscriptions := []
        client := none
        log := s.log ++ extra } ∧
      scheduledDelays extra = [] ∧ subscribeCalls extra = [] ∧
      unsubscribeCalls extra = s.activeSubscriptions.map (fun p => p.2.hid) := by
  obtain ⟨client, subs, act, cbs, rt, cd, sr, si, sess, tm, nt, nh, log⟩ := s
  obtain ⟨e₁, h₁, a₁, b₁, c₁⟩ := clearReconnectTimeout_eq
    (State.mk client subs act cbs rt cd false si sess tm nt nh log)
  obtain ⟨e₂, h₂, a₂, b₂, c₂⟩ := unsubscribeEach_eq th "Error unsubscribing on disconnect" act
    (State.mk client subs act cbs none cd false si sess
      (tm.filter (fun t => decide (some t.1 ≠ rt))) nt nh (log ++ e₁))
  simp only at h₁ h₂
  cases client with
  | none =>
    refine ⟨e₁ ++ e₂, ?_, by simp [a₁, a₂], by simp [b₁, b₂], by simp [c₁, c₂]⟩
    simp only [disconnect, h₁, h₂, List.append_assoc]
  | some c =>
    obtain ⟨e₃, h₃, a₃, b₃, c₃⟩ := tryDebug_deactivate_eq th
      "Error while deactivating STOMP client" c
      (State.mk none subs [] cbs none cd false si sess
        (tm.filter (fun t => decide (some t.1 ≠ rt))) nt nh (log ++ (e₁ ++ e₂)))
    simp only at h₃
    refine ⟨e₁ ++ e₂ ++ e₃, ?_, by simp [a₁, a₂, a₃], by simp [b₁, b₂, b₃],
      by simp [c₁, c₂, c₃]⟩
    simp only [disconnect, h₁, h₂, h₃, List.append_assoc]

theorem disconnect_fixed (th : Throws) (s : State) (h₁ : s.client = none)
    (h₂ : s.reconnectTimeout = none) (h₃ : s.activeSubscriptions = [])
    (h₄ : s.shouldReconnect = false) : disconnect th s = Except.ok s := by
  cases s
  simp only at h₁ h₂ h₃ h₄
  subst h₁ h₂ h₃ h₄
  simp [disconnect, clearReconnectTimeout, unsubscribeEach]

theorem timers_filter_of_timerInv (s : State) (h : TimerInv s) :
    s.timers.filter (fun t => decide (some t.1 ≠ s.reconnectTimeout)) = [] := by
  unfold TimerInv at h
  rw [List.filter_eq_nil_iff]
  intro t ht
  have hmem : t.1 ∈ s.timers.map Prod.fst := List.mem_map_of_mem _ ht
  rw [h] at hmem
  simp only [Option.mem_toList, Option.mem_def] at hmem
  simp [hmem]

/-- C9.  From every state and whatever `unsubscribe` and `deactivate` throw, `disconnect`
returns normally.  Afterwards the manager holds no session, no reconnect timer and no active
subscription, reconnection is disabled and the registry is unchanged; the timer the field
held is no longer outstanding, so that no timer is outstanding when the state satisfied the
timer invariant.  A second `disconnect` returns the same state. -/
theorem disconnect_idempotent_total (th : Throws) (s : State) :
    ∃ s₁, disconnect th s = Except.ok s₁ ∧
      s₁.client = none ∧ s₁.reconnectTimeout = none ∧ s₁.activeSubscriptions = [] ∧
      s₁.shouldReconnect = false ∧ s₁.subscriptions = s.subscriptions ∧
      s₁.timers = s.timers.filter (fun t => decide (some t.1 ≠ s.reconnectTimeout)) ∧
      (TimerInv s → s₁.timers = []) ∧
      (∀ th₁ : Throws, disconnect th₁ s₁ = Except.ok s₁) := by
  obtain ⟨extra, h, -⟩ := disconnect_eq th s
  refine ⟨_, h, rfl, rfl, rfl, rfl, rfl, rfl, ?_, ?_⟩
  · intro hinv
    exact timers_filter_of_timerInv s hinv
  · intro th₁
    exact disconnect_fixed th₁ _ rfl rfl rfl rfl

/-! ## The methods that do not touch reconnection -/

theorem sameControl_refl (s : State) : SameControl s s :=
  ⟨rfl, rfl, rfl, rfl, rfl, rfl, rfl, rfl, rfl⟩

theorem bindSubscription_eq (sid : Nat) (id : String) (sub : Subscription) (s : State) :
    ∃ act nh extra, bindSubscription sid id sub s =
      { s with activeSubscriptions := act, nextHandle := nh, log := s.log ++ extra } ∧
      scheduledDelays extra = [] :=
  ⟨_, _, _, rfl, rfl⟩

theorem bindEach_eq (sid : Nat) (l : List (String × Subscription)) (s : State) :
    ∃ act nh extra, bindEach sid l s =
      { s with activeSubscriptions := act, nextHandle := nh, log := s.log ++ extra } ∧
      scheduledDelays extra = [] := by
  induction l generalizing s with
  | nil =>
    refine ⟨s.activeSubscriptions, s.nextHandle, [], ?_, rfl⟩
    simp [bindEach]
  | cons p l ih =>
    obtain ⟨id, sub⟩ := p
    obtain ⟨a₁, n₁, e₁, h₁, d₁⟩ := bindSubscription_eq sid id sub s
    obtain ⟨a₂, n₂, e₂, h₂, d₂⟩ := ih
      { s with activeSubscriptions := a₁, nextHandle := n₁, log := s.log ++ e₁ }
    refine ⟨a₂, n₂, e₁ ++ e₂, ?_, by simp [d₁, d₂]⟩
    simp only [bindEach, h₁, h₂, List.append_assoc]

theorem resubscribeAll_eq (th : Throws) (client : Nat) (s : State) :
    ∃ act nh extra, resubscribeAll th client s =
      { s with activeSubscriptions := act, nextHandle := nh, log := s.log ++ extra } ∧
      scheduledDelays extra = [] := by
  obtain ⟨e₁, h₁, d₁, -⟩ := unsubscribeEach_eq th
    "Failed to clean up active subscription during resubscribe" s.activeSubscriptions s
  obtain ⟨a₂, n₂, e₂, h₂, d₂⟩ := bindEach_eq client s.subscriptions
    { s with log := s.log ++ e₁, activeSubscriptions := [] }
  refine ⟨a₂, n₂, e₁ ++ e₂, ?_, by simp [d₁, d₂]⟩
  simp only [resubscribeAll, h₁, h₂, List.append_assoc]

theorem ensureSubscribed_eq (id : String) (s : State) :
    ∃ act nh extra, ensureSubscribed id s =
      { s with activeSubscriptions := act, nextHandle := nh, log := s.log ++ extra } ∧
      scheduledDelays extra = [] := by
  have hsame : ∃ act nh extra, s =
      { s with activeSubscriptions := act, nextHandle := nh, log := s.log ++ extra } ∧
      scheduledDelays extra = [] :=
    ⟨s.activeSubscriptions, s.nextHandle, [], by simp, rfl⟩
  unfold ensureSubscribed
  split
  · exact hsame
  · split
    · exact hsame
    · split
      · exact hsame
      · exact bindSubscription_eq _ _ _ _

theorem sameControl_subscribe (destination : String) (callback : Option Nat)
    (headers : List (String × String)) (now : Nat) (s : State) :
    SameControl s (subscribe destination callback headers now s).2 := by
  unfold subscribe
  split
  · simp [SameControl, State.emit, scheduledDelays]
  · split
    · simp [SameControl, State.emit, scheduledDelays]
    · obtain ⟨act, nh, extra, h, d⟩ := ensureSubscribed_eq
        ("sub-" ++ toString now ++ "-" ++ toString (s.subscriptionIndex + 1))
        { s with
          subscriptionIndex := s.subscriptionIndex + 1
          subscriptions := mapSet s.subscriptions
            ("sub-" ++ toString now ++ "-" ++ toString (s.subscriptionIndex + 1))
            { destination := destination, callback := ‹Nat›, headers := headers } }
      simp only at h
      simp only [h]
      simp [SameControl, d]

theorem sameControl_unsubscribe (th : Throws) (id : String) (s : State) :
    SameControl s (unsubscribe th id s) := by
  unfold unsubscribe
  cases mapGet s.activeSubscriptions id with
  | none => simp [SameControl]
  | some active =>
    obtain ⟨extra, h, d, -⟩ := tryDebug_unsubscribe_eq th "Error while unsubscribing" active s
    simp only [h]
    simp [SameControl, d]

theorem sameControl_publish (cfg : Config) (destination : String) (body : PublishBody)
    (s : State) :
    SameControl s (match publish cfg destination body s with
      | Except.ok s₁ => s₁
      | Except.error t => t.state) := by
  unfold publish
  cases s.client with
  | none => exact sameControl_refl s
  | some c =>
    by_cases hc : s.connected c = true
    · simp [hc, SameControl, State.emit, scheduledDelays]
    · simp [hc, SameControl]

theorem sameControl_onWebSocketError (s : State) : SameControl s (onWebSocketError s) := by
  unfold onWebSocketError
  cases s.callbacks.onError <;> simp [SameControl, State.emit, scheduledDelays]

/-! ## The methods that drive reconnection -/

theorem activateClient_eq (th : Throws) (s : State) :
    ∃ extra, activateClient th s =
      { s with
        client := some s.sessions.length
        sessions := s.sessions ++ [false]
        log := s.log ++ extra } ∧
      scheduledDelays extra = [] ∧ subscribeCalls extra = [] := by
  obtain ⟨client, subs, act, cbs, rt, cd, sr, si, sess, tm, nt, nh, log⟩ := s
  cases client with
  | none =>
    exact ⟨[Effect.newClient sess.length, Effect.activate sess.length],
      by simp [activateClient, State.emit], rfl, rfl⟩
  | some old =>
    obtain ⟨e₁, h₁, d₁, b₁, -⟩ := tryDebug_deactivate_eq th
      "Error while deactivating existing client before re-activate" old
      (State.mk (some old) subs act cbs rt cd sr si sess tm nt nh log)
    simp only at h₁
    refine ⟨e₁ ++ [Effect.newClient sess.length, Effect.activate sess.length], ?_,
      by rw [scheduledDelays_append, d₁]; rfl, by rw [subscribeCalls_append, b₁]; rfl⟩
    simp [activateClient, State.emit, h₁]

theorem connect_eq (cfg : Config) (th : Throws) (callbacks : Callbacks) (s : State)
    (hurl : envTruthy cfg.wsUrl = true) :
    ∃ extra, connect cfg th callbacks s =
      { s with
        callbacks := callbacks
        shouldReconnect := true
        reconnectTimeout := none
        timers := s.timers.filter (fun t => decide (some t.1 ≠ s.reconnectTimeout))
        currentDelay := BASE_DELAY
        client := some s.sessions.length
        sessions := s.sessions ++ [false]
        log := s.log ++ extra } ∧
      scheduledDelays extra = [] ∧ subscribeCalls extra = [] := by
  obtain ⟨client, subs, act, cbs, rt, cd, sr, si, sess, tm, nt, nh, log⟩ := s
  obtain ⟨e₁, h₁, d₁, b₁, -⟩ := clearReconnectTimeout_eq
    (State.mk client subs act callbacks rt cd true si sess tm nt nh log)
  obtain ⟨e₂, h₂, d₂, b₂⟩ := activateClient_eq th
    (State.mk client subs act callbacks none BASE_DELAY true si sess
      (tm.filter (fun t => decide (some t.1 ≠ rt))) nt nh (log ++ e₁))
  simp only at h₁ h₂
  refine ⟨e₁ ++ e₂, ?_, by simp [d₁, d₂], by simp [b₁, b₂]⟩
  simp only [connect, hurl, h₁, h₂, List.append_assoc, Bool.not_true, Bool.false_eq_true,
    if_false]

theorem connect_without_url (cfg : Config) (th : Throws) (callbacks : Callbacks) (s : State)
    (hurl : envTruthy cfg.wsUrl = false) :
    connect cfg th callbacks s =
      { s with
        callbacks := callbacks
        log := s.log ++ [Effect.console "WebSocket URL is not defined"] } := by
  simp [connect, hurl, State.emit]

theorem handleDisconnect_disabled (s : State) (h : s.shouldReconnect = false) :
    handleDisconnect s = s := by
  simp [handleDisconnect, h]

theorem handleDisconnect_pending (s : State) (h : s.shouldReconnect = true) (id : Nat)
    (hid : s.reconnectTimeout = some id) :
    ∃ extra, handleDisconnect s = { s with log := s.log ++ extra } ∧
      scheduledDelays extra = [] := by
  obtain ⟨client, subs, act, cbs, rt, cd, sr, si, sess, tm, nt, nh, log⟩ := s
  simp only at h hid
  subst h hid
  cases hcb : cbs.onReconnecting with
  | none => exact ⟨[], by simp [handleDisconnect, hcb], rfl⟩
  | some fn =>
    exact ⟨[Effect.onReconnecting fn cd], by simp [handleDisconnect, hcb, State.emit], rfl⟩

theorem handleDisconnect_schedule (s : State) (h : s.shouldReconnect = true)
    (hid : s.reconnectTimeout = none) :
    ∃ extra, handleDisconnect s =
      { s with
        reconnectTimeout := some s.nextTimer
        timers := s.timers ++ [(s.nextTimer, s.currentDelay)]
        nextTimer := s.nextTimer + 1
        log := s.log ++ extra } ∧
      scheduledDelays extra = [s.currentDelay] := by
  obtain ⟨client, subs, act, cbs, rt, cd, sr, si, sess, tm, nt, nh, log⟩ := s
  simp only at h hid
  subst h hid
  cases hcb : cbs.onReconnecting with
  | none =>
    exact ⟨[Effect.setTimeout nt cd], by simp [handleDisconnect, hcb, State.emit], rfl⟩
  | some fn =>
    exact ⟨[Effect.onReconnecting fn cd, Effect.setTimeout nt cd],
      by simp [handleDisconnect, hcb, State.emit], rfl⟩

theorem onConnect_eq (th : Throws) (client : Nat) (s : State) :
    ∃ act nh extra, onConnect th client s =
      { s with
        reconnectTimeout := none
        timers := s.timers.filter (fun t => decide (some t.1 ≠ s.reconnectTimeout))
        currentDelay := BASE_DELAY
        activeSubscriptions := act
        nextHandle := nh
        log := s.log ++ extra } ∧
      scheduledDelays extra = [] := by
  obtain ⟨cl, subs, act, cbs, rt, cd, sr, si, sess, tm, nt, nh, log⟩ := s
  obtain ⟨e₁, h₁, d₁, -⟩ := clearReconnectTimeout_eq
    (State.mk cl subs act cbs rt cd sr si sess tm nt nh log)
  obtain ⟨a₂, n₂, e₂, h₂, d₂⟩ := resubscribeAll_eq th client
    (State.mk cl subs act cbs none BASE_DELAY sr si sess
      (tm.filter (fun t => decide (some t.1 ≠ rt))) nt nh (log ++ e₁))
  simp only at h₁ h₂
  cases hcb : cbs.onConnect with
  | none =>
    refine ⟨a₂, n₂, e₁ ++ e₂, ?_, by simp [d₁, d₂]⟩
    simp only [onConnect, h₁, h₂, hcb, List.append_assoc]
  | some fn =>
    refine ⟨a₂, n₂, e₁ ++ e₂ ++ [Effect.onConnect fn], ?_,
      by rw [scheduledDelays_append, scheduledDelays_append, d₁, d₂]; rfl⟩
    simp only [onConnect, h₁, h₂, hcb, State.emit, List.append_assoc]

theorem reconnectTimerBody_disabled (th : Throws) (s : State)
    (h : s.shouldReconnect = false) :
    reconnectTimerBody th s = { s with reconnectTimeout := none } := by
  simp [reconnectTimerBody, h]

theorem reconnectTimerBody_enabled (th : Throws) (s : State) (h : s.shouldReconnect = true) :
    ∃ extra, reconnectTimerBody th s =
      { s with
        reconnectTimeout := none
        currentDelay := min (s.currentDelay * 2) MAX_DELAY
        client := some s.sessions.length
        sessions := s.sessions ++ [false]
        log := s.log ++ extra } ∧
      scheduledDelays extra = [] := by
  obtain ⟨cl, subs, act, cbs, rt, cd, sr, si, sess, tm, nt, nh, log⟩ := s
  simp only at h
  subst h
  obtain ⟨e₁, h₁, d₁, -⟩ := activateClient_eq th
    (State.mk cl subs act cbs none (min (cd * 2) MAX_DELAY) true si sess tm nt nh log)
  simp only at h₁
  exact ⟨e₁, by simp [reconnectTimerBody, h₁], d₁⟩

/-! ## The reconnect timer invariant -/

theorem timerInv_congr (s s₁ : State) (h₁ : s₁.timers = s.timers)
    (h₂ : s₁.reconnectTimeout = s.reconnectTimeout) (h : TimerInv s) : TimerInv s₁ := by
  unfold TimerInv at *
  rw [h₁, h₂, h]

theorem timerInv_of_sameControl (s s₁ : State) (hc : SameControl s s₁) (h : TimerInv s) :
    TimerInv s₁ :=
  timerInv_congr s s₁ hc.2.2.2.2.2.1 hc.2.1 h

theorem timerInv_cleared (s s₁ : State)
    (h₁ : s₁.timers = s.timers.filter (fun t => decide (some t.1 ≠ s.reconnectTimeout)))
    (h₂ : s₁.reconnectTimeout = none) (h : TimerInv s) : TimerInv s₁ := by
  unfold TimerInv
  rw [h₁, h₂, timers_filter_of_timerInv s h]
  rfl

theorem handleDisconnect_timerInv (s : State) (h : TimerInv s) :
    TimerInv (handleDisconnect s) := by
  cases hsr : s.shouldReconnect with
  | false => rw [handleDisconnect_disabled s hsr]; exact h
  | true =>
    cases hrt : s.reconnectTimeout with
    | some id =>
      obtain ⟨extra, he, -⟩ := handleDisconnect_pending s hsr id hrt
      rw [he]
      exact timerInv_congr s _ rfl rfl h
    | none =>
      obtain ⟨extra, he, -⟩ := handleDisconnect_schedule s hsr hrt
      rw [he]
      unfold TimerInv at *
      rw [hrt] at h
      have hnil : s.timers = [] := by
        cases ht : s.timers with
        | nil => rfl
        | cons a l => rw [ht] at h; simp at h
      simp [hnil]

theorem timers_filter_fired (s : State) (id : Nat) (h : TimerInv s)
    (hany : s.timers.any (fun t => decide (t.1 = id)) = true) :
    s.timers.filter (fun t => decide (t.1 ≠ id)) = [] ∧ s.reconnectTimeout = some id := by
  unfold TimerInv at h
  obtain ⟨t, ht, hid⟩ := List.any_eq_true.mp hany
  have hid₁ : t.1 = id := of_decide_eq_true hid
  have hmem : t.1 ∈ s.timers.map Prod.fst := List.mem_map_of_mem _ ht
  rw [h] at hmem
  have hrt : s.reconnectTimeout = some id := by
    simp only [Option.mem_toList, Option.mem_def] at hmem
    rw [hmem, hid₁]
  refine ⟨?_, hrt⟩
  rw [List.filter_eq_nil_iff]
  intro u hu
  have hmem₁ : u.1 ∈ s.timers.map Prod.fst := List.mem_map_of_mem _ hu
  rw [h, hrt] at hmem₁
  simp only [Option.toList_some, List.mem_singleton] at hmem₁
  simp [hmem₁]

theorem reconnectTimerBody_timers (th : Throws) (s : State) :
    (reconnectTimerBody th s).timers = s.timers ∧
      (reconnectTimerBody th s).reconnectTimeout = none := by
  cases hsr : s.shouldReconnect with
  | false => rw [reconnectTimerBody_disabled th s hsr]; exact ⟨rfl, rfl⟩
  | true =>
    obtain ⟨extra, he, -⟩ := reconnectTimerBody_enabled th s hsr
    rw [he]
    exact ⟨rfl, rfl⟩

theorem step_timerInv (cfg : Config) (th : Throws) (e : Event) (s : State) (h : TimerInv s) :
    TimerInv (step cfg th e s) := by
  cases e with
  | connect callbacks =>
    simp only [step]
    cases hurl : envTruthy cfg.wsUrl with
    | true =>
      obtain ⟨extra, he, -⟩ := connect_eq cfg th callbacks s hurl
      rw [he]
      exact timerInv_cleared s _ rfl rfl h
    | false =>
      rw [connect_without_url cfg th callbacks s hurl]
      exact timerInv_congr s _ rfl rfl h
  | disconnect =>
    obtain ⟨extra, he, -⟩ := disconnect_eq th s
    simp only [step, he]
    exact timerInv_cleared s _ rfl rfl h
  | subscribe destination callback headers now =>
    exact timerInv_of_sameControl s _ (sameControl_subscribe _ _ _ _ s) h
  | unsubscribe id => exact timerInv_of_sameControl s _ (sameControl_unsubscribe th id s) h
  | publish destination body =>
    exact timerInv_of_sameControl s _ (sameControl_publish cfg destination body s) h
  | sessionConnected sid =>
    simp only [step]
    split
    · obtain ⟨act, nh, extra, he, -⟩ := onConnect_eq th sid
        { s with sessions := s.sessions.set sid true }
      rw [he]
      exact timerInv_cleared s _ rfl rfl h
    · exact h
  | stompError sid =>
    simp only [step]
    split
    · unfold onStompError
      apply handleDisconnect_timerInv
      cases s.callbacks.onError <;> exact timerInv_congr s _ rfl rfl h
    · exact h
  | webSocketError sid =>
    simp only [step]
    split
    · exact timerInv_of_sameControl s _ (sameControl_onWebSocketError s) h
    · exact h
  | webSocketClose sid =>
    simp only [step]
    split
    · unfold onWebSocketClose
      apply handleDisconnect_timerInv
      cases s.callbacks.onDisconnect <;> exact timerInv_congr s _ rfl rfl h
    · exact h
  | timerFired id =>
    simp only [step]
    split
    next hany =>
      obtain ⟨hnil, -⟩ := timers_filter_fired s id h hany
      obtain ⟨ht, hr⟩ := reconnectTimerBody_timers th
        { s with timers := s.timers.filter (fun t => decide (t.1 ≠ id)) }
      unfold TimerInv
      rw [ht, hr]
      show (s.timers.filter (fun t => decide (t.1 ≠ id))).map Prod.fst = _
      rw [hnil]
      rfl
    · exact h

theorem run_timerInv (cfg : Config) (trace : List (Throws × Event)) (s : State)
    (h : TimerInv s) : TimerInv (run cfg trace s) := by
  induction trace generalizing s with
  | nil => exact h
  | cons x rest ih =>
    obtain ⟨th, e⟩ := x
    exact ih _ (step_timerInv cfg th e s h)

theorem timerInv_init : TimerInv init := rfl

theorem length_le_one_of_timerInv (s : State) (h : TimerInv s) : s.timers.length ≤ 1 := by
  unfold TimerInv at h
  have := congrArg List.length h
  rw [List.length_map] at this
  rw [this]
  cases s.reconnectTimeout <;> simp

/-- C6.  In every state the manager reaches from its constructor, under every sequence of
calls, session callbacks and timer firings, at most one timer is outstanding, and it is the
one the field `reconnectTimeout` holds: no scheduled timer is dropped from the field unless
it was cleared or has fired.  A failure callback that arrives while the field is set leaves
the outstanding timers as they are. -/
theorem at_most_one_reconnect_timer (cfg : Config) (trace : List (Throws × Event)) :
    (run cfg trace init).timers.length ≤ 1 ∧
    (run cfg trace init).timers.map Prod.fst = (run cfg trace init).reconnectTimeout.toList ∧
    (∀ (th : Throws) (sid id : Nat), (run cfg trace init).reconnectTimeout = some id →
      (step cfg th (Event.stompError sid) (run cfg trace init)).timers =
          (run cfg trace init).timers ∧
      (step cfg th (Event.webSocketError sid) (run cfg trace init)).timers =
          (run cfg trace init).timers ∧
      (step cfg th (Event.webSocketClose sid) (run cfg trace init)).timers =
          (run cfg trace init).timers ∧
      (step cfg th (Event.stompError sid) (run cfg trace init)).reconnectTimeout = some id ∧
      (step cfg th (Event.webSocketError sid) (run cfg trace init)).reconnectTimeout =
          some id ∧
      (step cfg th (Event.webSocketClose sid) (run cfg trace init)).reconnectTimeout =
          some id) := by
  have hinv := run_timerInv cfg trace init timerInv_init
  refine ⟨length_le_one_of_timerInv _ hinv, hinv, ?_⟩
  intro th sid id hid
  generalize run cfg trace init = s at hid
  have hd : ∀ s₁ : State, s₁.reconnectTimeout = some id →
      (handleDisconnect s₁).timers = s₁.timers ∧
      (handleDisconnect s₁).reconnectTimeout = some id := by
    intro s₁ h₁
    cases hsr : s₁.shouldReconnect with
    | false => rw [handleDisconnect_disabled s₁ hsr]; exact ⟨rfl, h₁⟩
    | true =>
      obtain ⟨extra, he, -⟩ := handleDisconnect_pending s₁ hsr id h₁
      rw [he]
      exact ⟨rfl, h₁⟩
  have hws := sameControl_onWebSocketError s
  have h₁ : (step cfg th (Event.stompError sid) s).timers = s.timers ∧
      (step cfg th (Event.stompError sid) s).reconnectTimeout = some id := by
    simp only [step]
    split
    · unfold onStompError
      cases s.callbacks.onError
      · exact hd s hid
      · exact hd _ hid
    · exact ⟨rfl, hid⟩
  have h₂ : (step cfg th (Event.webSocketError sid) s).timers = s.timers ∧
      (step cfg th (Event.webSocketError sid) s).reconnectTimeout = some id := by
    simp only [step]
    split
    · exact ⟨hws.2.2.2.2.2.1, hws.2.1.trans hid⟩
    · exact ⟨rfl, hid⟩
  have h₃ : (step cfg th (Event.webSocketClose sid) s).timers = s.timers ∧
      (step cfg th (Event.webSocketClose sid) s).reconnectTimeout = some id := by
    simp only [step]
    split
    · unfold onWebSocketClose
      cases s.callbacks.onDisconnect
      · exact hd _ hid
      · exact hd _ hid
    · exact ⟨rfl, hid⟩
  exact ⟨h₁.1, h₂.1, h₃.1, h₁.2, h₂.2, h₃.2⟩

/-! ## The disconnected state -/

theorem step_disconnected (cfg : Config) (th : Throws) (e : Event) (s : State)
    (he : e.isConnect = false)
    (h : s.shouldReconnect = false ∧ s.client = none ∧ s.reconnectTimeout = none ∧
      s.timers = []) :
    ((step cfg th e s).shouldReconnect = false ∧ (step cfg th e s).client = none ∧
      (step cfg th e s).reconnectTimeout = none ∧ (step cfg th e s).timers = []) ∧
    (step cfg th e s).sessions.length = s.sessions.length ∧
    scheduledDelays (step cfg th e s).log = scheduledDelays s.log := by
  obtain ⟨h₁, h₂, h₃, h₄⟩ := h
  have hsame : ∀ s₁ : State, SameControl s s₁ →
      ((s₁.shouldReconnect = false ∧ s₁.client = none ∧ s₁.reconnectTimeout = none ∧
        s₁.timers = []) ∧ s₁.sessions.length = s.sessions.length ∧
        scheduledDelays s₁.log = scheduledDelays s.log) := by
    intro s₁ hc
    obtain ⟨c₁, c₂, -, c₄, -, c₆, -, c₈, c₉⟩ := hc
    exact ⟨⟨c₄.trans h₁, c₁.trans h₂, c₂.trans h₃, c₆.trans h₄⟩, c₈, c₉⟩
  cases e with
  | connect callbacks => simp [Event.isConnect] at he
  | disconnect =>
    obtain ⟨extra, hd, d, -⟩ := disconnect_eq th s
    simp only [step, hd]
    simp [h₄, d]
  | subscribe destination callback headers now =>
    exact hsame _ (sameControl_subscribe _ _ _ _ s)
  | unsubscribe id => exact hsame _ (sameControl_unsubscribe th id s)
  | publish destination body => exact hsame _ (sameControl_publish cfg destination body s)
  | sessionConnected sid =>
    simp only [step]
    split
    · obtain ⟨act, nh, extra, hc, d⟩ := onConnect_eq th sid
        { s with sessions := s.sessions.set sid true }
      rw [hc]
      simp [h₁, h₂, h₄, d]
    · exact hsame s (sameControl_refl s)
  | stompError sid =>
    simp only [step]
    split
    · unfold onStompError
      cases s.callbacks.onError with
      | none =>
        rw [handleDisconnect_disabled _ h₁]
        exact hsame s (sameControl_refl s)
      | some fn =>
        rw [handleDisconnect_disabled _ (by exact h₁)]
        simp [State.emit, h₁, h₂, h₃, h₄, scheduledDelays]
    · exact hsame s (sameControl_refl s)
  | webSocketError sid =>
    simp only [step]
    split
    · exact hsame _ (sameControl_onWebSocketError s)
    · exact hsame s (sameControl_refl s)
  | webSocketClose sid =>
    simp only [step]
    split
    · unfold onWebSocketClose
      cases s.callbacks.onDisconnect with
      | none =>
        rw [handleDisconnect_disabled _ (by exact h₁)]
        simp [h₁, h₂, h₃, h₄]
      | some fn =>
        rw [handleDisconnect_disabled _ (by exact h₁)]
        simp [State.emit, h₁, h₂, h₃, h₄, scheduledDelays]
    · exact hsame s (sameControl_refl s)
  | timerFired id =>
    simp only [step, h₄]
    exact hsame s (sameControl_refl s)

theorem run_disconnected (cfg : Config) (trace : List (Throws × Event)) (s : State)
    (hno : ∀ x ∈ trace, x.2.isConnect = false)
    (h : s.shouldReconnect = false ∧ s.client = none ∧ s.reconnectTimeout = none ∧
      s.timers = []) :
    ((run cfg trace s).shouldReconnect = false ∧ (run cfg trace s).client = none ∧
      (run cfg trace s).reconnectTimeout = none ∧ (run cfg trace s).timers = []) ∧
    (run cfg trace s).sessions.length = s.sessions.length ∧
    scheduledDelays (run cfg trace s).log = scheduledDelays s.log := by
  induction trace generalizing s with
  | nil => exact ⟨h, rfl, rfl⟩
  | cons x rest ih =>
    obtain ⟨th, e⟩ := x
    obtain ⟨h₁, h₂, h₃⟩ := step_disconnected cfg th e s
      (hno (th, e) (List.mem_cons_self _ _)) h
    obtain ⟨k₁, k₂, k₃⟩ := ih (step cfg th e s)
      (fun x hx => hno x (List.mem_cons_of_mem _ hx)) h₁
    exact ⟨k₁, k₂.trans h₂, k₃.trans h₃⟩

/-- C10.  In every execution, after `disconnect()` has returned and as long as `connect()` is
not called, whatever else happens (callbacks of any session, timer firings, `subscribe`,
`unsubscribe`, `publish`, further `disconnect` calls), the manager holds no session and no
reconnect timer, no timer is outstanding, reconnection stays disabled, no session is created
and no timer is scheduled. -/
theorem disconnected_until_connect (cfg : Config) (before : List (Throws × Event))
    (th : Throws) (after : List (Throws × Event))
    (hno : ∀ x ∈ after, x.2.isConnect = false) :
    (run cfg after (step cfg th Event.disconnect (run cfg before init))).client = none ∧
    (run cfg after (step cfg th Event.disconnect (run cfg before init))).reconnectTimeout =
      none ∧
    (run cfg after (step cfg th Event.disconnect (run cfg before init))).timers = [] ∧
    (run cfg after (step cfg th Event.disconnect (run cfg before init))).shouldReconnect =
      false ∧
    (run cfg after (step cfg th Event.disconnect (run cfg before init))).sessions.length =
      (step cfg th Event.disconnect (run cfg before init)).sessions.length ∧
    scheduledDelays (run cfg after (step cfg th Event.disconnect (run cfg before init))).log =
      scheduledDelays (step cfg th Event.disconnect (run cfg before init)).log := by
  have hinv := run_timerInv cfg before init timerInv_init
  have hstart : (step cfg th Event.disconnect (run cfg before init)).shouldReconnect = false ∧
      (step cfg th Event.disconnect (run cfg before init)).client = none ∧
      (step cfg th Event.disconnect (run cfg before init)).reconnectTimeout = none ∧
      (step cfg th Event.disconnect (run cfg before init)).timers = [] := by
    obtain ⟨extra, hd, -⟩ := disconnect_eq th (run cfg before init)
    simp only [step, hd]
    exact ⟨trivial, trivial, trivial, timers_filter_of_timerInv _ hinv⟩
  obtain ⟨⟨k₁, k₂, k₃, k₄⟩, k₅, k₆⟩ := run_disconnected cfg after _ hno hstart
  exact ⟨k₂, k₃, k₄, k₁, k₅, k₆⟩

/-- C10, a witness: a session connects and fails, so that a reconnect timer is pending when
`disconnect()` is called; then the cancelled timer, callbacks of the old session and the
other methods of the manager follow. -/
theorem disconnected_until_connect_witness :
    (run exampleConfig
      [(noThrows, Event.timerFired 1), (noThrows, Event.webSocketClose 0),
       (noThrows, Event.stompError 0), (noThrows, Event.sessionConnected 0),
       (noThrows, Event.subscribe "/topic/chat" (some 7) [] 1700000000000),
       (noThrows, Event.publish "/app/chat" (PublishBody.prim (Chat.JsVal.str "hi"))),
       (allThrow, Event.disconnect)]
      (step exampleConfig allThrow Event.disconnect
        (run exampleConfig
          [(noThrows, Event.connect exampleCallbacks), (noThrows, Event.sessionConnected 0),
           (noThrows, Event.webSocketClose 0)] init))).client = none ∧
    (run exampleConfig
        [(noThrows, Event.connect exampleCallbacks), (noThrows, Event.sessionConnected 0),
         (noThrows, Event.webSocketClose 0)] init).reconnectTimeout = some 1 :=
  ⟨(disconnected_until_connect exampleConfig
      [(noThrows, Event.connect exampleCallbacks), (noThrows, Event.sessionConnected 0),
       (noThrows, Event.webSocketClose 0)] allThrow
      [(noThrows, Event.timerFired 1), (noThrows, Event.webSocketClose 0),
       (noThrows, Event.stompError 0), (noThrows, Event.sessionConnected 0),
       (noThrows, Event.subscribe "/topic/chat" (some 7) [] 1700000000000),
       (noThrows, Event.publish "/app/chat" (PublishBody.prim (Chat.JsVal.str "hi"))),
       (allThrow, Event.disconnect)]
      (by decide)).1,
   by decide⟩

/-! ## Callbacks of sessions that were torn down -/

/-- C8, the claim as stated fails.  After `connect`, `disconnect`, `connect`, session 0 has
been deactivated and session 1 is the current one, with no timer pending.  A WebSocket close
raised by session 0 is forwarded to `onDisconnect` and `onReconnecting` and schedules a
reconnect timer; when that timer fires the manager deactivates session 1 and opens
session 2. -/
theorem stale_close_counterexample :
    (run exampleConfig reconnectedTrace init).client = some 1 ∧
    Effect.deactivate 0 ∈ (run exampleConfig reconnectedTrace init).log ∧
    (run exampleConfig reconnectedTrace init).reconnectTimeout = none ∧
    (step exampleConfig noThrows (Event.webSocketClose 0)
        (run exampleConfig reconnectedTrace init)).reconnectTimeout = some 1 ∧
    (step exampleConfig noThrows (Event.webSocketClose 0)
        (run exampleConfig reconnectedTrace init)).log =
      (run exampleConfig reconnectedTrace init).log ++
        [Effect.onDisconnect 2, Effect.onReconnecting 3 1000, Effect.setTimeout 1 1000] ∧
    (step exampleConfig noThrows (Event.timerFired 1)
        (step exampleConfig noThrows (Event.webSocketClose 0)
          (run exampleConfig reconnectedTrace init))).client = some 2 ∧
    Effect.deactivate 1 ∈
      (step exampleConfig noThrows (Event.timerFired 1)
        (step exampleConfig noThrows (Event.webSocketClose 0)
          (run exampleConfig reconnectedTrace init))).log := by
  decide

/-- C8, amended.  While reconnection is disabled, as it is from `disconnect()` until the next
`connect()`, a STOMP error, WebSocket error or WebSocket close raised by any session, torn
down or not, leaves the manager object and the outstanding timers unchanged, and a WebSocket
error leaves the manager object unchanged in every state.  The callback is still forwarded
to `onError` or `onDisconnect` of the caller when that is set. -/
theorem stale_failure_while_disabled (cfg : Config) (th : Throws) (s : State) (sid : Nat)
    (hsr : s.shouldReconnect = false) :
    ((step cfg th (Event.stompError sid) s).manager = s.manager ∧
      (step cfg th (Event.stompError sid) s).timers = s.timers) ∧
    ((step cfg th (Event.webSocketError sid) s).manager = s.manager ∧
      (step cfg th (Event.webSocketError sid) s).timers = s.timers) ∧
    ((step cfg th (Event.webSocketClose sid) s).manager = s.manager ∧
      (step cfg th (Event.webSocketClose sid) s).timers = s.timers) ∧
    (∀ s₀ : State, (step cfg th (Event.webSocketError sid) s₀).manager = s₀.manager) ∧
    (∀ s₀ : State, (step cfg th Event.disconnect s₀).shouldReconnect = false) ∧
    (∀ fn, sid < s.sessions.length → s.callbacks.onError = some fn →
      (step cfg th (Event.stompError sid) s).log = s.log ++ [Effect.onError fn "stomp"] ∧
      (step cfg th (Event.webSocketError sid) s).log =
        s.log ++ [Effect.onError fn "websocket"]) ∧
    (∀ fn, sid < s.sessions.length → s.callbacks.onDisconnect = some fn →
      (step cfg th (Event.webSocketClose sid) s).log = s.log ++ [Effect.onDisconnect fn]) := by
  have hws : ∀ s₀ : State, (step cfg th (Event.webSocketError sid) s₀).manager = s₀.manager ∧
      (step cfg th (Event.webSocketError sid) s₀).timers = s₀.timers := by
    intro s₀
    simp only [step]
    split
    · unfold onWebSocketError
      cases s₀.callbacks.onError <;> exact ⟨rfl, rfl⟩
    · exact ⟨rfl, rfl⟩
  refine ⟨?_, hws s, ?_, fun s₀ => (hws s₀).1, ?_, ?_, ?_⟩
  · simp only [step]
    split
    · unfold onStompError
      cases s.callbacks.onError with
      | none => rw [handleDisconnect_disabled _ hsr]; exact ⟨rfl, rfl⟩
      | some fn => rw [handleDisconnect_disabled _ (by exact hsr)]; exact ⟨rfl, rfl⟩
    · exact ⟨rfl, rfl⟩
  · simp only [step]
    split
    · unfold onWebSocketClose
      cases s.callbacks.onDisconnect with
      | none => rw [handleDisconnect_disabled _ (by exact hsr)]; exact ⟨rfl, rfl⟩
      | some fn => rw [handleDisconnect_disabled _ (by exact hsr)]; exact ⟨rfl, rfl⟩
    · exact ⟨rfl, rfl⟩
  · intro s₀
    obtain ⟨extra, hd, -⟩ := disconnect_eq th s₀
    simp only [step, hd]
  · intro fn hsid hfn
    constructor
    · simp only [step, hsid, if_true, onStompError, hfn]
      rw [handleDisconnect_disabled _ (by exact hsr)]
      rfl
    · simp only [step, hsid, if_true, onWebSocketError, hfn]
      rfl
  · intro fn hsid hfn
    simp only [step, hsid, if_true, onWebSocketClose, hfn]
    rw [handleDisconnect_disabled _ (by exact hsr)]
    rfl

/-- C8, a witness: after `connect` and `disconnect`, a close and a STOMP error of the torn
down session 0 leave the manager object as it is. -/
theorem stale_failure_while_disabled_witness :
    (run exampleConfig
        [(noThrows, Event.connect exampleCallbacks), (noThrows, Event.disconnect)]
        init).shouldReconnect = false ∧
    (step exampleConfig noThrows (Event.webSocketClose 0)
        (run exampleConfig
          [(noThrows, Event.connect exampleCallbacks), (noThrows, Event.disconnect)]
          init)).manager =
      (run exampleConfig
        [(noThrows, Event.connect exampleCallbacks), (noThrows, Event.disconnect)]
        init).manager ∧
    (step exampleConfig noThrows (Event.stompError 0)
        (run exampleConfig
          [(noThrows, Event.connect exampleCallbacks), (noThrows, Event.disconnect)]
          init)).manager =
      (run exampleConfig
        [(noThrows, Event.connect exampleCallbacks), (noThrows, Event.disconnect)]
        init).manager :=
  ⟨by decide,
   (stale_failure_while_disabled exampleConfig noThrows
      (run exampleConfig
        [(noThrows, Event.connect exampleCallbacks), (noThrows, Event.disconnect)] init)
      0 (by decide)).2.2.1.1,
   (stale_failure_while_disabled exampleConfig noThrows
      (run exampleConfig
        [(noThrows, Event.connect exampleCallbacks), (noThrows, Event.disconnect)] init)
      0 (by decide)).1.1⟩

/-! ## The backoff sequence -/

theorem backoffInv_of_sameControl (base : List Nat) (n : Nat) (s s₁ : State)
    (hc : SameControl s s₁) (h : BackoffInv base n s) : BackoffInv base n s₁ := by
  obtain ⟨c₁, c₂, c₃, c₄, c₅, c₆, c₇, c₈, c₉⟩ := hc
  obtain ⟨h₁, h₂, h₃⟩ := h
  refine ⟨c₉.trans h₁, timerInv_congr s s₁ c₆ c₂ h₂, ?_⟩
  rw [c₄, c₂, c₃]
  exact h₃

theorem backoff_double (k : Nat) :
    min (min (BASE_DELAY * 2 ^ k) MAX_DELAY * 2) MAX_DELAY =
      min (BASE_DELAY * 2 ^ (k + 1)) MAX_DELAY := by
  simp only [BASE_DELAY, MAX_DELAY, pow_succ]
  omega

theorem handleDisconnect_backoffInv (base : List Nat) (n : Nat) (s : State)
    (h : BackoffInv base n s) : ∃ n₁, BackoffInv base n₁ (handleDisconnect s) := by
  cases hsr : s.shouldReconnect with
  | false => rw [handleDisconnect_disabled s hsr]; exact ⟨n, h⟩
  | true =>
    obtain ⟨h₁, h₂, h₃⟩ := h
    cases hrt : s.reconnectTimeout with
    | some id =>
      obtain ⟨extra, he, d⟩ := handleDisconnect_pending s hsr id hrt
      refine ⟨n, ?_⟩
      rw [he]
      refine ⟨?_, timerInv_congr s _ rfl rfl h₂, h₃⟩
      show scheduledDelays (s.log ++ extra) = _
      rw [scheduledDelays_append, d, List.append_nil, h₁]
    | none =>
      have hinv := handleDisconnect_timerInv s h₂
      obtain ⟨extra, he, d⟩ := handleDisconnect_schedule s hsr hrt
      have hcd := (h₃ hsr).1 hrt
      refine ⟨n + 1, ?_⟩
      rw [he] at hinv ⊢
      refine ⟨?_, hinv, ?_⟩
      · show scheduledDelays (s.log ++ extra) = _
        rw [scheduledDelays_append, d, h₁, hcd, List.range_succ, List.map_append,
          List.map_singleton, List.append_assoc]
      · intro _
        constructor
        · intro hnone
          cases hnone
        · intro id _
          exact ⟨n, rfl, hcd⟩

theorem reconnectTimerBody_backoffInv (th : Throws) (base : List Nat) (n : Nat) (s : State)
    (hlog : scheduledDelays s.log =
      base ++ (List.range n).map (fun k => min (BASE_DELAY * 2 ^ k) MAX_DELAY))
    (htimers : s.timers = [])
    (hcd : s.shouldReconnect = true →
      ∃ k, n = k + 1 ∧ s.currentDelay = min (BASE_DELAY * 2 ^ k) MAX_DELAY) :
    BackoffInv base n (reconnectTimerBody th s) := by
  obtain ⟨ht, hr⟩ := reconnectTimerBody_timers th s
  have hinv : TimerInv (reconnectTimerBody th s) := by
    unfold TimerInv
    rw [ht, hr, htimers]
    rfl
  cases hsr : s.shouldReconnect with
  | false =>
    rw [reconnectTimerBody_disabled th s hsr] at hinv ⊢
    refine ⟨hlog, hinv, ?_⟩
    intro hsr₁
    have hsr₂ : s.shouldReconnect = true := hsr₁
    rw [hsr] at hsr₂
    cases hsr₂
  | true =>
    obtain ⟨k, hk, hcd₁⟩ := hcd hsr
    obtain ⟨extra, hb, d⟩ := reconnectTimerBody_enabled th s hsr
    rw [hb] at hinv ⊢
    refine ⟨?_, hinv, ?_⟩
    · show scheduledDelays (s.log ++ extra) = _
      rw [scheduledDelays_append, d, List.append_nil]
      exact hlog
    · intro _
      constructor
      · intro _
        show min (s.currentDelay * 2) MAX_DELAY = _
        rw [hcd₁, hk]
        exact backoff_double k
      · intro id₁ hid₁
        cases hid₁

theorem step_backoffInv (cfg : Config) (th : Throws) (e : Event) (base : List Nat) (n : Nat)
    (s : State) (he : e.isConnect = false ∧ e.isSessionConnected = false)
    (h : BackoffInv base n s) : ∃ n₁, BackoffInv base n₁ (step cfg th e s) := by
  have hinv := step_timerInv cfg th e s h.2.1
  cases e with
  | connect callbacks => simp [Event.isConnect] at he
  | sessionConnected sid => simp [Event.isSessionConnected] at he
  | disconnect =>
    refine ⟨n, ?_, hinv, ?_⟩
    · obtain ⟨extra, hd, d, -⟩ := disconnect_eq th s
      simp only [step, hd]
      rw [scheduledDelays_append, d, List.append_nil]
      exact h.1
    · intro hsr
      obtain ⟨extra, hd, -⟩ := disconnect_eq th s
      simp only [step, hd] at hsr
      cases hsr
  | subscribe destination callback headers now =>
    exact ⟨n, backoffInv_of_sameControl base n s _ (sameControl_subscribe _ _ _ _ s) h⟩
  | unsubscribe id =>
    exact ⟨n, backoffInv_of_sameControl base n s _ (sameControl_unsubscribe th id s) h⟩
  | publish destination body =>
    exact ⟨n, backoffInv_of_sameControl base n s _ (sameControl_publish cfg destination body s) h⟩
  | stompError sid =>
    simp only [step]
    split
    · unfold onStompError
      apply handleDisconnect_backoffInv base n
      cases s.callbacks.onError with
      | none => exact h
      | some fn =>
        refine backoffInv_of_sameControl base n s _ ?_ h
        exact ⟨rfl, rfl, rfl, rfl, rfl, rfl, rfl, rfl,
          by simp [State.emit, scheduledDelays]⟩
    · exact ⟨n, h⟩
  | webSocketError sid =>
    simp only [step]
    split
    · exact ⟨n, backoffInv_of_sameControl base n s _ (sameControl_onWebSocketError s) h⟩
    · exact ⟨n, h⟩
  | webSocketClose sid =>
    simp only [step]
    split
    · unfold onWebSocketClose
      apply handleDisconnect_backoffInv base n
      cases s.callbacks.onDisconnect with
      | none =>
        refine backoffInv_of_sameControl base n s _ ?_ h
        exact ⟨rfl, rfl, rfl, rfl, rfl, rfl, rfl, by simp, rfl⟩
      | some fn =>
        refine backoffInv_of_sameControl base n s _ ?_ h
        exact ⟨rfl, rfl, rfl, rfl, rfl, rfl, rfl, by simp [State.emit],
          by simp [State.emit, scheduledDelays]⟩
    · exact ⟨n, h⟩
  | timerFired id =>
    simp only [step]
    split
    next hany =>
      obtain ⟨hnil, hrt⟩ := timers_filter_fired s id h.2.1 hany
      exact ⟨n, reconnectTimerBody_backoffInv th base n
        { s with timers := s.timers.filter (fun t => decide (t.1 ≠ id)) } h.1 hnil
        (fun hsr => (h.2.2 hsr).2 id hrt)⟩
    · exact ⟨n, h⟩

theorem run_backoffInv (cfg : Config) (trace : List (Throws × Event)) (base : List Nat)
    (n : Nat) (s : State)
    (htr : ∀ x ∈ trace, x.2.isConnect = false ∧ x.2.isSessionConnected = false)
    (h : BackoffInv base n s) : ∃ n₁, BackoffInv base n₁ (run cfg trace s) := by
  induction trace generalizing s n with
  | nil => exact ⟨n, h⟩
  | cons x rest ih =>
    obtain ⟨th, e⟩ := x
    obtain ⟨n₁, h₁⟩ := step_backoffInv cfg th e base n s
      (htr (th, e) (List.mem_cons_self _ _)) h
    exact ih n₁ _ (fun x hx => htr x (List.mem_cons_of_mem _ hx)) h₁

theorem reset_backoffInv (cfg : Config) (th : Throws) (s : State) (e : Event)
    (he : (∃ callbacks, e = Event.connect callbacks ∧ envTruthy cfg.wsUrl = true) ∨
      (∃ sid, e = Event.sessionConnected sid ∧ sid < s.sessions.length)) :
    (step cfg th e s).currentDelay = BASE_DELAY ∧
    (step cfg th e s).reconnectTimeout = none ∧
    scheduledDelays (step cfg th e s).log = scheduledDelays s.log := by
  rcases he with ⟨callbacks, rfl, hurl⟩ | ⟨sid, rfl, hsid⟩
  · obtain ⟨extra, hc, d, -⟩ := connect_eq cfg th callbacks s hurl
    simp only [step, hc]
    refine ⟨trivial, trivial, ?_⟩
    rw [scheduledDelays_append, d, List.append_nil]
  · obtain ⟨act, nh, extra, hc, d⟩ := onConnect_eq th sid
      { s with sessions := s.sessions.set sid true }
    simp only [step, hsid, if_true, hc]
    refine ⟨trivial, trivial, ?_⟩
    rw [scheduledDelays_append, d, List.append_nil]

/-- C5.  Let `e` be a reset: a call of `connect` (with the URL configured) or a session
reporting success.  Right after `e` the stored delay is 1000 ms and no timer is pending.
Whatever follows without another `connect` or success (failure callbacks of any session,
timer firings, `subscribe`, `unsubscribe`, `publish`, `disconnect`), the delays of the
reconnects scheduled since `e` are, in order, `min (1000 * 2 ^ k) 16000` for
`k = 0, 1, ..., n - 1`.  In particular the first failure after `e`, while reconnection is
enabled, schedules its reconnect with 1000 ms. -/
theorem backoff_sequence (cfg : Config) (th : Throws) (s : State) (e : Event)
    (trace : List (Throws × Event)) (hinv : TimerInv s)
    (he : (∃ callbacks, e = Event.connect callbacks ∧ envTruthy cfg.wsUrl = true) ∨
      (∃ sid, e = Event.sessionConnected sid ∧ sid < s.sessions.length))
    (htr : ∀ x ∈ trace, x.2.isConnect = false ∧ x.2.isSessionConnected = false) :
    (step cfg th e s).currentDelay = 1000 ∧
    (step cfg th e s).reconnectTimeout = none ∧
    scheduledDelays (step cfg th e s).log = scheduledDelays s.log ∧
    (∃ n, scheduledDelays (run cfg trace (step cfg th e s)).log =
      scheduledDelays s.log ++ (List.range n).map (fun k => min (1000 * 2 ^ k) 16000)) ∧
    (∀ (th₁ : Throws) (sid : Nat), (step cfg th e s).shouldReconnect = true →
      sid < (step cfg th e s).sessions.length →
      scheduledDelays (step cfg th₁ (Event.webSocketClose sid) (step cfg th e s)).log =
          scheduledDelays s.log ++ [1000] ∧
      scheduledDelays (step cfg th₁ (Event.stompError sid) (step cfg th e s)).log =
          scheduledDelays s.log ++ [1000]) := by
  obtain ⟨h₁, h₂, h₃⟩ := reset_backoffInv cfg th s e he
  have hinv₁ := step_timerInv cfg th e s hinv
  have hstart : BackoffInv (scheduledDelays s.log) 0 (step cfg th e s) := by
    refine ⟨by simpa using h₃, hinv₁, ?_⟩
    intro _
    constructor
    · intro _
      rw [h₁]
      rfl
    · intro id hid
      rw [h₂] at hid
      cases hid
  refine ⟨h₁, h₂, h₃, ?_, ?_⟩
  · obtain ⟨n, hn, -⟩ := run_backoffInv cfg trace _ 0 _ htr hstart
    exact ⟨n, hn⟩
  · intro th₁ sid hsr hsid
    generalize step cfg th e s = s₁ at h₁ h₂ h₃ hsr hsid
    have key : ∀ s₂ : State, SameControl s₁ s₂ →
        scheduledDelays (handleDisconnect s₂).log = scheduledDelays s.log ++ [1000] := by
      intro s₂ hc
      obtain ⟨-, c₂, c₃, c₄, -, -, -, -, c₉⟩ := hc
      obtain ⟨extra, hd, d⟩ := handleDisconnect_schedule s₂ (c₄.trans hsr) (c₂.trans h₂)
      rw [hd]
      show scheduledDelays (s₂.log ++ extra) = _
      rw [scheduledDelays_append, d, c₉, h₃, c₃, h₁]
      rfl
    constructor
    · simp only [step, hsid, if_true, onWebSocketClose]
      apply key
      cases s₁.callbacks.onDisconnect with
      | none => exact ⟨rfl, rfl, rfl, rfl, rfl, rfl, rfl, by simp, rfl⟩
      | some fn =>
        exact ⟨rfl, rfl, rfl, rfl, rfl, rfl, rfl, by simp [State.emit],
          by simp [State.emit, scheduledDelays]⟩
    · simp only [step, hsid, if_true, onStompError]
      apply key
      cases s₁.callbacks.onError with
      | none => exact sameControl_refl s₁
      | some fn =>
        exact ⟨rfl, rfl, rfl, rfl, rfl, rfl, rfl, rfl,
          by simp [State.emit, scheduledDelays]⟩

/-- C5, a witness: after `connect`, six attempts fail in a row, each failure followed by the
firing of its timer; the scheduled delays are 1000, 2000, 4000, 8000, 16000, 16000. -/
theorem backoff_sequence_witness :
    scheduledDelays (run exampleConfig
        [(noThrows, Event.webSocketClose 0), (noThrows, Event.timerFired 1),
         (noThrows, Event.stompError 1), (noThrows, Event.webSocketClose 1),
         (noThrows, Event.timerFired 2),
         (noThrows, Event.webSocketClose 2), (noThrows, Event.timerFired 3),
         (noThrows, Event.webSocketClose 3), (noThrows, Event.timerFired 4),
         (noThrows, Event.webSocketClose 4), (noThrows, Event.timerFired 5),
         (noThrows, Event.webSocketClose 5)]
        (step exampleConfig noThrows (Event.connect exampleCallbacks) init)).log =
      [1000, 2000, 4000, 8000, 16000, 16000] ∧
    ∃ n, scheduledDelays (run exampleConfig
        [(noThrows, Event.webSocketClose 0), (noThrows, Event.timerFired 1),
         (noThrows, Event.stompError 1), (noThrows, Event.webSocketClose 1),
         (noThrows, Event.timerFired 2),
         (noThrows, Event.webSocketClose 2), (noThrows, Event.timerFired 3),
         (noThrows, Event.webSocketClose 3), (noThrows, Event.timerFired 4),
         (noThrows, Event.webSocketClose 4), (noThrows, Event.timerFired 5),
         (noThrows, Event.webSocketClose 5)]
        (step exampleConfig noThrows (Event.connect exampleCallbacks) init)).log =
      scheduledDelays init.log ++ (List.range n).map (fun k => min (1000 * 2 ^ k) 16000) :=
  ⟨by decide,
   (backoff_sequence exampleConfig noThrows init (Event.connect exampleCallbacks) _
      timerInv_init (Or.inl ⟨exampleCallbacks, rfl, by decide⟩) (by decide)).2.2.2.1⟩

/-! ## Re-subscription -/

theorem mapSet_fresh {β : Type} (m : List (String × β)) (k : String) (v : β)
    (h : k ∉ m.map Prod.fst) : mapSet m k v = m ++ [(k, v)] := by
  induction m with
  | nil => rfl
  | cons p m ih =>
    obtain ⟨k₁, v₁⟩ := p
    simp only [List.map_cons, List.mem_cons, not_or] at h
    have hne : ¬ k₁ = k := fun e => h.1 e.symm
    simp only [mapSet, hne, if_false, ih h.2, List.cons_append]

theorem bindEach_fresh (sid : Nat) (l : List (String × Subscription)) (s : State)
    (hnodup : (l.map Prod.fst).Nodup)
    (hdisj : ∀ p ∈ l, p.1 ∉ s.activeSubscriptions.map Prod.fst) :
    bindEach sid l s =
      { s with
        activeSubscriptions := s.activeSubscriptions ++ boundHandles sid s.nextHandle l
        nextHandle := s.nextHandle + l.length
        log := s.log ++ (boundHandles sid s.nextHandle l).map (fun p => Effect.subscribe p.2) } := by
  induction l generalizing s with
  | nil =>
    simp [bindEach, boundHandles]
  | cons p l ih =>
    obtain ⟨id, sub⟩ := p
    obtain ⟨cl, subs, act, cbs, rt, cd, sr, si, sess, tm, nt, nh, log⟩ := s
    simp only [List.map_cons, List.nodup_cons] at hnodup
    have hid : id ∉ act.map Prod.fst := hdisj (id, sub) (List.mem_cons_self _ _)
    have hstep : bindSubscription sid id sub
        (State.mk cl subs act cbs rt cd sr si sess tm nt nh log) =
        State.mk cl subs (act ++ [(id, ⟨nh, sid, sub.destination, sub.callback, sub.headers⟩)])
          cbs rt cd sr si sess tm nt (nh + 1)
          (log ++ [Effect.subscribe ⟨nh, sid, sub.destination, sub.callback, sub.headers⟩]) := by
      simp only [bindSubscription, State.emit]
      rw [mapSet_fresh act id _ hid]
    have hdisj₁ : ∀ p ∈ l, p.1 ∉
        (act ++ [(id, (⟨nh, sid, sub.destination, sub.callback, sub.headers⟩ : Handle))]).map
          Prod.fst := by
      intro p hp hmem
      simp only [List.map_append, List.map_cons, List.map_nil, List.mem_append,
        List.mem_singleton] at hmem
      rcases hmem with h | h
      · exact hdisj p (List.mem_cons_of_mem _ hp) h
      · exact hnodup.1 (h ▸ List.mem_map_of_mem Prod.fst hp)
    simp only [bindEach, hstep]
    rw [ih _ hnodup.2 hdisj₁]
    simp only [boundHandles, List.append_assoc, List.singleton_append, List.map_cons,
      List.length_cons, State.mk.injEq, true_and, and_true]
    omega

theorem boundHandles_keys (sid next : Nat) (l : List (String × Subscription)) :
    (boundHandles sid next l).map Prod.fst = l.map Prod.fst := by
  induction l generalizing next with
  | nil => rfl
  | cons p l ih =>
    obtain ⟨id, sub⟩ := p
    simp [boundHandles, ih]

theorem boundHandles_mem (sid next : Nat) (l : List (String × Subscription))
    (p : String × Handle) (hp : p ∈ boundHandles sid next l) :
    p.2.session = sid ∧ next ≤ p.2.hid ∧ p.2.hid < next + l.length := by
  induction l generalizing next with
  | nil => simp [boundHandles] at hp
  | cons q l ih =>
    obtain ⟨id, sub⟩ := q
    simp only [boundHandles, List.mem_cons] at hp
    rcases hp with h | h
    · subst h
      simp
    · obtain ⟨h₁, h₂, h₃⟩ := ih (next + 1) h
      simp only [List.length_cons]
      exact ⟨h₁, by omega, by omega⟩

theorem boundHandles_hids_nodup (sid next : Nat) (l : List (String × Subscription)) :
    ((boundHandles sid next l).map (fun p => p.2.hid)).Nodup := by
  induction l generalizing next with
  | nil => simp [boundHandles]
  | cons q l ih =>
    obtain ⟨id, sub⟩ := q
    simp only [boundHandles, List.map_cons, List.nodup_cons]
    refine ⟨?_, ih (next + 1)⟩
    intro hmem
    obtain ⟨p, hp, hpe⟩ := List.mem_map.mp hmem
    have := (boundHandles_mem sid (next + 1) l p hp).2.1
    omega

theorem boundHandles_get (sid next : Nat) (l : List (String × Subscription))
    (hnodup : (l.map Prod.fst).Nodup) (id : String) (sub : Subscription)
    (hmem : (id, sub) ∈ l) :
    ∃ h, mapGet (boundHandles sid next l) id = some h ∧ h.session = sid ∧
      h.destination = sub.destination ∧ h.callback = sub.callback ∧
      h.headers = sub.headers := by
  induction l generalizing next with
  | nil => simp at hmem
  | cons q l ih =>
    obtain ⟨id₁, sub₁⟩ := q
    simp only [List.map_cons, List.nodup_cons] at hnodup
    simp only [List.mem_cons, Prod.mk.injEq] at hmem
    rcases hmem with ⟨h₁, h₂⟩ | h
    · subst h₁ h₂
      exact ⟨⟨next, sid, sub.destination, sub.callback, sub.headers⟩,
        by simp [boundHandles, mapGet], rfl, rfl, rfl, rfl⟩
    · have hne : ¬ id₁ = id := by
        intro e
        subst e
        exact hnodup.1 (List.mem_map_of_mem Prod.fst h)
      obtain ⟨hd, h₁, h₂⟩ := ih (next + 1) hnodup.2 h
      exact ⟨hd, by simp [boundHandles, mapGet, hne, h₁], h₂⟩

theorem onConnect_resubscribe (th : Throws) (client : Nat) (s : State)
    (hnodup : (s.subscriptions.map Prod.fst).Nodup) :
    ∃ e₁ e₂, onConnect th client s =
      { s with
        reconnectTimeout := none
        timers := s.timers.filter (fun t => decide (some t.1 ≠ s.reconnectTimeout))
        currentDelay := BASE_DELAY
        activeSubscriptions := boundHandles client s.nextHandle s.subscriptions
        nextHandle := s.nextHandle + s.subscriptions.length
        log := s.log ++ e₁ ++
          (boundHandles client s.nextHandle s.subscriptions).map
            (fun p => Effect.subscribe p.2) ++ e₂ } ∧
      subscribeCalls e₁ = [] ∧
      unsubscribeCalls e₁ = s.activeSubscriptions.map (fun p => p.2.hid) ∧
      subscribeCalls e₂ = [] ∧ unsubscribeCalls e₂ = [] := by
  obtain ⟨cl, subs, act, cbs, rt, cd, sr, si, sess, tm, nt, nh, log⟩ := s
  simp only at hnodup
  obtain ⟨e₁, h₁, -, b₁, c₁⟩ := clearReconnectTimeout_eq
    (State.mk cl subs act cbs rt cd sr si sess tm nt nh log)
  obtain ⟨e₂, h₂, -, b₂, c₂⟩ := unsubscribeEach_eq th
    "Failed to clean up active subscription during resubscribe" act
    (State.mk cl subs act cbs none BASE_DELAY sr si sess
      (tm.filter (fun t => decide (some t.1 ≠ rt))) nt nh (log ++ e₁))
  have h₃ := bindEach_fresh client subs
    (State.mk cl subs [] cbs none BASE_DELAY sr si sess
      (tm.filter (fun t => decide (some t.1 ≠ rt))) nt nh (log ++ e₁ ++ e₂)) hnodup
    (by intro p _; simp)
  simp only [List.nil_append] at h₁ h₂ h₃
  cases hcb : cbs.onConnect with
  | none =>
    refine ⟨e₁ ++ e₂, [], ?_, by simp [b₁, b₂], by simp [c₁, c₂], rfl, rfl⟩
    simp only [onConnect, resubscribeAll, h₁, h₂, hcb, List.append_assoc] at h₃ ⊢
    rw [h₃]
    simp [hcb]
  | some fn =>
    refine ⟨e₁ ++ e₂, [Effect.onConnect fn], ?_, by simp [b₁, b₂], by simp [c₁, c₂], rfl, rfl⟩
    simp only [onConnect, resubscribeAll, h₁, h₂, hcb, List.append_assoc] at h₃ ⊢
    rw [h₃]
    simp [State.emit, hcb]

/-! ## The registry keeps distinct ids -/

theorem mapSet_keys_nodup {β : Type} (m : List (String × β)) (k : String) (v : β)
    (h : (m.map Prod.fst).Nodup) : ((mapSet m k v).map Prod.fst).Nodup := by
  by_cases hk : k ∈ m.map Prod.fst
  · have hkeys : (mapSet m k v).map Prod.fst = m.map Prod.fst := by
      clear h
      induction m with
      | nil => simp at hk
      | cons p m ih =>
        obtain ⟨k₁, v₁⟩ := p
        by_cases he : k₁ = k
        · simp [mapSet, he]
        · have hk₁ : k ∈ m.map Prod.fst := by
            simp only [List.map_cons, List.mem_cons] at hk
            rcases hk with h | h
            · exact absurd h.symm he
            · exact h
          simp [mapSet, he, ih hk₁]
    rw [hkeys]
    exact h
  · rw [mapSet_fresh m k v hk, List.map_append, List.map_singleton]
    exact List.Nodup.append h (List.nodup_singleton _)
      (by
        intro a ha hb
        rw [List.mem_singleton] at hb
        subst hb
        exact hk ha)

theorem mapDelete_keys_nodup {β : Type} (m : List (String × β)) (k : String)
    (h : (m.map Prod.fst).Nodup) : ((mapDelete m k).map Prod.fst).Nodup :=
  List.Nodup.sublist (List.Sublist.map _ (List.filter_sublist _)) h

theorem handleDisconnect_subscriptions (s : State) :
    (handleDisconnect s).subscriptions = s.subscriptions := by
  cases hsr : s.shouldReconnect with
  | false => rw [handleDisconnect_disabled s hsr]
  | true =>
    cases hrt : s.reconnectTimeout with
    | some id =>
      obtain ⟨extra, he, -⟩ := handleDisconnect_pending s hsr id hrt
      rw [he]
    | none =>
      obtain ⟨extra, he, -⟩ := handleDisconnect_schedule s hsr hrt
      rw [he]

theorem reconnectTimerBody_subscriptions (th : Throws) (s : State) :
    (reconnectTimerBody th s).subscriptions = s.subscriptions := by
  cases hsr : s.shouldReconnect with
  | false => rw [reconnectTimerBody_disabled th s hsr]
  | true =>
    obtain ⟨extra, he, -⟩ := reconnectTimerBody_enabled th s hsr
    rw [he]

theorem step_subscriptions_nodup (cfg : Config) (th : Throws) (e : Event) (s : State)
    (h : (s.subscriptions.map Prod.fst).Nodup) :
    ((step cfg th e s).subscriptions.map Prod.fst).Nodup := by
  cases e with
  | connect callbacks =>
    simp only [step]
    cases hurl : envTruthy cfg.wsUrl with
    | true =>
      obtain ⟨extra, he, -⟩ := connect_eq cfg th callbacks s hurl
      rw [he]
      exact h
    | false =>
      rw [connect_without_url cfg th callbacks s hurl]
      exact h
  | disconnect =>
    obtain ⟨extra, he, -⟩ := disconnect_eq th s
    simp only [step, he]
    exact h
  | subscribe destination callback headers now =>
    simp only [step, subscribe]
    split
    · exact h
    · split
      · exact h
      · obtain ⟨act, nh, extra, he, -⟩ := ensureSubscribed_eq
          ("sub-" ++ toString now ++ "-" ++ toString (s.subscriptionIndex + 1))
          { s with
            subscriptionIndex := s.subscriptionIndex + 1
            subscriptions := mapSet s.subscriptions
              ("sub-" ++ toString now ++ "-" ++ toString (s.subscriptionIndex + 1))
              { destination := destination, callback := ‹Nat›, headers := headers } }
        simp only at he
        simp only [he]
        exact mapSet_keys_nodup _ _ _ h
  | unsubscribe id =>
    simp only [step, unsubscribe]
    cases mapGet s.activeSubscriptions id with
    | none => exact mapDelete_keys_nodup _ _ h
    | some active =>
      obtain ⟨extra, he, -⟩ := tryDebug_unsubscribe_eq th "Error while unsubscribing" active s
      simp only [he]
      exact mapDelete_keys_nodup _ _ h
  | publish destination body =>
    simp only [step, publish]
    cases s.client with
    | none => exact h
    | some c =>
      by_cases hc : s.connected c = true
      · simp only [hc, Bool.not_true, Bool.false_eq_true, if_false]
        exact h
      · simp only [hc, Bool.not_false, if_true]
        exact h
  | sessionConnected sid =>
    simp only [step]
    split
    · obtain ⟨act, nh, extra, he, -⟩ := onConnect_eq th sid
        { s with sessions := s.sessions.set sid true }
      rw [he]
      exact h
    · exact h
  | stompError sid =>
    simp only [step]
    split
    · unfold onStompError
      rw [handleDisconnect_subscriptions]
      cases s.callbacks.onError <;> exact h
    · exact h
  | webSocketError sid =>
    simp only [step]
    split
    · unfold onWebSocketError
      cases s.callbacks.onError <;> exact h
    · exact h
  | webSocketClose sid =>
    simp only [step]
    split
    · unfold onWebSocketClose
      rw [handleDisconnect_subscriptions]
      cases s.callbacks.onDisconnect <;> exact h
    · exact h
  | timerFired id =>
    simp only [step]
    split
    · rw [reconnectTimerBody_subscriptions]
      exact h
    · exact h

theorem run_subscriptions_nodup (cfg : Config) (trace : List (Throws × Event)) (s : State)
    (h : (s.subscriptions.map Prod.fst).Nodup) :
    ((run cfg trace s).subscriptions.map Prod.fst).Nodup := by
  induction trace generalizing s with
  | nil => exact h
  | cons x rest ih =>
    obtain ⟨th, e⟩ := x
    exact ih _ (step_subscriptions_nodup cfg th e s h)

/-- C7.  Let the ids of the registry be distinct, as the keys of a `Map` are, and let the
session `sid` report success.  After `onConnect` has run, the registry is unchanged and the
ids of `activeSubscriptions` are those of the registry, in the same order and without
repetition; every registered subscription has a handle on the session `sid` with its own
destination, callback and headers; the `client.subscribe` calls made are exactly the ones
that made these handles, one per subscription; every handle is new, made on `sid` in this
step, with its own number; and `unsubscribe` was called on every handle held before. -/
theorem resubscribe_after_connect (cfg : Config) (th : Throws) (s : State) (sid : Nat)
    (hnodup : (s.subscriptions.map Prod.fst).Nodup) (hsid : sid < s.sessions.length) :
    (step cfg th (Event.sessionConnected sid) s).subscriptions = s.subscriptions ∧
    (step cfg th (Event.sessionConnected sid) s).activeSubscriptions.map Prod.fst =
      s.subscriptions.map Prod.fst ∧
    ((step cfg th (Event.sessionConnected sid) s).activeSubscriptions.map Prod.fst).Nodup ∧
    (∀ id subscription, (id, subscription) ∈ s.subscriptions →
      ∃ h, mapGet (step cfg th (Event.sessionConnected sid) s).activeSubscriptions id = some h ∧
        h.session = sid ∧ h.destination = subscription.destination ∧
        h.callback = subscription.callback ∧ h.headers = subscription.headers) ∧
    subscribeCalls (step cfg th (Event.sessionConnected sid) s).log =
      subscribeCalls s.log ++
        (step cfg th (Event.sessionConnected sid) s).activeSubscriptions.map Prod.snd ∧
    (∀ p ∈ (step cfg th (Event.sessionConnected sid) s).activeSubscriptions,
      p.2.session = sid ∧ s.nextHandle ≤ p.2.hid) ∧
    ((step cfg th (Event.sessionConnected sid) s).activeSubscriptions.map
      (fun p => p.2.hid)).Nodup ∧
    unsubscribeCalls (step cfg th (Event.sessionConnected sid) s).log =
      unsubscribeCalls s.log ++ s.activeSubscriptions.map (fun p => p.2.hid) := by
  obtain ⟨e₁, e₂, hc, b₁, c₁, b₂, c₂⟩ := onConnect_resubscribe th sid
    { s with sessions := s.sessions.set sid true } hnodup
  have hsub : ∀ l : List (String × Handle),
      subscribeCalls (l.map (fun p => Effect.subscribe p.2)) = l.map Prod.snd := by
    intro l
    induction l with
    | nil => rfl
    | cons p l ih =>
      simp only [List.map_cons]
      rw [← ih]
      rfl
  have hunsub : ∀ l : List (String × Handle),
      unsubscribeCalls (l.map (fun p => Effect.subscribe p.2)) = [] := by
    intro l
    induction l with
    | nil => rfl
    | cons p l ih =>
      simp only [List.map_cons]
      exact ih
  simp only [step, hsid, if_true, hc]
  refine ⟨trivial, boundHandles_keys _ _ _, ?_, ?_, ?_, ?_, boundHandles_hids_nodup _ _ _, ?_⟩
  · rw [boundHandles_keys]
    exact hnodup
  · intro id subscription hmem
    exact boundHandles_get sid s.nextHandle s.subscriptions hnodup id subscription hmem
  · rw [subscribeCalls_append, subscribeCalls_append, subscribeCalls_append, b₁, b₂, hsub]
    simp
  · intro p hp
    have := boundHandles_mem sid s.nextHandle s.subscriptions p hp
    exact ⟨this.1, this.2.1⟩
  · rw [unsubscribeCalls_append, unsubscribeCalls_append, unsubscribeCalls_append, c₁, c₂,
      hunsub]
    simp

/-- C7, a witness: two subscriptions are registered, the first before session 0 connects;
the session fails, the reconnect timer fires, and session 1 reports success.  Both
subscriptions are then bound on session 1. -/
theorem resubscribe_after_connect_witness :
    (step exampleConfig noThrows (Event.sessionConnected 1)
      (run exampleConfig
        [(noThrows, Event.subscribe "/topic/chat" (some 7) [] 1700000000000),
         (noThrows, Event.connect exampleCallbacks),
         (noThrows, Event.sessionConnected 0),
         (noThrows, Event.subscribe "/topic/news" (some 8) [] 1700000000001),
         (noThrows, Event.webSocketClose 0),
         (noThrows, Event.timerFired 1)] init)).activeSubscriptions =
      [("sub-1700000000000-1",
        { hid := 2, session := 1, destination := "/topic/chat", callback := 7, headers := [] }),
       ("sub-1700000000001-2",
        { hid := 3, session := 1, destination := "/topic/news", callback := 8,
          headers := [] })] ∧
    (step exampleConfig noThrows (Event.sessionConnected 1)
      (run exampleConfig
        [(noThrows, Event.subscribe "/topic/chat" (some 7) [] 1700000000000),
         (noThrows, Event.connect exampleCallbacks),
         (noThrows, Event.sessionConnected 0),
         (noThrows, Event.subscribe "/topic/news" (some 8) [] 1700000000001),
         (noThrows, Event.webSocketClose 0),
         (noThrows, Event.timerFired 1)] init)).activeSubscriptions.map Prod.fst =
      (run exampleConfig
        [(noThrows, Event.subscribe "/topic/chat" (some 7) [] 1700000000000),
         (noThrows, Event.connect exampleCallbacks),
         (noThrows, Event.sessionConnected 0),
         (noThrows, Event.subscribe "/topic/news" (some 8) [] 1700000000001),
         (noThrows, Event.webSocketClose 0),
         (noThrows, Event.timerFired 1)] init).subscriptions.map Prod.fst :=
  ⟨by decide,
   (resubscribe_after_connect exampleConfig noThrows
      (run exampleConfig
        [(noThrows, Event.subscribe "/topic/chat" (some 7) [] 1700000000000),
         (noThrows, Event.connect exampleCallbacks),
         (noThrows, Event.sessionConnected 0),
         (noThrows, Event.subscribe "/topic/news" (some 8) [] 1700000000001),
         (noThrows, Event.webSocketClose 0),
         (noThrows, Event.timerFired 1)] init) 1 (by decide) (by decide)).2.1⟩

/-- C9, a witness: `disconnect` in a state with a connected session, a bound subscription
and, in a second state, a pending reconnect timer, with every `unsubscribe` and `deactivate`
throwing.  It returns normally, and leaves no session, no handle and no outstanding timer. -/
theorem disconnect_idempotent_total_witness :
    (∃ s₁, disconnect allThrow
        (run exampleConfig
          [(noThrows, Event.subscribe "/topic/chat" (some 7) [] 1700000000000),
           (noThrows, Event.connect exampleCallbacks),
           (noThrows, Event.sessionConnected 0)] init) = Except.ok s₁ ∧
      s₁.client = none ∧ s₁.activeSubscriptions = [] ∧
      s₁.log = [Effect.newClient 0, Effect.activate 0,
        Effect.subscribe
          { hid := 0, session := 0, destination := "/topic/chat", callback := 7,
            headers := [] },
        Effect.onConnect 1, Effect.unsubscribe 0,
        Effect.console "Error unsubscribing on disconnect", Effect.deactivate 0,
        Effect.console "Error while deactivating STOMP client"]) ∧
    (∃ s₁, disconnect allThrow
        (run exampleConfig
          [(noThrows, Event.connect exampleCallbacks),
           (noThrows, Event.webSocketClose 0)] init) = Except.ok s₁ ∧
      s₁.reconnectTimeout = none ∧ s₁.timers = []) := by
  constructor
  · obtain ⟨s₁, h, h₁, -, h₃, -⟩ := disconnect_idempotent_total allThrow
      (run exampleConfig
        [(noThrows, Event.subscribe "/topic/chat" (some 7) [] 1700000000000),
         (noThrows, Event.connect exampleCallbacks),
         (noThrows, Event.sessionConnected 0)] init)
    refine ⟨s₁, h, h₁, h₃, ?_⟩
    have hlog : (match disconnect allThrow
        (run exampleConfig
          [(noThrows, Event.subscribe "/topic/chat" (some 7) [] 1700000000000),
           (noThrows, Event.connect exampleCallbacks),
           (noThrows, Event.sessionConnected 0)] init) with
        | Except.ok s₂ => s₂.log
        | Except.error t => t.state.log) =
        [Effect.newClient 0, Effect.activate 0,
          Effect.subscribe
            { hid := 0, session := 0, destination := "/topic/chat", callback := 7,
              headers := [] },
          Effect.onConnect 1, Effect.unsubscribe 0,
          Effect.console "Error unsubscribing on disconnect", Effect.deactivate 0,
          Effect.console "Error while deactivating STOMP client"] := by
      decide
    rw [h] at hlog
    exact hlog
  · obtain ⟨s₁, h, -, h₂, -, -, -, -, h₇, -⟩ := disconnect_idempotent_total allThrow
      (run exampleConfig
        [(noThrows, Event.connect exampleCallbacks),
         (noThrows, Event.webSocketClose 0)] init)
    exact ⟨s₁, h, h₂, h₇ (run_timerInv _ _ _ timerInv_init)⟩

end Stomp

namespace Stomp

/-! ## The failure transition -/

theorem handleDisconnect_active (s : State) :
    (handleDisconnect s).activeSubscriptions = s.activeSubscriptions ∧
    (handleDisconnect s).client = s.client := by
  cases hsr : s.shouldReconnect with
  | false => rw [handleDisconnect_disabled s hsr]; exact ⟨rfl, rfl⟩
  | true =>
    cases hrt : s.reconnectTimeout with
    | some id =>
      obtain ⟨extra, he, -⟩ := handleDisconnect_pending s hsr id hrt
      rw [he]
      exact ⟨rfl, rfl⟩
    | none =>
      obtain ⟨extra, he, -⟩ := handleDisconnect_schedule s hsr hrt
      rw [he]
      exact ⟨rfl, rfl⟩

theorem handleDisconnect_enabled (s : State) (hsr : s.shouldReconnect = true)
    (hinv : TimerInv s) :
    (∃ id delay, (handleDisconnect s).reconnectTimeout = some id ∧
      (handleDisconnect s).timers = [(id, delay)]) ∧
    (s.reconnectTimeout = none →
      (handleDisconnect s).reconnectTimeout = some s.nextTimer ∧
      (handleDisconnect s).timers = [(s.nextTimer, s.currentDelay)]) ∧
    (∀ id, s.reconnectTimeout = some id →
      (handleDisconnect s).reconnectTimeout = some id ∧
      (handleDisconnect s).timers = s.timers) := by
  have hnone : s.reconnectTimeout = none →
      (handleDisconnect s).reconnectTimeout = some s.nextTimer ∧
      (handleDisconnect s).timers = [(s.nextTimer, s.currentDelay)] := by
    intro hrt
    obtain ⟨extra, he, -⟩ := handleDisconnect_schedule s hsr hrt
    rw [he]
    refine ⟨rfl, ?_⟩
    unfold TimerInv at hinv
    rw [hrt] at hinv
    have hnil : s.timers = [] := by
      cases ht : s.timers with
      | nil => rfl
      | cons a l => rw [ht] at hinv; simp at hinv
    simp [hnil]
  have hsome : ∀ id, s.reconnectTimeout = some id →
      (handleDisconnect s).reconnectTimeout = some id ∧
      (handleDisconnect s).timers = s.timers := by
    intro id hrt
    obtain ⟨extra, he, -⟩ := handleDisconnect_pending s hsr id hrt
    rw [he]
    exact ⟨hrt, rfl⟩
  refine ⟨?_, hnone, hsome⟩
  cases hrt : s.reconnectTimeout with
  | none => exact ⟨_, _, hnone hrt⟩
  | some id =>
    obtain ⟨h₁, h₂⟩ := hsome id hrt
    unfold TimerInv at hinv
    rw [hrt] at hinv
    cases ht : s.timers with
    | nil => rw [ht] at hinv; simp at hinv
    | cons a l =>
      rw [ht] at hinv
      simp only [List.map_cons, Option.toList_some, List.cons.injEq, List.map_eq_nil_iff]
        at hinv
      obtain ⟨ha, hl⟩ := hinv
      refine ⟨id, a.2, h₁, ?_⟩
      rw [h₂, ht, hl, ← ha]

/-- C11, the claim as stated fails.  A subscription is registered, `connect` is called and
session 0 reports success, so that one handle is bound and reconnection is enabled.  After a
STOMP error of the current session, and likewise after its WebSocket close, the handle is
still in `activeSubscriptions`. -/
theorem failure_keeps_handles_counterexample :
    (run exampleConfig
        [(noThrows, Event.subscribe "/topic/chat" (some 7) [] 1700000000000),
         (noThrows, Event.connect exampleCallbacks),
         (noThrows, Event.sessionConnected 0)] init).client = some 0 ∧
    (run exampleConfig
        [(noThrows, Event.subscribe "/topic/chat" (some 7) [] 1700000000000),
         (noThrows, Event.connect exampleCallbacks),
         (noThrows, Event.sessionConnected 0)] init).shouldReconnect = true ∧
    (step exampleConfig noThrows (Event.stompError 0)
      (run exampleConfig
        [(noThrows, Event.subscribe "/topic/chat" (some 7) [] 1700000000000),
         (noThrows, Event.connect exampleCallbacks),
         (noThrows, Event.sessionConnected 0)] init)).activeSubscriptions =
      [("sub-1700000000000-1",
        { hid := 0, session := 0, destination := "/topic/chat", callback := 7,
          headers := [] })] ∧
    (step exampleConfig noThrows (Event.webSocketClose 0)
      (run exampleConfig
        [(noThrows, Event.subscribe "/topic/chat" (some 7) [] 1700000000000),
         (noThrows, Event.connect exampleCallbacks),
         (noThrows, Event.sessionConnected 0)] init)).activeSubscriptions =
      [("sub-1700000000000-1",
        { hid := 0, session := 0, destination := "/topic/chat", callback := 7,
          headers := [] })] := by
  decide

/-- C11, amended.  While reconnection is enabled, after a STOMP error or a WebSocket close
of a session has been handled, exactly one reconnect timer is pending and it is the one the
field `reconnectTimeout` holds: the timer that was pending before, or else a new one with
the current delay.  No failure callback, a WebSocket error included, drops a handle:
`activeSubscriptions` and the current session are as before. -/
theorem failure_schedules_reconnect (cfg : Config) (th : Throws) (s : State) (sid : Nat)
    (hsr : s.shouldReconnect = true) (hsid : sid < s.sessions.length) (hinv : TimerInv s) :
    ((∃ id delay, (step cfg th (Event.stompError sid) s).reconnectTimeout = some id ∧
        (step cfg th (Event.stompError sid) s).timers = [(id, delay)]) ∧
      (s.reconnectTimeout = none →
        (step cfg th (Event.stompError sid) s).timers = [(s.nextTimer, s.currentDelay)]) ∧
      (∀ id, s.reconnectTimeout = some id →
        (step cfg th (Event.stompError sid) s).reconnectTimeout = some id) ∧
      (step cfg th (Event.stompError sid) s).activeSubscriptions = s.activeSubscriptions ∧
      (step cfg th (Event.stompError sid) s).client = s.client) ∧
    ((∃ id delay, (step cfg th (Event.webSocketClose sid) s).reconnectTimeout = some id ∧
        (step cfg th (Event.webSocketClose sid) s).timers = [(id, delay)]) ∧
      (s.reconnectTimeout = none →
        (step cfg th (Event.webSocketClose sid) s).timers =
          [(s.nextTimer, s.currentDelay)]) ∧
      (∀ id, s.reconnectTimeout = some id →
        (step cfg th (Event.webSocketClose sid) s).reconnectTimeout = some id) ∧
      (step cfg th (Event.webSocketClose sid) s).activeSubscriptions =
        s.activeSubscriptions ∧
      (step cfg th (Event.webSocketClose sid) s).client = s.client) ∧
    ((step cfg th (Event.webSocketError sid) s).activeSubscriptions = s.activeSubscriptions ∧
      (step cfg th (Event.webSocketError sid) s).client = s.client) := by
  have key : ∀ s₁ : State, s₁.shouldReconnect = true → s₁.timers = s.timers →
      s₁.reconnectTimeout = s.reconnectTimeout → s₁.nextTimer = s.nextTimer →
      s₁.currentDelay = s.currentDelay → s₁.activeSubscriptions = s.activeSubscriptions →
      s₁.client = s.client →
      ((∃ id delay, (handleDisconnect s₁).reconnectTimeout = some id ∧
          (handleDisconnect s₁).timers = [(id, delay)]) ∧
        (s.reconnectTimeout = none →
          (handleDisconnect s₁).timers = [(s.nextTimer, s.currentDelay)]) ∧
        (∀ id, s.reconnectTimeout = some id →
          (handleDisconnect s₁).reconnectTimeout = some id) ∧
        (handleDisconnect s₁).activeSubscriptions = s.activeSubscriptions ∧
        (handleDisconnect s₁).client = s.client) := by
    intro s₁ h₁ h₂ h₃ h₄ h₅ h₆ h₇
    obtain ⟨k₁, k₂, k₃⟩ := handleDisconnect_enabled s₁ h₁ (timerInv_congr s s₁ h₂ h₃ hinv)
    obtain ⟨a₁, a₂⟩ := handleDisconnect_active s₁
    refine ⟨k₁, ?_, ?_, a₁.trans h₆, a₂.trans h₇⟩
    · intro hrt
      rw [(k₂ (h₃.trans hrt)).2, h₄, h₅]
    · intro id hrt
      exact (k₃ id (h₃.trans hrt)).1
  refine ⟨?_, ?_, ?_⟩
  · simp only [step, hsid, if_true, onStompError]
    cases s.callbacks.onError with
    | none => exact key s hsr rfl rfl rfl rfl rfl rfl
    | some fn => exact key _ hsr rfl rfl rfl rfl rfl rfl
  · simp only [step, hsid, if_true, onWebSocketClose]
    cases s.callbacks.onDisconnect with
    | none => exact key _ hsr rfl rfl rfl rfl rfl rfl
    | some fn => exact key _ hsr rfl rfl rfl rfl rfl rfl
  · simp only [step, hsid, if_true, onWebSocketError]
    cases s.callbacks.onError <;> exact ⟨rfl, rfl⟩

/-- C11, a witness: in the state of the example a close of session 0 schedules the timer 1
with the delay 1000 and leaves the handle in `activeSubscriptions`. -/
theorem failure_schedules_reconnect_witness :
    (step exampleConfig noThrows (Event.webSocketClose 0)
      (run exampleConfig
        [(noThrows, Event.subscribe "/topic/chat" (some 7) [] 1700000000000),
         (noThrows, Event.connect exampleCallbacks),
         (noThrows, Event.sessionConnected 0)] init)).timers = [(1, 1000)] ∧
    (step exampleConfig noThrows (Event.webSocketClose 0)
      (run exampleConfig
        [(noThrows, Event.subscribe "/topic/chat" (some 7) [] 1700000000000),
         (noThrows, Event.connect exampleCallbacks),
         (noThrows, Event.sessionConnected 0)] init)).activeSubscriptions =
      (run exampleConfig
        [(noThrows, Event.subscribe "/topic/chat" (some 7) [] 1700000000000),
         (noThrows, Event.connect exampleCallbacks),
         (noThrows, Event.sessionConnected 0)] init).activeSubscriptions :=
  ⟨((failure_schedules_reconnect exampleConfig noThrows
      (run exampleConfig
        [(noThrows, Event.subscribe "/topic/chat" (some 7) [] 1700000000000),
         (noThrows, Event.connect exampleCallbacks),
         (noThrows, Event.sessionConnected 0)] init) 0 (by decide) (by decide)
      (run_timerInv _ _ _ timerInv_init)).2.1.2.1 (by decide)).trans (by decide),
   (failure_schedules_reconnect exampleConfig noThrows
      (run exampleConfig
        [(noThrows, Event.subscribe "/topic/chat" (some 7) [] 1700000000000),
         (noThrows, Event.connect exampleCallbacks),
         (noThrows, Event.sessionConnected 0)] init) 0 (by decide) (by decide)
      (run_timerInv _ _ _ timerInv_init)).2.1.2.2.2.1⟩

end Stomp

namespace Stomp

/-! ## `publish` -/

/-- C12, the claim as stated fails.  With session 0 connected, `publish` without a body (the
body is `undefined`) hands over one frame whose body is the text of the empty object, the
default of the parameter, and not what `JSON.stringify` gives for the input. -/
theorem publish_default_body_counterexample :
    (match publish jsonConfig "/app/chat" (PublishBody.prim Chat.JsVal.undefined)
        (run jsonConfig
          [(noThrows, Event.connect exampleCallbacks), (noThrows, Event.sessionConnected 0)]
          init) with
      | Except.ok s₁ => s₁.log.getLast?
      | Except.error _ => none) = some (Effect.send 0 "/app/chat" "\x7b\x7d") ∧
    jsonConfig.jsonStringify (PublishBody.object []) = "\x7b\x7d" ∧
    jsonConfig.jsonStringify (PublishBody.prim Chat.JsVal.undefined) ≠ "\x7b\x7d" := by
  decide

/-- C12, amended.  `publish` throws, with the message of the not-connected error, exactly
when the manager has no session or its session is not connected; the state at the throw is
the state before the call, so no frame was sent.  Otherwise it returns normally, the manager
object is unchanged and exactly one effect is added: one frame handed to the current session
for the destination.  The body of the frame is the input itself for a string, the JSON text
of the empty object for an omitted (`undefined`) body, and the JSON text of the input for
every other body. -/
theorem publish_spec (cfg : Config) (destination : String) (body : PublishBody) (s : State) :
    ((∃ thrown, publish cfg destination body s = Except.error thrown) ↔
      (s.client = none ∨ ∃ c, s.client = some c ∧ s.connected c = false)) ∧
    (∀ thrown, publish cfg destination body s = Except.error thrown →
      thrown.message = "STOMP client is not connected." ∧ thrown.state = s) ∧
    (∀ s₁, publish cfg destination body s = Except.ok s₁ →
      ∃ c, s.client = some c ∧ s.connected c = true ∧ s₁.manager = s.manager ∧
        s₁.sessions = s.sessions ∧ s₁.timers = s.timers ∧
        ∃ payload, s₁.log = s.log ++ [Effect.send c destination payload] ∧
          (∀ text, body = PublishBody.prim (Chat.JsVal.str text) → payload = text) ∧
          (body = PublishBody.prim Chat.JsVal.undefined →
            payload = cfg.jsonStringify (PublishBody.object [])) ∧
          ((∀ text, body ≠ PublishBody.prim (Chat.JsVal.str text)) →
            body ≠ PublishBody.prim Chat.JsVal.undefined →
            payload = cfg.jsonStringify body)) := by
  cases hc : s.client with
  | none =>
    refine ⟨⟨fun _ => Or.inl rfl, fun _ =>
      ⟨{ message := "STOMP client is not connected.", state := s },
        by simp [publish, hc]⟩⟩, ?_, ?_⟩
    · intro thrown h
      simp only [publish, hc, Except.error.injEq] at h
      subst h
      exact ⟨rfl, rfl⟩
    · intro s₁ h
      simp [publish, hc] at h
  | some c =>
    by_cases hconn : s.connected c = true
    · have hpub : ∃ payload, publish cfg destination body s =
          Except.ok (s.emit (Effect.send c destination payload)) ∧
          (∀ text, body = PublishBody.prim (Chat.JsVal.str text) → payload = text) ∧
          (body = PublishBody.prim Chat.JsVal.undefined →
            payload = cfg.jsonStringify (PublishBody.object [])) ∧
          ((∀ text, body ≠ PublishBody.prim (Chat.JsVal.str text)) →
            body ≠ PublishBody.prim Chat.JsVal.undefined →
            payload = cfg.jsonStringify body) := by
        cases body with
        | object fields =>
          exact ⟨_, by simp [publish, hc, hconn], by simp, by simp, fun _ _ => rfl⟩
        | prim v =>
          cases v with
          | undefined =>
            exact ⟨_, by simp [publish, hc, hconn], by simp, fun _ => rfl,
              fun _ h => absurd rfl h⟩
          | str text =>
            exact ⟨text, by simp [publish, hc, hconn],
              fun t ht => by cases ht; rfl, by simp, fun h _ => absurd rfl (h text)⟩
          | null => exact ⟨_, by simp [publish, hc, hconn], by simp, by simp, fun _ _ => rfl⟩
          | bool b => exact ⟨_, by simp [publish, hc, hconn], by simp, by simp, fun _ _ => rfl⟩
          | num x => exact ⟨_, by simp [publish, hc, hconn], by simp, by simp, fun _ _ => rfl⟩
      obtain ⟨payload, hp, h₁, h₂, h₃⟩ := hpub
      refine ⟨⟨?_, ?_⟩, ?_, ?_⟩
      · rintro ⟨thrown, h⟩
        rw [hp] at h
        cases h
      · rintro (h | ⟨c₁, h, h'⟩)
        · cases h
        · cases h
          rw [hconn] at h'
          cases h'
      · intro thrown h
        rw [hp] at h
        cases h
      · intro s₁ h
        rw [hp] at h
        cases h
        exact ⟨c, rfl, hconn, rfl, rfl, rfl, payload, rfl, h₁, h₂, h₃⟩
    · have hconn₁ : s.connected c = false := by
        cases h : s.connected c
        · rfl
        · exact absurd h hconn
      have hp : publish cfg destination body s =
          Except.error { message := "STOMP client is not connected.", state := s } := by
        simp [publish, hc, hconn₁]
      refine ⟨⟨fun _ => Or.inr ⟨c, rfl, hconn₁⟩, fun _ => ⟨_, hp⟩⟩, ?_, ?_⟩
      · intro thrown h
        rw [hp] at h
        cases h
        exact ⟨rfl, rfl⟩
      · intro s₁ h
        rw [hp] at h
        cases h

/-- C12, examples: a string body goes out as it is and the object `useChat` builds goes out
as its JSON text, on the connected session 0; with no session `publish` throws. -/
theorem publish_spec_examples :
    (match publish jsonConfig "/app/chat" (PublishBody.prim (Chat.JsVal.str "hi"))
        (run jsonConfig
          [(noThrows, Event.connect exampleCallbacks), (noThrows, Event.sessionConnected 0)]
          init) with
      | Except.ok s₁ => s₁.log.getLast?
      | Except.error _ => none) = some (Effect.send 0 "/app/chat" "hi") ∧
    (match publish jsonConfig "/app/chat"
        (PublishBody.object
          [("nickname", Chat.JsVal.str "alice"), ("message", Chat.JsVal.str "hi")])
        (run jsonConfig
          [(noThrows, Event.connect exampleCallbacks), (noThrows, Event.sessionConnected 0)]
          init) with
      | Except.ok s₁ => s₁.log.getLast?
      | Except.error _ => none) =
      some (Effect.send 0 "/app/chat"
        "\x7b\"nickname\":\"alice\",\"message\":\"hi\"\x7d") ∧
    (match publish jsonConfig "/app/chat" (PublishBody.prim (Chat.JsVal.str "hi")) init with
      | Except.ok _ => none
      | Except.error thrown => some thrown.message) =
      some "STOMP client is not connected." := by
  decide

end Stomp

namespace Stomp

/-! ## Subscription ids -/

theorem digitChar_value : ∀ k, k < 10 →
    (Nat.digitChar k).toNat - 48 = k ∧ Nat.digitChar k ≠ '-' := by
  decide

theorem toDigitsCore_decode (fuel n : Nat) (ds : List Char) (h : n < fuel) :
    ∃ pre, Nat.toDigitsCore 10 fuel n ds = pre ++ ds ∧ (∀ c ∈ pre, c ≠ '-') ∧
      pre.foldl (fun a c => a * 10 + (c.toNat - 48)) 0 = n := by
  induction fuel generalizing n ds with
  | zero => omega
  | succ fuel ih =>
    have hd := digitChar_value (n % 10) (Nat.mod_lt _ (by decide))
    by_cases h0 : n / 10 = 0
    · refine ⟨[Nat.digitChar (n % 10)], ?_, ?_, ?_⟩
      · simp [Nat.toDigitsCore, h0]
      · intro c hc
        rw [List.mem_singleton.mp hc]
        exact hd.2
      · simp only [List.foldl_cons, List.foldl_nil, Nat.zero_mul, Nat.zero_add, hd.1]
        omega
    · have hlt : n / 10 < fuel := by omega
      obtain ⟨pre, h₁, h₂, h₃⟩ := ih (n / 10) (Nat.digitChar (n % 10) :: ds) hlt
      refine ⟨pre ++ [Nat.digitChar (n % 10)], ?_, ?_, ?_⟩
      · simp [Nat.toDigitsCore, h0, h₁]
      · intro c hc
        rcases List.mem_append.mp hc with hc | hc
        · exact h₂ c hc
        · rw [List.mem_singleton.mp hc]
          exact hd.2
      · rw [List.foldl_append, h₃]
        simp only [List.foldl_cons, List.foldl_nil, hd.1]
        omega

theorem toString_decode (n : Nat) :
    (∀ c ∈ (toString n).data, c ≠ '-') ∧
    (toString n).data.foldl (fun a c => a * 10 + (c.toNat - 48)) 0 = n := by
  obtain ⟨pre, h₁, h₂, h₃⟩ := toDigitsCore_decode (n + 1) n [] (Nat.lt_succ_self n)
  have hdata : (toString n).data = pre := by
    show (Nat.toDigits 10 n).asString.data = pre
    unfold Nat.toDigits
    rw [h₁, List.append_nil]
    rfl
  rw [hdata]
  exact ⟨h₂, h₃⟩

theorem takeWhile_append_stop {α : Type} (p : α → Bool) (l r : List α) (a : α)
    (hl : ∀ c ∈ l, p c = true) (ha : p a = false) : (l ++ a :: r).takeWhile p = l := by
  induction l with
  | nil => simp [List.takeWhile, ha]
  | cons b l ih =>
    have hb : p b = true := hl b (List.mem_cons_self _ _)
    simp only [List.cons_append, List.takeWhile_cons, hb, if_true]
    rw [ih (fun c hc => hl c (List.mem_cons_of_mem _ hc))]

/-- The index can be read back from a subscription id: it is the number after the last
hyphen. -/
theorem subscriptionId_index (now index : Nat) :
    ((("sub-" ++ toString now ++ "-" ++ toString index).data.reverse.takeWhile
        (fun c => decide (c ≠ '-'))).reverse).foldl
      (fun a c => a * 10 + (c.toNat - 48)) 0 = index := by
  obtain ⟨h₁, h₂⟩ := toString_decode index
  have hdata : ("sub-" ++ toString now ++ "-" ++ toString index).data =
      ("sub-" ++ toString now).data ++ '-' :: (toString index).data := by
    simp only [String.data_append]
    simp
  rw [hdata, List.reverse_append, List.reverse_cons, List.append_assoc, List.singleton_append,
    takeWhile_append_stop _ _ _ _ (by
      intro c hc
      simpa using h₁ c (List.mem_reverse.mp hc)) (by simp), List.reverse_reverse]
  exact h₂

theorem subscriptionId_injective (now₁ now₂ index₁ index₂ : Nat)
    (h : "sub-" ++ toString now₁ ++ "-" ++ toString index₁ =
      "sub-" ++ toString now₂ ++ "-" ++ toString index₂) : index₁ = index₂ := by
  rw [← subscriptionId_index now₁ index₁, h, subscriptionId_index now₂ index₂]

end Stomp

namespace Stomp

/-! ## The registry invariant -/

theorem issuedBelow_mono (n₁ n₂ : Nat) (id : String) (hn : n₁ ≤ n₂)
    (h : IssuedBelow n₁ id) : IssuedBelow n₂ id := by
  obtain ⟨now, index, h₁, h₂⟩ := h
  exact ⟨now, index, h₁, Nat.le_trans h₂ hn⟩

theorem issuedBelow_fresh (n now : Nat)
    (h : IssuedBelow n ("sub-" ++ toString now ++ "-" ++ toString (n + 1))) : False := by
  obtain ⟨now₁, index, h₁, h₂⟩ := h
  have := subscriptionId_injective now now₁ (n + 1) index h₁
  omega

theorem mapSet_keys {β : Type} (m : List (String × β)) (k : String) (v : β) (x : String)
    (hx : x ∈ (mapSet m k v).map Prod.fst) : x = k ∨ x ∈ m.map Prod.fst := by
  induction m with
  | nil =>
    simp only [mapSet, List.map_cons, List.map_nil, List.mem_singleton] at hx
    exact Or.inl hx
  | cons p m ih =>
    obtain ⟨k₁, v₁⟩ := p
    by_cases he : k₁ = k
    · simp only [mapSet, he, if_true, List.map_cons, List.mem_cons] at hx ⊢
      rcases hx with h | h
      · exact Or.inl h
      · exact Or.inr (Or.inr h)
    · simp only [mapSet, he, if_false, List.map_cons, List.mem_cons] at hx ⊢
      rcases hx with h | h
      · exact Or.inr (Or.inl h)
      · rcases ih h with h | h
        · exact Or.inl h
        · exact Or.inr (Or.inr h)

theorem mapDelete_keys {β : Type} (m : List (String × β)) (k : String) (x : String)
    (hx : x ∈ (mapDelete m k).map Prod.fst) : x ∈ m.map Prod.fst ∧ x ≠ k := by
  obtain ⟨p, hp, rfl⟩ := List.mem_map.mp hx
  unfold mapDelete at hp
  rw [List.mem_filter] at hp
  exact ⟨List.mem_map_of_mem _ hp.1, of_decide_eq_true hp.2⟩

theorem mapGet_mapDelete {β : Type} (m : List (String × β)) (k x : String) :
    mapGet (mapDelete m k) x = if x = k then none else mapGet m x := by
  induction m with
  | nil => simp [mapDelete, mapGet]
  | cons p m ih =>
    obtain ⟨k₁, v₁⟩ := p
    unfold mapDelete at ih ⊢
    by_cases he : k₁ = k
    · subst he
      simp only [List.filter_cons, ne_eq, not_true_eq_false, decide_False, Bool.false_eq_true,
        if_false, ih]
      by_cases hx : x = k₁
      · simp [hx]
      · have hx₁ : ¬ k₁ = x := fun e => hx e.symm
        simp [hx, mapGet, hx₁]
    · simp only [List.filter_cons, ne_eq, he, not_false_eq_true, decide_True, if_true]
      by_cases hx : k₁ = x
      · subst hx
        simp [mapGet, he]
      · simp only [mapGet, hx, if_false]
        exact ih

theorem mapDelete_append_fresh {β : Type} (m : List (String × β)) (k : String) (v : β)
    (h : k ∉ m.map Prod.fst) : mapDelete (m ++ [(k, v)]) k = m := by
  unfold mapDelete
  rw [List.filter_append]
  have h₁ : m.filter (fun p => decide (p.1 ≠ k)) = m := by
    rw [List.filter_eq_self]
    intro p hp
    have : p.1 ≠ k := fun e => h (e ▸ List.mem_map_of_mem Prod.fst hp)
    simpa using this
  have h₂ : [(k, v)].filter (fun p => decide (p.1 ≠ k)) = [] := by simp
  rw [h₁, h₂, List.append_nil]

theorem mapGet_append_fresh {β : Type} (m : List (String × β)) (k : String) (v : β)
    (h : k ∉ m.map Prod.fst) : mapGet (m ++ [(k, v)]) k = some v := by
  induction m with
  | nil => simp [mapGet]
  | cons p m ih =>
    obtain ⟨k₁, v₁⟩ := p
    simp only [List.map_cons, List.mem_cons, not_or] at h
    have hne : ¬ k₁ = k := fun e => h.1 e.symm
    simp only [List.cons_append, mapGet, hne, if_false]
    exact ih h.2

theorem mapGet_none_of_fresh {β : Type} (m : List (String × β)) (k : String)
    (h : k ∉ m.map Prod.fst) : mapGet m k = none := by
  induction m with
  | nil => rfl
  | cons p m ih =>
    obtain ⟨k₁, v₁⟩ := p
    simp only [List.map_cons, List.mem_cons, not_or] at h
    have hne : ¬ k₁ = k := fun e => h.1 e.symm
    simp only [mapGet, hne, if_false]
    exact ih h.2

theorem handleDisconnect_registry (s : State) :
    (handleDisconnect s).subscriptions = s.subscriptions ∧
    (handleDisconnect s).activeSubscriptions = s.activeSubscriptions ∧
    (handleDisconnect s).subscriptionIndex = s.subscriptionIndex := by
  cases hsr : s.shouldReconnect with
  | false => rw [handleDisconnect_disabled s hsr]; exact ⟨rfl, rfl, rfl⟩
  | true =>
    cases hrt : s.reconnectTimeout with
    | some id =>
      obtain ⟨extra, he, -⟩ := handleDisconnect_pending s hsr id hrt
      rw [he]
      exact ⟨rfl, rfl, rfl⟩
    | none =>
      obtain ⟨extra, he, -⟩ := handleDisconnect_schedule s hsr hrt
      rw [he]
      exact ⟨rfl, rfl, rfl⟩

theorem reconnectTimerBody_registry (th : Throws) (s : State) :
    (reconnectTimerBody th s).subscriptions = s.subscriptions ∧
    (reconnectTimerBody th s).activeSubscriptions = s.activeSubscriptions ∧
    (reconnectTimerBody th s).subscriptionIndex = s.subscriptionIndex := by
  cases hsr : s.shouldReconnect with
  | false => rw [reconnectTimerBody_disabled th s hsr]; exact ⟨rfl, rfl, rfl⟩
  | true =>
    obtain ⟨extra, he, -⟩ := reconnectTimerBody_enabled th s hsr
    rw [he]
    exact ⟨rfl, rfl, rfl⟩

theorem registryInv_congr (s s₁ : State) (h₁ : s₁.subscriptions = s.subscriptions)
    (h₂ : s₁.activeSubscriptions = s.activeSubscriptions)
    (h₃ : s₁.subscriptionIndex = s.subscriptionIndex) (h : RegistryInv s) :
    RegistryInv s₁ := by
  unfold RegistryInv at *
  rw [h₁, h₂, h₃]
  exact h

end Stomp

namespace Stomp

theorem mapGet_mapSet_self {β : Type} (m : List (String × β)) (k : String) (v : β) :
    mapGet (mapSet m k v) k = some v := by
  induction m with
  | nil => simp [mapSet, mapGet]
  | cons p m ih =>
    obtain ⟨k₁, v₁⟩ := p
    by_cases he : k₁ = k
    · simp [mapSet, mapGet, he]
    · simp [mapSet, mapGet, he, ih]

theorem subscribe_connected (destination : String) (cb : Nat)
    (headers : List (String × String)) (now : Nat) (s : State) (c : Nat)
    (hd : destination ≠ "") (hc : s.client = some c) (hconn : s.connected c = true) :
    subscribe destination (some cb) headers now s =
      (some ("sub-" ++ toString now ++ "-" ++ toString (s.subscriptionIndex + 1)),
       { s with
         subscriptionIndex := s.subscriptionIndex + 1
         subscriptions := mapSet s.subscriptions
           ("sub-" ++ toString now ++ "-" ++ toString (s.subscriptionIndex + 1))
           { destination := destination, callback := cb, headers := headers }
         activeSubscriptions := mapSet s.activeSubscriptions
           ("sub-" ++ toString now ++ "-" ++ toString (s.subscriptionIndex + 1))
           { hid := s.nextHandle, session := c, destination := destination, callback := cb,
             headers := headers }
         nextHandle := s.nextHandle + 1
         log := s.log ++ [Effect.subscribe
           { hid := s.nextHandle, session := c, destination := destination, callback := cb,
             headers := headers }] }) := by
  obtain ⟨cl, subs, act, cbs, rt, cd, sr, si, sess, tm, nt, nh, log⟩ := s
  simp only at hc
  subst hc
  have hconn₁ : sess[c]?.getD false = true := by simpa [State.connected] using hconn
  simp [subscribe, hd, ensureSubscribed, State.connected, hconn₁, mapGet_mapSet_self,
    bindSubscription, State.emit]

theorem subscribe_not_connected (destination : String) (cb : Nat)
    (headers : List (String × String)) (now : Nat) (s : State) (hd : destination ≠ "")
    (hc : s.client = none ∨ ∃ c, s.client = some c ∧ s.connected c = false) :
    subscribe destination (some cb) headers now s =
      (some ("sub-" ++ toString now ++ "-" ++ toString (s.subscriptionIndex + 1)),
       { s with
         subscriptionIndex := s.subscriptionIndex + 1
         subscriptions := mapSet s.subscriptions
           ("sub-" ++ toString now ++ "-" ++ toString (s.subscriptionIndex + 1))
           { destination := destination, callback := cb, headers := headers } }) := by
  obtain ⟨cl, subs, act, cbs, rt, cd, sr, si, sess, tm, nt, nh, log⟩ := s
  rcases hc with hc | ⟨c, hc, hconn⟩
  · simp only at hc
    subst hc
    simp [subscribe, hd, ensureSubscribed]
  · simp only at hc
    subst hc
    have hconn₁ : sess[c]?.getD false = false := by simpa [State.connected] using hconn
    simp [subscribe, hd, ensureSubscribed, State.connected, hconn₁]

theorem subscribe_invalid (destination : String) (callback : Option Nat)
    (headers : List (String × String)) (now : Nat) (s : State)
    (h : destination = "" ∨ callback = none) :
    subscribe destination callback headers now s =
      (none, s.emit (Effect.console "subscribe requires a destination and a callback")) := by
  cases callback with
  | none => rfl
  | some cb =>
    rcases h with h | h
    · simp [subscribe, h]
    · cases h

theorem subscribe_cases (destination : String) (callback : Option Nat)
    (headers : List (String × String)) (now : Nat) (s : State) :
    ((subscribe destination callback headers now s).1 = none ∧
      (subscribe destination callback headers now s).2.subscriptions = s.subscriptions ∧
      (subscribe destination callback headers now s).2.activeSubscriptions =
        s.activeSubscriptions ∧
      (subscribe destination callback headers now s).2.subscriptionIndex =
        s.subscriptionIndex) ∨
    (∃ sub, (subscribe destination callback headers now s).1 =
        some ("sub-" ++ toString now ++ "-" ++ toString (s.subscriptionIndex + 1)) ∧
      (subscribe destination callback headers now s).2.subscriptions =
        mapSet s.subscriptions
          ("sub-" ++ toString now ++ "-" ++ toString (s.subscriptionIndex + 1)) sub ∧
      ((subscribe destination callback headers now s).2.activeSubscriptions =
          s.activeSubscriptions ∨
        ∃ h, (subscribe destination callback headers now s).2.activeSubscriptions =
          mapSet s.activeSubscriptions
            ("sub-" ++ toString now ++ "-" ++ toString (s.subscriptionIndex + 1)) h) ∧
      (subscribe destination callback headers now s).2.subscriptionIndex =
        s.subscriptionIndex + 1) := by
  by_cases hinv : destination = "" ∨ callback = none
  · left
    rw [subscribe_invalid destination callback headers now s hinv]
    exact ⟨rfl, rfl, rfl, rfl⟩
  · right
    simp only [not_or] at hinv
    obtain ⟨hd, hcb⟩ := hinv
    cases callback with
    | none => exact absurd rfl hcb
    | some cb =>
      by_cases hc : s.client = none ∨ ∃ c, s.client = some c ∧ s.connected c = false
      · rw [subscribe_not_connected destination cb headers now s hd hc]
        exact ⟨_, rfl, rfl, Or.inl rfl, rfl⟩
      · simp only [not_or, not_exists, not_and] at hc
        cases hcl : s.client with
        | none => exact absurd hcl hc.1
        | some c =>
          have hconn : s.connected c = true := by
            cases h : s.connected c
            · exact absurd h (hc.2 c hcl)
            · rfl
          rw [subscribe_connected destination cb headers now s c hd hcl hconn]
          exact ⟨_, rfl, rfl, Or.inr ⟨_, rfl⟩, rfl⟩

theorem not_mem_keys_of_mapGet_none {β : Type} (m : List (String × β)) (k : String)
    (h : mapGet m k = none) : k ∉ m.map Prod.fst := by
  induction m with
  | nil => simp
  | cons p m ih =>
    obtain ⟨k₁, v₁⟩ := p
    by_cases he : k₁ = k
    · simp [mapGet, he] at h
    · simp only [mapGet, he, if_false] at h
      simp only [List.map_cons, List.mem_cons, not_or]
      exact ⟨fun e => he e.symm, ih h⟩

theorem mapDelete_fresh {β : Type} (m : List (String × β)) (k : String)
    (h : k ∉ m.map Prod.fst) : mapDelete m k = m := by
  unfold mapDelete
  rw [List.filter_eq_self]
  intro p hp
  have : p.1 ≠ k := fun e => h (e ▸ List.mem_map_of_mem Prod.fst hp)
  simpa using this

theorem unsubscribe_registry (th : Throws) (id : String) (s : State) :
    (unsubscribe th id s).subscriptions = mapDelete s.subscriptions id ∧
    (unsubscribe th id s).activeSubscriptions = mapDelete s.activeSubscriptions id ∧
    (unsubscribe th id s).subscriptionIndex = s.subscriptionIndex ∧
    (unsubscribe th id s).client = s.client ∧
    (∀ h, mapGet s.activeSubscriptions id = some h →
      unsubscribeCalls (unsubscribe th id s).log = unsubscribeCalls s.log ++ [h.hid]) ∧
    (mapGet s.activeSubscriptions id = none → (unsubscribe th id s).log = s.log) := by
  obtain ⟨cl, subs, act, cbs, rt, cd, sr, si, sess, tm, nt, nh, log⟩ := s
  cases hg : mapGet act id with
  | none =>
    have hact : mapDelete act id = act :=
      mapDelete_fresh act id (not_mem_keys_of_mapGet_none act id hg)
    simp only [unsubscribe, hg]
    refine ⟨trivial, hact.symm, trivial, trivial, ?_, fun _ => trivial⟩
    intro h hh
    cases hh
  | some active =>
    obtain ⟨extra, he, -, -, c⟩ := tryDebug_unsubscribe_eq th "Error while unsubscribing"
      active (State.mk cl subs act cbs rt cd sr si sess tm nt nh log)
    simp only at he
    simp only [unsubscribe, hg, he]
    refine ⟨trivial, trivial, trivial, trivial, ?_, ?_⟩
    · intro h hh
      cases hh
      rw [unsubscribeCalls_append, c]
    · intro hh
      cases hh

end Stomp

namespace Stomp

theorem step_registryInv (cfg : Config) (th : Throws) (e : Event) (s : State)
    (h : RegistryInv s) :
    RegistryInv (step cfg th e s) ∧
    s.subscriptionIndex ≤ (step cfg th e s).subscriptionIndex ∧
    (∀ id ∈ issuedIds cfg [(th, e)] s, IssuedBelow (step cfg th e s).subscriptionIndex id) := by
  have hsame : ∀ s₁ : State, s₁.subscriptions = s.subscriptions →
      s₁.activeSubscriptions = s.activeSubscriptions →
      s₁.subscriptionIndex = s.subscriptionIndex →
      RegistryInv s₁ ∧ s.subscriptionIndex ≤ s₁.subscriptionIndex := by
    intro s₁ h₁ h₂ h₃
    exact ⟨registryInv_congr s s₁ h₁ h₂ h₃ h, Nat.le_of_eq h₃.symm⟩
  obtain ⟨hn, hs, ha⟩ := h
  cases e with
  | connect callbacks =>
    have hp : RegistryInv (step cfg th (Event.connect callbacks) s) ∧
        s.subscriptionIndex ≤ (step cfg th (Event.connect callbacks) s).subscriptionIndex := by
      simp only [step]
      cases hurl : envTruthy cfg.wsUrl with
      | true =>
        obtain ⟨extra, he, -⟩ := connect_eq cfg th callbacks s hurl
        rw [he]
        exact hsame _ rfl rfl rfl
      | false =>
        rw [connect_without_url cfg th callbacks s hurl]
        exact hsame _ rfl rfl rfl
    exact ⟨hp.1, hp.2, by intro x hx; simp [issuedIds] at hx⟩
  | disconnect =>
    obtain ⟨extra, he, -⟩ := disconnect_eq th s
    simp only [step, he]
    refine ⟨⟨hn, hs, ?_⟩, Nat.le_refl _, by intro id hid; simp [issuedIds] at hid⟩
    intro id hid
    simp at hid
  | subscribe destination callback headers now =>
    have hnodup := step_subscriptions_nodup cfg th
      (Event.subscribe destination callback headers now) s hn
    simp only [step] at hnodup ⊢
    have hissued : issuedIds cfg [(th, Event.subscribe destination callback headers now)] s =
        (subscribe destination callback headers now s).1.toList := by
      simp [issuedIds]
    rw [hissued]
    rcases subscribe_cases destination callback headers now s with
      ⟨h₁, h₂, h₃, h₄⟩ | ⟨sub, h₁, h₂, h₃, h₄⟩
    · obtain ⟨k₁, k₂⟩ := hsame _ h₂ h₃ h₄
      refine ⟨k₁, k₂, ?_⟩
      intro id hid
      rw [h₁] at hid
      simp at hid
    · have hnew : IssuedBelow (s.subscriptionIndex + 1)
          ("sub-" ++ toString now ++ "-" ++ toString (s.subscriptionIndex + 1)) :=
        ⟨now, s.subscriptionIndex + 1, rfl, Nat.le_refl _⟩
      refine ⟨⟨hnodup, ?_, ?_⟩, by omega, ?_⟩
      · intro id hid
        rw [h₂] at hid
        rw [h₄]
        rcases mapSet_keys _ _ _ id hid with hk | hk
        · rw [hk]; exact hnew
        · exact issuedBelow_mono _ _ id (Nat.le_succ _) (hs id hk)
      · intro id hid
        rw [h₄]
        rcases h₃ with h₃ | ⟨hd, h₃⟩
        · rw [h₃] at hid
          exact issuedBelow_mono _ _ id (Nat.le_succ _) (ha id hid)
        · rw [h₃] at hid
          rcases mapSet_keys _ _ _ id hid with hk | hk
          · rw [hk]; exact hnew
          · exact issuedBelow_mono _ _ id (Nat.le_succ _) (ha id hk)
      · intro id hid
        rw [h₁] at hid
        simp only [Option.toList_some, List.mem_singleton] at hid
        rw [hid, h₄]
        exact hnew
  | unsubscribe id =>
    obtain ⟨h₁, h₂, h₃, -⟩ := unsubscribe_registry th id s
    simp only [step]
    refine ⟨⟨?_, ?_, ?_⟩, Nat.le_of_eq h₃.symm, by intro x hx; simp [issuedIds] at hx⟩
    · rw [h₁]
      exact mapDelete_keys_nodup _ _ hn
    · intro x hx
      rw [h₁] at hx
      rw [h₃]
      exact hs x (mapDelete_keys _ _ x hx).1
    · intro x hx
      rw [h₂] at hx
      rw [h₃]
      exact ha x (mapDelete_keys _ _ x hx).1
  | publish destination body =>
    have hp : RegistryInv (step cfg th (Event.publish destination body) s) ∧
        s.subscriptionIndex ≤ (step cfg th (Event.publish destination body) s).subscriptionIndex := by
      simp only [step, publish]
      cases s.client with
      | none => exact hsame _ rfl rfl rfl
      | some c =>
        by_cases hc : s.connected c = true
        · simp only [hc, Bool.not_true, Bool.false_eq_true, if_false]
          exact hsame _ rfl rfl rfl
        · simp only [hc, Bool.not_false, if_true]
          exact hsame _ rfl rfl rfl
    exact ⟨hp.1, hp.2, by intro x hx; simp [issuedIds] at hx⟩
  | sessionConnected sid =>
    have hp : RegistryInv (step cfg th (Event.sessionConnected sid) s) ∧
        s.subscriptionIndex ≤
          (step cfg th (Event.sessionConnected sid) s).subscriptionIndex := by
      simp only [step]
      split
      · obtain ⟨e₁, e₂, hc, -⟩ := onConnect_resubscribe th sid
          { s with sessions := s.sessions.set sid true } hn
        rw [hc]
        refine ⟨⟨hn, hs, ?_⟩, Nat.le_refl _⟩
        intro id hid
        have hkeys := boundHandles_keys sid s.nextHandle s.subscriptions
        exact hs id (hkeys ▸ hid)
      · exact hsame _ rfl rfl rfl
    exact ⟨hp.1, hp.2, by intro x hx; simp [issuedIds] at hx⟩
  | stompError sid =>
    have hp : RegistryInv (step cfg th (Event.stompError sid) s) ∧
        s.subscriptionIndex ≤ (step cfg th (Event.stompError sid) s).subscriptionIndex := by
      simp only [step]
      split
      · unfold onStompError
        cases s.callbacks.onError with
        | none =>
          obtain ⟨h₁, h₂, h₃⟩ := handleDisconnect_registry s
          exact hsame _ h₁ h₂ h₃
        | some fn =>
          obtain ⟨h₁, h₂, h₃⟩ := handleDisconnect_registry (s.emit (Effect.onError fn "stomp"))
          exact hsame _ h₁ h₂ h₃
      · exact hsame _ rfl rfl rfl
    exact ⟨hp.1, hp.2, by intro x hx; simp [issuedIds] at hx⟩
  | webSocketError sid =>
    have hp : RegistryInv (step cfg th (Event.webSocketError sid) s) ∧
        s.subscriptionIndex ≤
          (step cfg th (Event.webSocketError sid) s).subscriptionIndex := by
      simp only [step]
      split
      · unfold onWebSocketError
        cases s.callbacks.onError <;> exact hsame _ rfl rfl rfl
      · exact hsame _ rfl rfl rfl
    exact ⟨hp.1, hp.2, by intro x hx; simp [issuedIds] at hx⟩
  | webSocketClose sid =>
    have hp : RegistryInv (step cfg th (Event.webSocketClose sid) s) ∧
        s.subscriptionIndex ≤
          (step cfg th (Event.webSocketClose sid) s).subscriptionIndex := by
      simp only [step]
      split
      · unfold onWebSocketClose
        cases s.callbacks.onDisconnect with
        | none =>
          obtain ⟨h₁, h₂, h₃⟩ := handleDisconnect_registry
            { s with sessions := s.sessions.set sid false }
          exact hsame _ h₁ h₂ h₃
        | some fn =>
          obtain ⟨h₁, h₂, h₃⟩ := handleDisconnect_registry
            (({ s with sessions := s.sessions.set sid false } : State).emit
              (Effect.onDisconnect fn))
          exact hsame _ h₁ h₂ h₃
      · exact hsame _ rfl rfl rfl
    exact ⟨hp.1, hp.2, by intro x hx; simp [issuedIds] at hx⟩
  | timerFired id =>
    have hp : RegistryInv (step cfg th (Event.timerFired id) s) ∧
        s.subscriptionIndex ≤ (step cfg th (Event.timerFired id) s).subscriptionIndex := by
      simp only [step]
      split
      · obtain ⟨h₁, h₂, h₃⟩ := reconnectTimerBody_registry th
          { s with timers := s.timers.filter (fun t => decide (t.1 ≠ id)) }
        exact hsame _ h₁ h₂ h₃
      · exact hsame _ rfl rfl rfl
    exact ⟨hp.1, hp.2, by intro x hx; simp [issuedIds] at hx⟩

theorem run_registryInv (cfg : Config) (trace : List (Throws × Event)) (s : State)
    (h : RegistryInv s) :
    RegistryInv (run cfg trace s) ∧
    s.subscriptionIndex ≤ (run cfg trace s).subscriptionIndex ∧
    (∀ id ∈ issuedIds cfg trace s, IssuedBelow (run cfg trace s).subscriptionIndex id) := by
  induction trace generalizing s with
  | nil => exact ⟨h, Nat.le_refl _, by intro id hid; simp [issuedIds] at hid⟩
  | cons x rest ih =>
    obtain ⟨th, e⟩ := x
    obtain ⟨h₁, h₂, h₃⟩ := step_registryInv cfg th e s h
    obtain ⟨k₁, k₂, k₃⟩ := ih (step cfg th e s) h₁
    refine ⟨k₁, Nat.le_trans h₂ k₂, ?_⟩
    intro id hid
    have hsplit : issuedIds cfg ((th, e) :: rest) s =
        issuedIds cfg [(th, e)] s ++ issuedIds cfg rest (step cfg th e s) := by
      simp [issuedIds]
    rw [hsplit] at hid
    rcases List.mem_append.mp hid with hid | hid
    · exact issuedBelow_mono _ _ id k₂ (h₃ id hid)
    · exact k₃ id hid

theorem registryInv_init : RegistryInv init := by
  unfold RegistryInv
  refine ⟨List.nodup_nil, ?_, ?_⟩
  · intro id hid
    cases hid
  · intro id hid
    cases hid

end Stomp

namespace Stomp

/-! ## The subscription lifecycle -/

/-- C13.  Let `s` be a state the manager has reached from its constructor, and let
`subscribe` be called with a non-empty destination and a callable handler.  It returns the
function that unsubscribes a new id: the id differs from every id `subscribe` returned
before and is not in the registry.  The registry gains exactly one entry, the subscription
under that id, and keeps every other entry.  If the current session is connected, one handle
for it is made on that session and added to `activeSubscriptions`; if there is no session or
it is not connected, no handle is made.  The returned function, invoked in any state, removes
the entries of that id from the registry and from `activeSubscriptions`, calls `unsubscribe`
on the handle if there is one, and leaves the other entries as they are; invoked right away
it restores the registry and `activeSubscriptions`.  A call with an empty destination or
without a callable handler returns the function that does nothing and leaves the manager
object unchanged. -/
theorem subscribe_lifecycle (cfg : Config) (trace : List (Throws × Event)) (s : State)
    (destination : String) (cb : Nat) (headers : List (String × String)) (now : Nat)
    (hs : s = run cfg trace init) (hd : destination ≠ "") :
    ∃ id, (subscribe destination (some cb) headers now s).1 = some id ∧
      id = "sub-" ++ toString now ++ "-" ++ toString (s.subscriptionIndex + 1) ∧
      id ∉ issuedIds cfg trace init ∧
      id ∉ s.subscriptions.map Prod.fst ∧
      (subscribe destination (some cb) headers now s).2.subscriptions =
        s.subscriptions ++
          [(id, { destination := destination, callback := cb, headers := headers })] ∧
      (∀ c, s.client = some c → s.connected c = true →
        (subscribe destination (some cb) headers now s).2.activeSubscriptions =
          s.activeSubscriptions ++
            [(id, { hid := s.nextHandle, session := c, destination := destination,
                    callback := cb, headers := headers })] ∧
        (subscribe destination (some cb) headers now s).2.log =
          s.log ++ [Effect.subscribe
            { hid := s.nextHandle, session := c, destination := destination,
              callback := cb, headers := headers }]) ∧
      ((s.client = none ∨ ∃ c, s.client = some c ∧ s.connected c = false) →
        (subscribe destination (some cb) headers now s).2.activeSubscriptions =
          s.activeSubscriptions ∧
        (subscribe destination (some cb) headers now s).2.log = s.log) ∧
      (∀ th : Throws,
        (unsubscribe th id (subscribe destination (some cb) headers now s).2).subscriptions =
          s.subscriptions ∧
        (unsubscribe th id
          (subscribe destination (some cb) headers now s).2).activeSubscriptions =
          s.activeSubscriptions) ∧
      (∀ (th : Throws) (s₁ : State),
        (unsubscribe th id s₁).subscriptions =
          s₁.subscriptions.filter (fun p => decide (p.1 ≠ id)) ∧
        (unsubscribe th id s₁).activeSubscriptions =
          s₁.activeSubscriptions.filter (fun p => decide (p.1 ≠ id)) ∧
        (∀ x, x ≠ id →
          mapGet (unsubscribe th id s₁).subscriptions x = mapGet s₁.subscriptions x ∧
          mapGet (unsubscribe th id s₁).activeSubscriptions x =
            mapGet s₁.activeSubscriptions x) ∧
        mapGet (unsubscribe th id s₁).subscriptions id = none ∧
        mapGet (unsubscribe th id s₁).activeSubscriptions id = none ∧
        (∀ h, mapGet s₁.activeSubscriptions id = some h →
          unsubscribeCalls (unsubscribe th id s₁).log =
            unsubscribeCalls s₁.log ++ [h.hid])) ∧
      (∀ (destination₁ : String) (callback₁ : Option Nat),
        destination₁ = "" ∨ callback₁ = none →
        (subscribe destination₁ callback₁ headers now s).1 = none ∧
        (subscribe destination₁ callback₁ headers now s).2.manager = s.manager) := by
  obtain ⟨hinv, -, hissued⟩ := run_registryInv cfg trace init registryInv_init
  rw [← hs] at hinv hissued
  obtain ⟨-, hsubs, hact⟩ := hinv
  have hfresh₁ : "sub-" ++ toString now ++ "-" ++ toString (s.subscriptionIndex + 1) ∉
      issuedIds cfg trace init := fun hmem => issuedBelow_fresh _ now (hissued _ hmem)
  have hfresh₂ : "sub-" ++ toString now ++ "-" ++ toString (s.subscriptionIndex + 1) ∉
      s.subscriptions.map Prod.fst := fun hmem => issuedBelow_fresh _ now (hsubs _ hmem)
  have hfresh₃ : "sub-" ++ toString now ++ "-" ++ toString (s.subscriptionIndex + 1) ∉
      s.activeSubscriptions.map Prod.fst := fun hmem => issuedBelow_fresh _ now (hact _ hmem)
  have hunsub : ∀ (th : Throws) (s₁ : State) (id : String),
      (unsubscribe th id s₁).subscriptions =
        s₁.subscriptions.filter (fun p => decide (p.1 ≠ id)) ∧
      (unsubscribe th id s₁).activeSubscriptions =
        s₁.activeSubscriptions.filter (fun p => decide (p.1 ≠ id)) ∧
      (∀ x, x ≠ id →
        mapGet (unsubscribe th id s₁).subscriptions x = mapGet s₁.subscriptions x ∧
        mapGet (unsubscribe th id s₁).activeSubscriptions x =
          mapGet s₁.activeSubscriptions x) ∧
      mapGet (unsubscribe th id s₁).subscriptions id = none ∧
      mapGet (unsubscribe th id s₁).activeSubscriptions id = none ∧
      (∀ h, mapGet s₁.activeSubscriptions id = some h →
        unsubscribeCalls (unsubscribe th id s₁).log =
          unsubscribeCalls s₁.log ++ [h.hid]) := by
    intro th s₁ id
    obtain ⟨h₁, h₂, -, -, h₅, -⟩ := unsubscribe_registry th id s₁
    refine ⟨h₁, h₂, ?_, ?_, ?_, h₅⟩
    · intro x hx
      rw [h₁, h₂, mapGet_mapDelete, mapGet_mapDelete]
      simp [hx]
    · rw [h₁, mapGet_mapDelete]
      simp
    · rw [h₂, mapGet_mapDelete]
      simp
  have hsub : (subscribe destination (some cb) headers now s).1 =
        some ("sub-" ++ toString now ++ "-" ++ toString (s.subscriptionIndex + 1)) ∧
      (subscribe destination (some cb) headers now s).2.subscriptions =
        s.subscriptions ++
          [("sub-" ++ toString now ++ "-" ++ toString (s.subscriptionIndex + 1),
            { destination := destination, callback := cb, headers := headers })] := by
    by_cases hc : s.client = none ∨ ∃ c, s.client = some c ∧ s.connected c = false
    · rw [subscribe_not_connected destination cb headers now s hd hc]
      exact ⟨rfl, mapSet_fresh _ _ _ hfresh₂⟩
    · simp only [not_or, not_exists, not_and] at hc
      cases hcl : s.client with
      | none => exact absurd hcl hc.1
      | some c =>
        have hconn : s.connected c = true := by
          cases h : s.connected c
          · exact absurd h (hc.2 c hcl)
          · rfl
        rw [subscribe_connected destination cb headers now s c hd hcl hconn]
        exact ⟨rfl, mapSet_fresh _ _ _ hfresh₂⟩
  have hconnected : ∀ c, s.client = some c → s.connected c = true →
      (subscribe destination (some cb) headers now s).2.activeSubscriptions =
        s.activeSubscriptions ++
          [("sub-" ++ toString now ++ "-" ++ toString (s.subscriptionIndex + 1),
            { hid := s.nextHandle, session := c, destination := destination,
              callback := cb, headers := headers })] ∧
      (subscribe destination (some cb) headers now s).2.log =
        s.log ++ [Effect.subscribe
          { hid := s.nextHandle, session := c, destination := destination,
            callback := cb, headers := headers }] := by
    intro c hcl hconn
    rw [subscribe_connected destination cb headers now s c hd hcl hconn]
    exact ⟨mapSet_fresh _ _ _ hfresh₃, rfl⟩
  have hdown : (s.client = none ∨ ∃ c, s.client = some c ∧ s.connected c = false) →
      (subscribe destination (some cb) headers now s).2.activeSubscriptions =
        s.activeSubscriptions ∧
      (subscribe destination (some cb) headers now s).2.log = s.log := by
    intro hc
    rw [subscribe_not_connected destination cb headers now s hd hc]
    exact ⟨rfl, rfl⟩
  refine ⟨_, hsub.1, rfl, hfresh₁, hfresh₂, hsub.2, hconnected, hdown, ?_,
    fun th s₁ => hunsub th s₁ _, ?_⟩
  · intro th
    obtain ⟨h₁, h₂, -⟩ := unsubscribe_registry th
      ("sub-" ++ toString now ++ "-" ++ toString (s.subscriptionIndex + 1))
      (subscribe destination (some cb) headers now s).2
    rw [h₁, h₂, hsub.2, mapDelete_append_fresh _ _ _ hfresh₂]
    refine ⟨rfl, ?_⟩
    by_cases hc : s.client = none ∨ ∃ c, s.client = some c ∧ s.connected c = false
    · rw [(hdown hc).1]
      exact mapDelete_fresh _ _ hfresh₃
    · simp only [not_or, not_exists, not_and] at hc
      cases hcl : s.client with
      | none => exact absurd hcl hc.1
      | some c =>
        have hconn : s.connected c = true := by
          cases h : s.connected c
          · exact absurd h (hc.2 c hcl)
          · rfl
        rw [(hconnected c hcl hconn).1]
        exact mapDelete_append_fresh _ _ _ hfresh₃
  · intro destination₁ callback₁ hinvalid
    rw [subscribe_invalid destination₁ callback₁ headers now s hinvalid]
    exact ⟨rfl, rfl⟩

/-- C13, a witness: a first subscription is registered, `connect` is called and session 0
reports success; the second `subscribe` then returns the id with index 2, which was not
issued before, and binds it on session 0. -/
theorem subscribe_lifecycle_witness :
    (subscribe "/topic/news" (some 8) [] 1700000000001
        (run exampleConfig
          [(noThrows, Event.subscribe "/topic/chat" (some 7) [] 1700000000000),
           (noThrows, Event.connect exampleCallbacks),
           (noThrows, Event.sessionConnected 0)] init)).1 = some "sub-1700000000001-2" ∧
    issuedIds exampleConfig
        [(noThrows, Event.subscribe "/topic/chat" (some 7) [] 1700000000000),
         (noThrows, Event.connect exampleCallbacks),
         (noThrows, Event.sessionConnected 0)] init = ["sub-1700000000000-1"] ∧
    (subscribe "/topic/news" (some 8) [] 1700000000001
        (run exampleConfig
          [(noThrows, Event.subscribe "/topic/chat" (some 7) [] 1700000000000),
           (noThrows, Event.connect exampleCallbacks),
           (noThrows, Event.sessionConnected 0)] init)).2.activeSubscriptions =
      [("sub-1700000000000-1",
        { hid := 0, session := 0, destination := "/topic/chat", callback := 7,
          headers := [] }),
       ("sub-1700000000001-2",
        { hid := 1, session := 0, destination := "/topic/news", callback := 8,
          headers := [] })] := by
  obtain ⟨id, h₁, h₂, -⟩ := subscribe_lifecycle exampleConfig
    [(noThrows, Event.subscribe "/topic/chat" (some 7) [] 1700000000000),
     (noThrows, Event.connect exampleCallbacks),
     (noThrows, Event.sessionConnected 0)] _ "/topic/news" 8 [] 1700000000001 rfl
    (by decide)
  refine ⟨?_, by decide, by decide⟩
  rw [h₁, h₂]
  decide

end Stomp
